import Mathlib

/-!
# ICM-42670 FIFO buffer handling (drivers/iio/imu/inv_icm42670/inv_icm42670_buffer.c)

A shallow embedding of the packet decoder, of the watermark computation, of the FIFO
drain and of the buffer callbacks (postenable, predisable, postdisable) of the InvenSense
ICM-42670 driver, with the properties proved about them.

Conventions of the embedding
* a byte buffer is a `List Nat`; a byte is read with `rd8` (value taken modulo 256, an
  index past the end reads 0) and written with `List.set` (a store past the end is
  dropped); the properties that speak of stored bytes assume that the buffer covers them;
* a C pointer into the packet is `Option Nat`: `none` is `NULL`, `some o` is `packet + o`;
* `unsigned int` and `uint32_t` are naturals reduced modulo `2 ^ 32`, `size_t` is reduced
  modulo `2 ^ 64` (the arm64 target of this kernel tree), `ssize_t` and `int` are `Int`.
-/

namespace Icm42670

/-! ## Bit helpers of the kernel headers -/

/-- The kernel macro BIT(n). -/
def BIT (n : Nat) : Nat := 2 ^ n

/-- The kernel macro GENMASK(h, l): the bits l..h set. -/
def GENMASK (h l : Nat) : Nat := (2 ^ (h + 1) - 1) - (2 ^ l - 1)

/-- Width of unsigned int and uint32_t. -/
def U32_MOD : Nat := 2 ^ 32

/-- Width of size_t on the arm64 target. -/
def SIZE_MOD : Nat := 2 ^ 64

/-- The errno value EINVAL of the kernel (include/uapi/asm-generic/errno-base.h, not
among the sources). -/
def EINVAL : Int := 22

/-! ## FIFO header: 1 byte (lines 22-29) -/

def INV_ICM42670_FIFO_HEADER_MSG : Nat := BIT 7
def INV_ICM42670_FIFO_HEADER_ACCEL : Nat := BIT 6
def INV_ICM42670_FIFO_HEADER_GYRO : Nat := BIT 5
def INV_ICM42670_FIFO_HEADER_HIGHRES_20 : Nat := BIT 4
def INV_ICM42670_FIFO_HEADER_TMST_FSYNC : Nat := GENMASK 3 2
def INV_ICM42670_FIFO_HEADER_ODR_ACCEL : Nat := BIT 1
def INV_ICM42670_FIFO_HEADER_ODR_GYRO : Nat := BIT 0

/-! ## Packet layouts (lines 31-43)

Both structures are packed, so a field starts where the previous one ends. -/

/-- Modelled from the spec: struct inv_icm42670_fifo_sensor_data is declared in
inv_icm42670_buffer.h, which is not among the sources; it is the raw axis triplet,
three big-endian 16-bit fields x, y, z (the decoder uses gyro.x, gyro.y, gyro.z with
cpu_to_be16), 6 bytes. -/
def sizeof_fifo_sensor_data : Nat := 6

/-- Offset of axis x inside struct inv_icm42670_fifo_sensor_data. -/
def sensor_data_x : Nat := 0
/-- Offset of axis y inside struct inv_icm42670_fifo_sensor_data. -/
def sensor_data_y : Nat := 2
/-- Offset of axis z inside struct inv_icm42670_fifo_sensor_data. -/
def sensor_data_z : Nat := 4

/-- Offset of pack1->data in struct inv_icm42670_fifo_1sensor_packet (after the header byte). -/
def pack1_data : Nat := 1
/-- Offset of pack1->temp. -/
def pack1_temp : Nat := pack1_data + sizeof_fifo_sensor_data
/-- The sizeof of struct inv_icm42670_fifo_1sensor_packet (temp is one int8_t). -/
def sizeof_1sensor_packet : Nat := pack1_temp + 1

/-- Offset of pack2->accel in struct inv_icm42670_fifo_2sensors_packet. -/
def pack2_accel : Nat := 1
/-- Offset of pack2->gyro. -/
def pack2_gyro : Nat := pack2_accel + sizeof_fifo_sensor_data
/-- Offset of pack2->temp. -/
def pack2_temp : Nat := pack2_gyro + sizeof_fifo_sensor_data
/-- Offset of pack2->timestamp (a __be16). -/
def pack2_timestamp : Nat := pack2_temp + 1
/-- The sizeof of struct inv_icm42670_fifo_2sensors_packet. -/
def sizeof_2sensors_packet : Nat := pack2_timestamp + 2

/-- Modelled from the spec: INV_ICM42670_FIFO_1SENSOR_PACKET_SIZE is defined in
inv_icm42670_buffer.h, which is not among the sources; it is the fixed single-sensor
record length, 8 bytes (the size of struct inv_icm42670_fifo_1sensor_packet). -/
def INV_ICM42670_FIFO_1SENSOR_PACKET_SIZE : Nat := 8

/-- Modelled from the spec: INV_ICM42670_FIFO_2SENSORS_PACKET_SIZE is defined in
inv_icm42670_buffer.h, which is not among the sources; it is the fixed dual-sensor
record length, 16 bytes (the size of struct inv_icm42670_fifo_2sensors_packet). -/
def INV_ICM42670_FIFO_2SENSORS_PACKET_SIZE : Nat := 16

/-- Constants, macros and tables of inv_icm42670.h and inv_icm42670_buffer.h that the
functions below use and that are not among the sources; they are parameters of the
embedding. -/
structure Consts where
  /-- The flag INV_ICM42670_SENSOR_GYRO. -/
  SENSOR_GYRO : Nat
  /-- The flag INV_ICM42670_SENSOR_ACCEL. -/
  SENSOR_ACCEL : Nat
  /-- The mask INV_ICM42670_FIFO_CONFIG5_FIFO_GYRO_EN_MASK. -/
  FIFO_CONFIG5_FIFO_GYRO_EN_MASK : Nat
  /-- The mask INV_ICM42670_FIFO_CONFIG5_FIFO_ACCEL_EN_MASK. -/
  FIFO_CONFIG5_FIFO_ACCEL_EN_MASK : Nat
  /-- The byte capacity INV_ICM42670_FIFO_WATERMARK_MAX. -/
  FIFO_WATERMARK_MAX : Nat
  /-- The table inv_icm42670_odr_to_period: ODR enumeration to period in nanoseconds. -/
  odr_to_period : Nat → Nat
  /-- The macro INV_ICM42670_FIFO_WATERMARK_VAL, as the 16-bit number whose
  little-endian bytes are sent (the result type is __le16). -/
  FIFO_WATERMARK_VAL : Nat → Nat
  /-- Register address INV_ICM42670_INT_SOURCE0. -/
  INT_SOURCE0 : Nat
  /-- The mask INV_ICM42670_INT_SOURCE0_FIFO_THS_INT1_EN_MASK. -/
  INT_SOURCE0_FIFO_THS_INT1_EN_MASK : Nat
  /-- Register address INV_ICM42670_FIFO_WATERMARK. -/
  FIFO_WATERMARK : Nat
  /-- Register address INV_ICM42670_FIFO_COUNTH. -/
  FIFO_COUNTH : Nat
  /-- Register address INV_ICM42670_FIFO_DATA. -/
  FIFO_DATA : Nat
  /-- The capacity sizeof(st->fifo.data) of the internal FIFO buffer. -/
  sizeof_fifo_data : Nat
  /-- The predicate inv_icm42670_fifo_is_data_valid, on the three axis values x, y, z of
  the triplet it is given (each read as a big-endian 16-bit number). -/
  fifo_is_data_valid : Nat → Nat → Nat → Bool
  /-- The value INV_ICM42670_INT_SOURCE0_FIFO_THS_INT1_EN. -/
  INT_SOURCE0_FIFO_THS_INT1_EN : Nat
  /-- Register address INV_ICM42670_SIGNAL_PATH_RESET. -/
  SIGNAL_PATH_RESET : Nat
  /-- The value INV_ICM42670_SIGNAL_PATH_RESET_FIFO_FLUSH_EN. -/
  SIGNAL_PATH_RESET_FIFO_FLUSH_EN : Nat
  /-- Register address INV_ICM42670_FIFO_CONFIG1. -/
  FIFO_CONFIG1 : Nat
  /-- The value INV_ICM42670_FIFO_CONFIG1_FIFO_BYPASS_OFF. -/
  FIFO_CONFIG1_FIFO_BYPASS_OFF : Nat
  /-- The value INV_ICM42670_FIFO_CONFIG1_FIFO_BYPASS_ON. -/
  FIFO_CONFIG1_FIFO_BYPASS_ON : Nat
  /-- The value INV_ICM42670_FIFO_CONFIG1_FIFO_MODE_STREAM. -/
  FIFO_CONFIG1_FIFO_MODE_STREAM : Nat
  /-- Register address INV_ICM42670_FSYNC_CONFIG_MREG1. -/
  FSYNC_CONFIG_MREG1 : Nat
  /-- The mask INV_ICM42670_FSYNC_CONFIG_FSYNC_POLARITY_MASK. -/
  FSYNC_CONFIG_FSYNC_POLARITY_MASK : Nat
  /-- Register address INV_ICM42670_FIFO_CONFIG5_MREG1. -/
  FIFO_CONFIG5_MREG1 : Nat
  /-- The mask INV_ICM42670_FIFO_CONFIG5_FIFO_TMST_FSYNC_EN_MASK. -/
  FIFO_CONFIG5_FIFO_TMST_FSYNC_EN_MASK : Nat
  /-- The value INV_ICM42670_FIFO_CONFIG5_TMST_FSYNC_EN. -/
  FIFO_CONFIG5_TMST_FSYNC_EN : Nat
  /-- The value INV_ICM42670_FIFO_CONFIG5_GYRO_EN. -/
  FIFO_CONFIG5_GYRO_EN : Nat
  /-- The value INV_ICM42670_FIFO_CONFIG5_ACCEL_EN. -/
  FIFO_CONFIG5_ACCEL_EN : Nat

/-! ## Byte buffers -/

/-- Read of one uint8_t at offset i. -/
def rd8 (m : List Nat) (i : Nat) : Nat := m.getD i 0 % 256

/-- Read of a __be16 field at offset i as a number (be16_to_cpu). -/
def rd_be16 (m : List Nat) (i : Nat) : Nat := 256 * rd8 m i + rd8 m (i + 1)

/-- Store of the 16-bit number v into the __be16 field at offset i. -/
def wr_be16 (m : List Nat) (i : Nat) (v : Nat) : List Nat :=
  (m.set i (v / 256 % 256)).set (i + 1) (v % 256)

/-- The statement `field |= cpu_to_be16(0x1)` on the __be16 field at offset i. -/
def be16_or_1 (m : List Nat) (i : Nat) : List Nat :=
  wr_be16 m i ((rd_be16 m i ||| 0x1) % 2 ^ 16)

/-- The statement `field &= ~cpu_to_be16(0x1)` on the __be16 field at offset i: the
complement is taken on the promoted value and the result truncated to 16 bits. -/
def be16_and_not_1 (m : List Nat) (i : Nat) : List Nat :=
  wr_be16 m i ((rd_be16 m i &&& (2 ^ 16 - 1 - 0x1)) % 2 ^ 16)

/-- A buffer all of whose entries are bytes. -/
def WellFormed (m : List Nat) : Prop := ∀ b ∈ m, b < 256

instance (m : List Nat) : Decidable (WellFormed m) := by
  unfold WellFormed; infer_instance

/-! ## inv_icm42670_fifo_decode_packet (lines 54-122) -/

/-- The five out-parameters of the decoder: accel, gyro, temp, timestamp (pointers into
the packet) and odr. -/
structure DecodeOut where
  accel : Option Nat
  gyro : Option Nat
  temp : Option Nat
  timestamp : Option Nat
  odr : Nat
deriving DecidableEq, Repr

/-- Result of a call of the decoder: the returned ssize_t, the packet memory after the
call and the out-parameters after the call. -/
structure DecodeResult where
  ret : Int
  packet : List Nat
  out : DecodeOut
deriving DecidableEq, Repr

/-- The odr flags computed at lines 73-78. -/
def decode_odr (k : Consts) (header : Nat) : Nat :=
  let odr := 0
  let odr := if header &&& INV_ICM42670_FIFO_HEADER_ODR_GYRO ≠ 0 then
      (odr ||| k.SENSOR_GYRO) % U32_MOD else odr
  let odr := if header &&& INV_ICM42670_FIFO_HEADER_ODR_ACCEL ≠ 0 then
      (odr ||| k.SENSOR_ACCEL) % U32_MOD else odr
  odr

/-- The in-place adjustment of the three gyro axes at lines 87-95. -/
def decode_fsync_fix (header : Nat) (packet : List Nat) : List Nat :=
  if header &&& INV_ICM42670_FIFO_HEADER_TMST_FSYNC = INV_ICM42670_FIFO_HEADER_TMST_FSYNC then
    let p := be16_or_1 packet (pack2_gyro + sensor_data_x)
    let p := be16_or_1 p (pack2_gyro + sensor_data_y)
    be16_or_1 p (pack2_gyro + sensor_data_z)
  else
    let p := be16_and_not_1 packet (pack2_gyro + sensor_data_x)
    let p := be16_and_not_1 p (pack2_gyro + sensor_data_y)
    be16_and_not_1 p (pack2_gyro + sensor_data_z)

/-- The function inv_icm42670_fifo_decode_packet. `out` holds the out-parameters as
they are before the call: the malformed-header path returns without storing to the four
pointers. -/
def inv_icm42670_fifo_decode_packet (k : Consts) (packet : List Nat) (out : DecodeOut) :
    DecodeResult :=
  let header := rd8 packet 0
  -- FIFO empty
  if header &&& INV_ICM42670_FIFO_HEADER_MSG ≠ 0 then
    { ret := 0, packet := packet,
      out := { accel := none, gyro := none, temp := none, timestamp := none, odr := 0 } }
  else
    -- handle odr flags
    let odr := decode_odr k header
    -- accel + gyro
    if header &&& INV_ICM42670_FIFO_HEADER_ACCEL ≠ 0 ∧
        header &&& INV_ICM42670_FIFO_HEADER_GYRO ≠ 0 then
      { ret := INV_ICM42670_FIFO_2SENSORS_PACKET_SIZE,
        packet := decode_fsync_fix header packet,
        out := { accel := some pack2_accel, gyro := some pack2_gyro,
                 temp := some pack2_temp, timestamp := some pack2_timestamp, odr := odr } }
    -- accel only
    else if header &&& INV_ICM42670_FIFO_HEADER_ACCEL ≠ 0 then
      { ret := INV_ICM42670_FIFO_1SENSOR_PACKET_SIZE, packet := packet,
        out := { accel := some pack1_data, gyro := none,
                 temp := some pack1_temp, timestamp := none, odr := odr } }
    -- gyro only
    else if header &&& INV_ICM42670_FIFO_HEADER_GYRO ≠ 0 then
      { ret := INV_ICM42670_FIFO_1SENSOR_PACKET_SIZE, packet := packet,
        out := { accel := none, gyro := some pack1_data,
                 temp := some pack1_temp, timestamp := none, odr := odr } }
    -- invalid packet if here
    else
      { ret := -EINVAL, packet := packet, out := { out with odr := odr } }

/-! ## Register transport -/

/-- An operation issued on the register transport. -/
inductive RegOp where
  | update_bits (reg mask val : Nat)
  | write (reg val : Nat)
  | bulk_read (reg count : Nat)
  | bulk_write (reg : Nat) (bytes : List Nat)
  | noinc_read (reg count : Nat)
deriving DecidableEq, Repr

/-- Modelled from the spec: the register transport (the regmap of the kernel, an external
collaborator that is not among the sources): synchronous register operations, each of
which may fail with a transport error. `regs` holds the register contents, `errs` the
results of the operations to come (0 is success, an exhausted list is success) and `log`
the operations issued so far, oldest first. A failed operation changes no register.
`fifo` holds the bytes that the FIFO data register delivers to non-incrementing reads. -/
structure Regmap where
  regs : Nat → Nat
  errs : List Int
  log : List RegOp
  fifo : List Nat

/-- The transport after one more operation has been issued: it is logged and its
scripted result consumed. -/
def Regmap.issue (map : Regmap) (op : RegOp) : Regmap :=
  { map with errs := map.errs.tail, log := map.log ++ [op] }

/-- The scripted result of the next operation. -/
def Regmap.next (map : Regmap) : Int := map.errs.headD 0

/-- The value `orig & ~mask` of unsigned int operands. -/
def and_not (orig mask : Nat) : Nat := orig ^^^ (orig &&& mask)

/-- Modelled from the spec: regmap_update_bits_check, the update_bits operation of the
transport: the register becomes `(orig & ~mask) | (val & mask)` and the flag tells
whether that differs from the original value. -/
def regmap_update_bits_check (map : Regmap) (reg mask val : Nat) : Int × Bool × Regmap :=
  let map1 := map.issue (RegOp.update_bits reg mask val)
  if map.next ≠ 0 then (map.next, false, map1)
  else
    let orig := map.regs reg
    let tmp := and_not orig mask ||| (val &&& mask)
    (0, decide (tmp ≠ orig), { map1 with regs := Function.update map.regs reg tmp })

/-- Modelled from the spec: regmap_update_bits, as regmap_update_bits_check without the
change flag. -/
def regmap_update_bits (map : Regmap) (reg mask val : Nat) : Int × Regmap :=
  ((regmap_update_bits_check map reg mask val).1, (regmap_update_bits_check map reg mask val).2.2)

/-- Modelled from the spec: regmap_write, the write operation of the transport on one
register. -/
def regmap_write (map : Regmap) (reg val : Nat) : Int × Regmap :=
  let map1 := map.issue (RegOp.write reg val)
  if map.next ≠ 0 then (map.next, map1)
  else (0, { map1 with regs := Function.update map.regs reg val })

/-- Store of a list of bytes in consecutive registers from reg on. -/
def store_bytes (regs : Nat → Nat) (reg : Nat) : List Nat → Nat → Nat
  | [] => regs
  | b :: bs => store_bytes (Function.update regs reg b) (reg + 1) bs

/-- Modelled from the spec: regmap_bulk_write, the write operation of the transport on
consecutive registers. -/
def regmap_bulk_write (map : Regmap) (reg : Nat) (bytes : List Nat) : Int × Regmap :=
  let map1 := map.issue (RegOp.bulk_write reg bytes)
  if map.next ≠ 0 then (map.next, map1)
  else (0, { map1 with regs := store_bytes map.regs reg bytes })

/-- Modelled from the spec: regmap_bulk_read, the read operation of the transport on
count consecutive registers; the bytes read are returned. -/
def regmap_bulk_read (map : Regmap) (reg count : Nat) : Int × List Nat × Regmap :=
  let map1 := map.issue (RegOp.bulk_read reg count)
  if map.next ≠ 0 then (map.next, [], map1)
  else (0, (List.range count).map (fun j => map.regs (reg + j) % 256), map1)

/-- Modelled from the spec: regmap_noinc_read, the bulk read of count bytes from one
register (non-incrementing address); the bytes come from the head of the FIFO stream,
and the device answers 0xFF once the stream is exhausted. -/
def regmap_noinc_read (map : Regmap) (reg count : Nat) : Int × List Nat × Regmap :=
  let map1 := map.issue (RegOp.noinc_read reg count)
  if map.next ≠ 0 then (map.next, [], map1)
  else (0, (List.range count).map (fun j => map.fifo.getD j 0xFF % 256),
        { map1 with fifo := map.fifo.drop count })

/-! ## Driver state -/

/-- The fields of struct inv_icm42670_state (declared in inv_icm42670.h, not among the
sources) that the functions below read and write: the transport `map`, the FIFO enable
mask `fifo.en`, the desired watermarks `fifo.watermark.gyro` and `fifo.watermark.accel`,
the ODR settings `conf.gyro.odr` and `conf.accel.odr`, the scratch bytes `buffer`, the
drained byte count `fifo.count`, the sample counters `fifo.nb.gyro`, `fifo.nb.accel` and
`fifo.nb.total`, the internal FIFO buffer `fifo.data`, the FIFO usage counter `fifo.on`
(an unsigned int), the FIFO period `fifo.period`, and the two IIO devices `indio_gyro`
and `indio_accel`, pointers that are only compared and are held as numbers. -/
structure inv_icm42670_state where
  map : Regmap
  fifo_en : Nat
  fifo_watermark_gyro : Nat
  fifo_watermark_accel : Nat
  conf_gyro_odr : Nat
  conf_accel_odr : Nat
  buffer : List Nat
  fifo_count : Nat
  fifo_nb_gyro : Nat
  fifo_nb_accel : Nat
  fifo_nb_total : Nat
  fifo_data : List Nat
  fifo_on : Nat
  fifo_period : Nat
  indio_gyro : Nat
  indio_accel : Nat

/-! ## Watermark computation (lines 178-304) -/

/-- The function inv_icm42670_get_packet_size. -/
def inv_icm42670_get_packet_size (k : Consts) (st : inv_icm42670_state) : Nat :=
  if st.fifo_en &&& k.FIFO_CONFIG5_FIFO_GYRO_EN_MASK ≠ 0 ∧
      st.fifo_en &&& k.FIFO_CONFIG5_FIFO_ACCEL_EN_MASK ≠ 0 then
    INV_ICM42670_FIFO_2SENSORS_PACKET_SIZE
  else
    INV_ICM42670_FIFO_1SENSOR_PACKET_SIZE

/-- The function inv_icm42670_wm_truncate: the product is a size_t, the result an
unsigned int. -/
def inv_icm42670_wm_truncate (k : Consts) (watermark packet_size : Nat) : Nat :=
  let wm_size := watermark * packet_size % SIZE_MOD
  let wm_size := if wm_size > k.FIFO_WATERMARK_MAX then k.FIFO_WATERMARK_MAX else wm_size
  let wm := wm_size / packet_size % U32_MOD
  wm

/-- The local wm_gyro of inv_icm42670_buffer_update_watermark (line 247). -/
def wm_gyro (k : Consts) (st : inv_icm42670_state) : Nat :=
  inv_icm42670_wm_truncate k st.fifo_watermark_gyro (inv_icm42670_get_packet_size k st)

/-- The local wm_accel (line 248). -/
def wm_accel (k : Consts) (st : inv_icm42670_state) : Nat :=
  inv_icm42670_wm_truncate k st.fifo_watermark_accel (inv_icm42670_get_packet_size k st)

/-- The local period_gyro (line 250), in microseconds, a uint32_t. -/
def period_gyro (k : Consts) (st : inv_icm42670_state) : Nat :=
  k.odr_to_period st.conf_gyro_odr / 1000 % U32_MOD

/-- The local period_accel (line 251). -/
def period_accel (k : Consts) (st : inv_icm42670_state) : Nat :=
  k.odr_to_period st.conf_accel_odr / 1000 % U32_MOD

/-- The local latency_gyro (line 252), a uint32_t product. -/
def latency_gyro (k : Consts) (st : inv_icm42670_state) : Nat :=
  period_gyro k st * wm_gyro k st % U32_MOD

/-- The local latency_accel (line 253). -/
def latency_accel (k : Consts) (st : inv_icm42670_state) : Nat :=
  period_accel k st * wm_accel k st % U32_MOD

/-- The local watermark after lines 255-275. -/
def joint_watermark (k : Consts) (st : inv_icm42670_state) : Nat :=
  -- 0 value for watermark means that the sensor is turned off
  if latency_gyro k st = 0 then
    wm_accel k st
  else if latency_accel k st = 0 then
    wm_gyro k st
  else
    -- compute the smallest latency that is a multiple of both
    let latency :=
      if latency_gyro k st ≤ latency_accel k st then
        (latency_gyro k st - latency_accel k st % latency_gyro k st) % U32_MOD
      else
        (latency_accel k st - latency_gyro k st % latency_accel k st) % U32_MOD
    -- use the shortest period
    let period :=
      if period_gyro k st ≤ period_accel k st then period_gyro k st else period_accel k st
    let watermark := latency / period
    if watermark < 1 then 1 else watermark

/-- The local latency of the both-active branch (lines 261-265). -/
def joint_latency (k : Consts) (st : inv_icm42670_state) : Nat :=
  if latency_gyro k st ≤ latency_accel k st then
    (latency_gyro k st - latency_accel k st % latency_gyro k st) % U32_MOD
  else
    (latency_accel k st - latency_gyro k st % latency_accel k st) % U32_MOD

/-- Division that traps on a zero divisor, as the machine division does. -/
def div_checked (a b : Nat) : Option Nat := if b = 0 then none else some (a / b)

/-- Remainder that traps on a zero divisor. -/
def mod_checked (a b : Nat) : Option Nat := if b = 0 then none else some (a % b)

/-- The function inv_icm42670_wm_truncate with its division checked: `none` is a
division by zero. -/
def inv_icm42670_wm_truncate_checked (k : Consts) (watermark packet_size : Nat) :
    Option Nat :=
  let wm_size := watermark * packet_size % SIZE_MOD
  let wm_size := if wm_size > k.FIFO_WATERMARK_MAX then k.FIFO_WATERMARK_MAX else wm_size
  (div_checked wm_size packet_size).map (fun wm => wm % U32_MOD)

/-- Lines 244-275 of inv_icm42670_buffer_update_watermark with every division and
remainder by a variable checked: `none` is a division by zero, `some watermark` the
value of the local watermark. -/
def joint_watermark_checked (k : Consts) (st : inv_icm42670_state) : Option Nat :=
  let packet_size := inv_icm42670_get_packet_size k st
  (inv_icm42670_wm_truncate_checked k st.fifo_watermark_gyro packet_size).bind fun wm_gyro =>
  (inv_icm42670_wm_truncate_checked k st.fifo_watermark_accel packet_size).bind fun wm_accel =>
  let period_gyro := k.odr_to_period st.conf_gyro_odr / 1000 % U32_MOD
  let period_accel := k.odr_to_period st.conf_accel_odr / 1000 % U32_MOD
  let latency_gyro := period_gyro * wm_gyro % U32_MOD
  let latency_accel := period_accel * wm_accel % U32_MOD
  if latency_gyro = 0 then some wm_accel
  else if latency_accel = 0 then some wm_gyro
  else
    (if latency_gyro ≤ latency_accel then
      (mod_checked latency_accel latency_gyro).map fun r => (latency_gyro - r) % U32_MOD
    else
      (mod_checked latency_gyro latency_accel).map fun r =>
        (latency_accel - r) % U32_MOD).bind fun latency =>
    let period := if period_gyro ≤ period_accel then period_gyro else period_accel
    (div_checked latency period).map fun watermark =>
      if watermark < 1 then 1 else watermark

/-- The local wm_size after line 278: the watermark value in bytes, a size_t. -/
def wm_size (k : Consts) (st : inv_icm42670_state) : Nat :=
  joint_watermark k st * inv_icm42670_get_packet_size k st % SIZE_MOD

/-- The two bytes of a __le16 holding the 16-bit number v. -/
def le16_bytes (v : Nat) : List Nat := [v % 256, v / 256 % 256]

/-- The function inv_icm42670_buffer_update_watermark: the returned int and the state
after the call. -/
def inv_icm42670_buffer_update_watermark (k : Consts) (st : inv_icm42670_state) :
    Int × inv_icm42670_state :=
  -- changing FIFO watermark requires to turn off watermark interrupt
  let r1 := regmap_update_bits_check st.map k.INT_SOURCE0
    k.INT_SOURCE0_FIFO_THS_INT1_EN_MASK 0
  let restore := r1.2.1
  if r1.1 ≠ 0 then (r1.1, { st with map := r1.2.2 })
  else
    let raw_wm := k.FIFO_WATERMARK_VAL (wm_size k st)
    -- memcpy(st->buffer, &raw_wm, sizeof(raw_wm))
    let buffer := le16_bytes raw_wm ++ st.buffer.drop 2
    let r2 := regmap_bulk_write r1.2.2 k.FIFO_WATERMARK (buffer.take 2)
    if r2.1 ≠ 0 then (r2.1, { st with map := r2.2, buffer := buffer })
    else if restore then
      -- restore watermark interrupt
      let r3 := regmap_update_bits r2.2 k.INT_SOURCE0 k.INT_SOURCE0_FIFO_THS_INT1_EN_MASK
        k.INT_SOURCE0_FIFO_THS_INT1_EN_MASK
      if r3.1 ≠ 0 then (r3.1, { st with map := r3.2, buffer := buffer })
      else (0, { st with map := r3.2, buffer := buffer })
    else (0, { st with map := r2.2, buffer := buffer })

/-! ## FIFO drain: inv_icm42670_buffer_fifo_read (lines 485-542) -/

/-- The test `p != NULL && inv_icm42670_fifo_is_data_valid(p)` of lines 534 and 536, for
the pointer p into the packet that starts at offset i of the buffer. -/
def sample_valid (k : Consts) (data : List Nat) (i : Nat) : Option Nat → Bool
  | none => false
  | some off =>
    k.fifo_is_data_valid (rd_be16 data (i + off + sensor_data_x))
      (rd_be16 data (i + off + sensor_data_y)) (rd_be16 data (i + off + sensor_data_z))

/-- What the loop of lines 528-539 reads and writes: the internal buffer, the three
sample counters and the locals accel, gyro, temp, timestamp, odr (`out`). `calls` is a
record kept for the proofs: the offsets at which the decoder has been called, oldest
first. -/
structure WalkState where
  data : List Nat
  nb_gyro : Nat
  nb_accel : Nat
  nb_total : Nat
  out : DecodeOut
  calls : List Nat

/-- The loop of lines 528-539, `for (i = 0; i < st->fifo.count; i += size)`, entered
with index i; `count` is st->fifo.count. The first argument bounds the number of
iterations; an iteration that goes on advances i by 8 or 16, so `count` iterations
are enough from index 0. The counters are size_t values that the loop cannot wrap. -/
def fifo_walk (k : Consts) (count : Nat) : Nat → Nat → WalkState → WalkState
  | 0, _, w => w
  | fuel + 1, i, w =>
    if i < count then
      let r := inv_icm42670_fifo_decode_packet k (w.data.drop i) w.out
      let w := { w with data := w.data.take i ++ r.packet, out := r.out,
                        calls := w.calls ++ [i] }
      if r.ret ≤ 0 then w
      else
        let w := if sample_valid k w.data i r.out.gyro then
            { w with nb_gyro := w.nb_gyro + 1 } else w
        let w := if sample_valid k w.data i r.out.accel then
            { w with nb_accel := w.nb_accel + 1 } else w
        let w := { w with nb_total := w.nb_total + 1 }
        fifo_walk k count fuel (i + r.ret.toNat) w
    else w

/-- Outcome of lines 496-526: either the function has returned `ret` (`walk` is false)
or it enters the loop (`walk` is true); `st` is the state at that point. -/
structure FetchResult where
  ret : Int
  walk : Bool
  st : inv_icm42670_state

/-- Lines 496-526 of inv_icm42670_buffer_fifo_read: reset of the counters, computation of
the maximum read size, read of the FIFO count, clamp, read of the FIFO data. -/
def fifo_read_fetch (k : Consts) (st : inv_icm42670_state) (max : Nat) : FetchResult :=
  -- reset all samples counters
  let st := { st with fifo_count := 0, fifo_nb_gyro := 0, fifo_nb_accel := 0,
                      fifo_nb_total := 0 }
  -- compute maximum FIFO read size
  let max_count :=
    if max = 0 then k.sizeof_fifo_data
    else max * inv_icm42670_get_packet_size k st % SIZE_MOD
  -- read FIFO count value
  let r1 := regmap_bulk_read st.map k.FIFO_COUNTH 2
  if r1.1 ≠ 0 then { ret := r1.1, walk := false, st := { st with map := r1.2.2 } }
  else
    let st := { st with map := r1.2.2, buffer := r1.2.1 ++ st.buffer.drop 2 }
    let st := { st with fifo_count := rd_be16 st.buffer 0 }
    -- check and clamp FIFO count value
    if st.fifo_count = 0 then { ret := 0, walk := false, st := st }
    else
      let st := if st.fifo_count > max_count then { st with fifo_count := max_count } else st
      -- read all FIFO data in internal buffer
      let r2 := regmap_noinc_read st.map k.FIFO_DATA st.fifo_count
      if r2.1 ≠ 0 then { ret := r2.1, walk := false, st := { st with map := r2.2.2 } }
      else
        { ret := 0, walk := true,
          st := { st with map := r2.2.2,
                          fifo_data := r2.2.1 ++ st.fifo_data.drop st.fifo_count } }

/-- The loop state on entry: the buffer and the counters of st, the locals `out`, no
call of the decoder yet. -/
def walk_init (st : inv_icm42670_state) (out : DecodeOut) : WalkState :=
  { data := st.fifo_data, nb_gyro := st.fifo_nb_gyro, nb_accel := st.fifo_nb_accel,
    nb_total := st.fifo_nb_total, out := out, calls := [] }

/-- The loop of inv_icm42670_buffer_fifo_read as the function runs it: from index 0 on
the state that the reads have left; `out` holds the indeterminate initial values of the
locals accel, gyro, temp, timestamp and odr. -/
def fifo_read_walk (k : Consts) (st : inv_icm42670_state) (max : Nat) (out : DecodeOut) :
    WalkState :=
  let f := fifo_read_fetch k st max
  fifo_walk k f.st.fifo_count f.st.fifo_count 0 (walk_init f.st out)

/-- The function inv_icm42670_buffer_fifo_read: the returned int and the state after
the call. -/
def inv_icm42670_buffer_fifo_read (k : Consts) (st : inv_icm42670_state) (max : Nat)
    (out : DecodeOut) : Int × inv_icm42670_state :=
  let f := fifo_read_fetch k st max
  if f.walk then
    -- compute number of samples for each sensor
    let w := fifo_read_walk k st max out
    (0, { f.st with fifo_data := w.data, fifo_nb_gyro := w.nb_gyro,
                    fifo_nb_accel := w.nb_accel, fifo_nb_total := w.nb_total })
  else (f.ret, f.st)

/-- The value of the FIFO count register pair as the driver reads it: two bytes, big
endian. -/
def reported_count (k : Consts) (st : inv_icm42670_state) : Nat :=
  256 * (st.map.regs k.FIFO_COUNTH % 256) + st.map.regs (k.FIFO_COUNTH + 1) % 256

/-- The state of the loop after an iteration that goes on, at index i. -/
def walk_body (k : Consts) (i : Nat) (w : WalkState) : WalkState :=
  let r := inv_icm42670_fifo_decode_packet k (w.data.drop i) w.out
  let w := { w with data := w.data.take i ++ r.packet, out := r.out,
                    calls := w.calls ++ [i] }
  let w := if sample_valid k w.data i r.out.gyro then
      { w with nb_gyro := w.nb_gyro + 1 } else w
  let w := if sample_valid k w.data i r.out.accel then
      { w with nb_accel := w.nb_accel + 1 } else w
  { w with nb_total := w.nb_total + 1 }

/-- The length of the record that header byte h announces, when h is the header of a
structurally valid non-empty record (bit 7 clear and bit 6 or bit 5 set). -/
def record_size (h : Nat) : Option Nat :=
  if h.testBit 7 then none
  else if h.testBit 6 && h.testBit 5 then some 16
  else if h.testBit 6 || h.testBit 5 then some 8
  else none

/-- The buffer holds, from offset i on, n structurally valid non-empty records in a
row, each starting below count: `valid_records data count n i = some j`, with j the
offset that follows the last of them. -/
def valid_records (data : List Nat) (count : Nat) : Nat → Nat → Option Nat
  | 0, i => some i
  | n + 1, i =>
    if i < count then
      match record_size (rd8 data i) with
      | some s => valid_records data count n (i + s)
      | none => none
    else none

/-! ## FIFO period and FIFO enable mask (lines 124-176) -/

/-- The constant U32_MAX. -/
def U32_MAX : Nat := U32_MOD - 1

/-- The function inv_icm42670_buffer_update_fifo_period: the periods are uint32_t. -/
def inv_icm42670_buffer_update_fifo_period (k : Consts) (st : inv_icm42670_state) :
    inv_icm42670_state :=
  let period_gyro :=
    if st.fifo_en &&& k.SENSOR_GYRO ≠ 0 then k.odr_to_period st.conf_gyro_odr % U32_MOD
    else U32_MAX
  let period_accel :=
    if st.fifo_en &&& k.SENSOR_ACCEL ≠ 0 then k.odr_to_period st.conf_accel_odr % U32_MOD
    else U32_MAX
  let period := if period_gyro ≤ period_accel then period_gyro else period_accel
  { st with fifo_period := period }

/-- The local val of inv_icm42670_buffer_set_fifo_en (lines 157-166). -/
def fifo_en_val (k : Consts) (fifo_en : Nat) : Nat :=
  let val := 0
  let val := if fifo_en &&& k.FIFO_CONFIG5_FIFO_TMST_FSYNC_EN_MASK ≠ 0 then
      val ||| k.FIFO_CONFIG5_TMST_FSYNC_EN else val
  let val := if fifo_en &&& k.FIFO_CONFIG5_FIFO_GYRO_EN_MASK ≠ 0 then
      val ||| k.FIFO_CONFIG5_GYRO_EN else val
  let val := if fifo_en &&& k.FIFO_CONFIG5_FIFO_ACCEL_EN_MASK ≠ 0 then
      val ||| k.FIFO_CONFIG5_ACCEL_EN else val
  val

/-- The local mask of inv_icm42670_buffer_set_fifo_en (lines 153-155). -/
def fifo_en_mask (k : Consts) : Nat :=
  k.FIFO_CONFIG5_FIFO_TMST_FSYNC_EN_MASK ||| k.FIFO_CONFIG5_FIFO_GYRO_EN_MASK |||
    k.FIFO_CONFIG5_FIFO_ACCEL_EN_MASK

/-- The function inv_icm42670_buffer_set_fifo_en: the returned int and the state after
the call. -/
def inv_icm42670_buffer_set_fifo_en (k : Consts) (st : inv_icm42670_state) (fifo_en : Nat) :
    Int × inv_icm42670_state :=
  -- update only FIFO EN bits
  let r := regmap_update_bits st.map k.FIFO_CONFIG5_MREG1 (fifo_en_mask k) (fifo_en_val k fifo_en)
  if r.1 ≠ 0 then (r.1, { st with map := r.2 })
  else
    (0, inv_icm42670_buffer_update_fifo_period k { st with map := r.2, fifo_en := fifo_en })

/-! ## Buffer callbacks (lines 320-476) -/

/-- The function inv_icm42670_buffer_postenable: the returned int and the state after
the call. The mutex is not modelled: calls are sequential. -/
def inv_icm42670_buffer_postenable (k : Consts) (st : inv_icm42670_state) :
    Int × inv_icm42670_state :=
  -- exit if FIFO is already on
  if st.fifo_on ≠ 0 then (0, { st with fifo_on := (st.fifo_on + 1) % U32_MOD })
  else
    -- set FIFO threshold interrupt
    let r1 := regmap_update_bits st.map k.INT_SOURCE0 k.INT_SOURCE0_FIFO_THS_INT1_EN_MASK
      k.INT_SOURCE0_FIFO_THS_INT1_EN
    if r1.1 ≠ 0 then (r1.1, { st with map := r1.2 })
    else
      -- flush FIFO data
      let r2 := regmap_write r1.2 k.SIGNAL_PATH_RESET k.SIGNAL_PATH_RESET_FIFO_FLUSH_EN
      if r2.1 ≠ 0 then (r2.1, { st with map := r2.2 })
      else
        -- set FIFO in streaming mode
        let r3 := regmap_write r2.2 k.FIFO_CONFIG1
          (k.FIFO_CONFIG1_FIFO_BYPASS_OFF ||| k.FIFO_CONFIG1_FIFO_MODE_STREAM)
        if r3.1 ≠ 0 then (r3.1, { st with map := r3.2 })
        else
          -- workaround: first read of FIFO count after reset is always 0
          let r4 := regmap_bulk_read r3.2 k.FIFO_COUNTH 2
          if r4.1 ≠ 0 then (r4.1, { st with map := r4.2.2 })
          else
            let buffer := r4.2.1 ++ st.buffer.drop 2
            -- Start from Falling edge of FSYNC pulse to measure FSYNC interval
            let r5 := regmap_update_bits r4.2.2 k.FSYNC_CONFIG_MREG1
              k.FSYNC_CONFIG_FSYNC_POLARITY_MASK k.FSYNC_CONFIG_FSYNC_POLARITY_MASK
            if r5.1 ≠ 0 then (r5.1, { st with map := r5.2, buffer := buffer })
            else
              -- increase FIFO on counter
              (0, { st with map := r5.2, buffer := buffer,
                            fifo_on := (st.fifo_on + 1) % U32_MOD })

/-- The function inv_icm42670_buffer_predisable: the returned int and the state after
the call. The decrement of the unsigned counter wraps: fifo.on - 1 modulo 2 ^ 32 is
written as U32_MAX + fifo.on modulo 2 ^ 32. -/
def inv_icm42670_buffer_predisable (k : Consts) (st : inv_icm42670_state) :
    Int × inv_icm42670_state :=
  -- exit if there are several sensors using the FIFO
  if st.fifo_on > 1 then (0, { st with fifo_on := (U32_MAX + st.fifo_on) % U32_MOD })
  else
    -- set FIFO in bypass mode
    let r1 := regmap_write st.map k.FIFO_CONFIG1 k.FIFO_CONFIG1_FIFO_BYPASS_ON
    if r1.1 ≠ 0 then (r1.1, { st with map := r1.2 })
    else
      -- flush FIFO data
      let r2 := regmap_write r1.2 k.SIGNAL_PATH_RESET k.SIGNAL_PATH_RESET_FIFO_FLUSH_EN
      if r2.1 ≠ 0 then (r2.1, { st with map := r2.2 })
      else
        -- disable FIFO threshold interrupt
        let r3 := regmap_update_bits r2.2 k.INT_SOURCE0 k.INT_SOURCE0_FIFO_THS_INT1_EN_MASK 0
        if r3.1 ≠ 0 then (r3.1, { st with map := r3.2 })
        else
          -- decrease FIFO on counter
          (0, { st with map := r3.2, fifo_on := (U32_MAX + st.fifo_on) % U32_MOD })

/-- Modelled from the spec: the functions inv_icm42670_set_gyro_conf,
inv_icm42670_set_accel_conf and inv_icm42670_set_temp_conf of the driver core, which are
not among the sources, as inv_icm42670_buffer_postdisable calls them (sensor mode off,
temperature off): power control that acts on the register transport only and may fail.
The sleep times they report and the timestamp state of the IIO device are not part of
the state. -/
structure Collaborators where
  set_gyro_conf_off : Regmap → Int × Regmap
  set_accel_conf_off : Regmap → Int × Regmap
  set_temp_conf_off : Regmap → Int × Regmap

/-- The power control functions issue transport operations and never erase the record
of the operations issued before. -/
def Collaborators.appends (c : Collaborators) : Prop :=
  ∀ m : Regmap,
    (∃ l, (c.set_gyro_conf_off m).2.log = m.log ++ l) ∧
    (∃ l, (c.set_accel_conf_off m).2.log = m.log ++ l) ∧
    (∃ l, (c.set_temp_conf_off m).2.log = m.log ++ l)

/-- The state after the store `*watermark = 0` of line 442, for the pointer watermark
set at line 426 (gyro) or at line 430 (accel). -/
def clear_watermark (st : inv_icm42670_state) (wm_is_gyro : Bool) : inv_icm42670_state :=
  if wm_is_gyro then { st with fifo_watermark_gyro := 0 }
  else { st with fifo_watermark_accel := 0 }

/-- Lines 436-475 of inv_icm42670_buffer_postdisable, for the locals sensor and
watermark that lines 424-431 have set. The mutex, the sleep and the runtime power
management calls are not modelled. -/
def postdisable_locked (k : Consts) (c : Collaborators) (st : inv_icm42670_state)
    (sensor : Nat) (wm_is_gyro : Bool) : Int × inv_icm42670_state :=
  let r1 := inv_icm42670_buffer_set_fifo_en k st (and_not st.fifo_en sensor)
  if r1.1 ≠ 0 then r1
  else
    let r2 := inv_icm42670_buffer_update_watermark k (clear_watermark r1.2 wm_is_gyro)
    if r2.1 ≠ 0 then r2
    else
      let r3 := if sensor = k.SENSOR_GYRO then c.set_gyro_conf_off r2.2.map
        else c.set_accel_conf_off r2.2.map
      if r3.1 ≠ 0 then (r3.1, { r2.2 with map := r3.2 })
      else
        -- if FIFO is off, turn temperature off
        if r2.2.fifo_on = 0 then
          ((c.set_temp_conf_off r3.2).1, { r2.2 with map := (c.set_temp_conf_off r3.2).2 })
        else (0, { r2.2 with map := r3.2 })

/-- The function inv_icm42670_buffer_postdisable, called for the IIO device indio_dev:
the returned int and the state after the call. -/
def inv_icm42670_buffer_postdisable (k : Consts) (c : Collaborators)
    (st : inv_icm42670_state) (indio_dev : Nat) : Int × inv_icm42670_state :=
  if indio_dev = st.indio_gyro then postdisable_locked k c st k.SENSOR_GYRO true
  else if indio_dev = st.indio_accel then postdisable_locked k c st k.SENSOR_ACCEL false
  else (-EINVAL, st)

/-- The sequence of n calls of inv_icm42670_buffer_postenable: the state after them. -/
def enable_times (k : Consts) : Nat → inv_icm42670_state → inv_icm42670_state
  | 0, st => st
  | n + 1, st => enable_times k n (inv_icm42670_buffer_postenable k st).2

/-- The sequence of n calls of inv_icm42670_buffer_predisable: the state after them. -/
def disable_times (k : Consts) : Nat → inv_icm42670_state → inv_icm42670_state
  | 0, st => st
  | n + 1, st => disable_times k n (inv_icm42670_buffer_predisable k st).2

/-- The transport operations of a first enable, in the order of lines 333-362. -/
def postenable_ops (k : Consts) : List RegOp :=
  [RegOp.update_bits k.INT_SOURCE0 k.INT_SOURCE0_FIFO_THS_INT1_EN_MASK
     k.INT_SOURCE0_FIFO_THS_INT1_EN,
   RegOp.write k.SIGNAL_PATH_RESET k.SIGNAL_PATH_RESET_FIFO_FLUSH_EN,
   RegOp.write k.FIFO_CONFIG1
     (k.FIFO_CONFIG1_FIFO_BYPASS_OFF ||| k.FIFO_CONFIG1_FIFO_MODE_STREAM),
   RegOp.bulk_read k.FIFO_COUNTH 2,
   RegOp.update_bits k.FSYNC_CONFIG_MREG1 k.FSYNC_CONFIG_FSYNC_POLARITY_MASK
     k.FSYNC_CONFIG_FSYNC_POLARITY_MASK]

/-- The transport operations of a last disable, in the order of lines 385-401. -/
def predisable_ops (k : Consts) : List RegOp :=
  [RegOp.write k.FIFO_CONFIG1 k.FIFO_CONFIG1_FIFO_BYPASS_ON,
   RegOp.write k.SIGNAL_PATH_RESET k.SIGNAL_PATH_RESET_FIFO_FLUSH_EN,
   RegOp.update_bits k.INT_SOURCE0 k.INT_SOURCE0_FIFO_THS_INT1_EN_MASK 0]

/-- The effect of one operation on the transport: the result and the transport after
it. -/
def RegOp.exec (op : RegOp) (map : Regmap) : Int × Regmap :=
  match op with
  | RegOp.update_bits reg mask val => regmap_update_bits map reg mask val
  | RegOp.write reg val => regmap_write map reg val
  | RegOp.bulk_read reg count =>
    ((regmap_bulk_read map reg count).1, (regmap_bulk_read map reg count).2.2)
  | RegOp.bulk_write reg bytes => regmap_bulk_write map reg bytes
  | RegOp.noinc_read reg count =>
    ((regmap_noinc_read map reg count).1, (regmap_noinc_read map reg count).2.2)

/-- A sequence of operations run in order up to the first failure: the result (0 when
all succeed) and the transport after the last operation issued. -/
def regmap_seq : Regmap → List RegOp → Int × Regmap
  | map, [] => (0, map)
  | map, op :: ops =>
    if (op.exec map).1 ≠ 0 then op.exec map else regmap_seq (op.exec map).2 ops

/-- Sample values of the absent constants, used to evaluate the definitions on concrete
inputs: the ODR table gives 10 ms, 20 ms, 40 ms, ... in nanoseconds. -/
def sampleConsts : Consts :=
  { SENSOR_GYRO := 1, SENSOR_ACCEL := 2,
    FIFO_CONFIG5_FIFO_GYRO_EN_MASK := 1, FIFO_CONFIG5_FIFO_ACCEL_EN_MASK := 2,
    FIFO_WATERMARK_MAX := 1024,
    odr_to_period := fun odr => 10000000 * 2 ^ odr,
    FIFO_WATERMARK_VAL := fun wm => wm % 2 ^ 16,
    INT_SOURCE0 := 0x2B, INT_SOURCE0_FIFO_THS_INT1_EN_MASK := 4, FIFO_WATERMARK := 0x29,
    FIFO_COUNTH := 0x3D, FIFO_DATA := 0x3F, sizeof_fifo_data := 2080,
    fifo_is_data_valid := fun x y z => !(x == 0x8000 && y == 0x8000 && z == 0x8000),
    INT_SOURCE0_FIFO_THS_INT1_EN := 4,
    SIGNAL_PATH_RESET := 0x02, SIGNAL_PATH_RESET_FIFO_FLUSH_EN := 4,
    FIFO_CONFIG1 := 0x28, FIFO_CONFIG1_FIFO_BYPASS_OFF := 0, FIFO_CONFIG1_FIFO_BYPASS_ON := 1,
    FIFO_CONFIG1_FIFO_MODE_STREAM := 0,
    FSYNC_CONFIG_MREG1 := 0x1062, FSYNC_CONFIG_FSYNC_POLARITY_MASK := 1,
    FIFO_CONFIG5_MREG1 := 0x1001, FIFO_CONFIG5_FIFO_TMST_FSYNC_EN_MASK := 4,
    FIFO_CONFIG5_TMST_FSYNC_EN := 4, FIFO_CONFIG5_GYRO_EN := 1, FIFO_CONFIG5_ACCEL_EN := 2 }

/-- A transport with all registers 0 on which every operation succeeds. -/
def sampleMap : Regmap := { regs := fun _ => 0, errs := [], log := [], fifo := [] }

/-- A state with both sensors in the FIFO, gyro at 10 ms with watermark 4 and accel at
10 ms with watermark 6. -/
def sampleState : inv_icm42670_state :=
  { map := sampleMap, fifo_en := 3, fifo_watermark_gyro := 4, fifo_watermark_accel := 6,
    conf_gyro_odr := 0, conf_accel_odr := 0, buffer := [0, 0],
    fifo_count := 0, fifo_nb_gyro := 0, fifo_nb_accel := 0, fifo_nb_total := 0,
    fifo_data := List.replicate 2080 0,
    fifo_on := 0, fifo_period := 10000000, indio_gyro := 1, indio_accel := 2 }

/-- The sample state with the desired watermarks replaced: gyro wg, accel wa. -/
def sampleStateWm (wg wa : Nat) : inv_icm42670_state :=
  { sampleState with fifo_watermark_gyro := wg, fifo_watermark_accel := wa }

/-- Three valid records (gyro only, dual, accel only), then an empty header 0xFF, then a
stale dual record: 48 bytes. -/
def sampleFifo : List Nat :=
  [0x20, 0x11, 0x22, 0x33, 0x44, 0x55, 0x66, 0x19,
   0x6C, 1, 2, 3, 4, 5, 6, 0x80, 0x00, 0x80, 0x00, 0x80, 0x00, 13, 14, 15,
   0x40, 0x80, 0x00, 0x80, 0x00, 0x80, 0x00, 0x19,
   0xFF, 0, 0, 0, 0, 0, 0, 0,
   0x60, 1, 2, 3, 4, 5, 6, 7]

/-- Two valid records (gyro only, accel only), then a malformed header 0x1F, then a
stale gyro record: 32 bytes. -/
def sampleFifoBad : List Nat :=
  [0x20, 0x11, 0x22, 0x33, 0x44, 0x55, 0x66, 0x19,
   0x40, 0x11, 0x22, 0x33, 0x44, 0x55, 0x66, 0x19,
   0x1F, 0, 0, 0, 0, 0, 0, 0,
   0x20, 1, 2, 3, 4, 5, 6, 7]

/-- The sample state on a transport whose count register reads the 16-bit value
`reported` and whose FIFO stream is `fifo`. -/
def sampleDrainState (reported : Nat) (fifo : List Nat) : inv_icm42670_state :=
  { sampleState with
    map := { regs := fun r => if r = 0x3D then reported / 256 else if r = 0x3E then reported % 256
                              else 0,
             errs := [], log := [], fifo := fifo } }

/-- The sample drain state with stale counters 7, 5 and 9, on a transport whose next
operations have the scripted results errs. -/
def sampleDrainStale (reported : Nat) (fifo : List Nat) (errs : List Int) :
    inv_icm42670_state :=
  { sampleDrainState reported fifo with
    map := { (sampleDrainState reported fifo).map with errs := errs },
    fifo_nb_gyro := 7, fifo_nb_accel := 5, fifo_nb_total := 9 }

/-- The sample constants with an internal FIFO buffer of 32 bytes. -/
def smallConsts : Consts := { sampleConsts with sizeof_fifo_data := 32 }

/-- Three gyro-only records followed by a dual-sensor record: 40 bytes. -/
def sampleFifoMixed : List Nat :=
  [0x20, 0x11, 0x22, 0x33, 0x44, 0x55, 0x66, 0x19,
   0x20, 0x11, 0x22, 0x33, 0x44, 0x55, 0x66, 0x19,
   0x20, 0x11, 0x22, 0x33, 0x44, 0x55, 0x66, 0x19,
   0x6C, 1, 2, 3, 4, 5, 6, 0x80, 0x00, 0x80, 0x00, 0x80, 0x00, 13, 14, 15]

/-- A state whose internal FIFO buffer has 32 bytes, on a transport whose count register
reads 40 and whose FIFO stream is sampleFifoMixed. -/
def smallDrainState : inv_icm42670_state :=
  { sampleDrainState 40 sampleFifoMixed with fifo_data := List.replicate 32 0 }

/-- Sample power control: each function clears bits of one register with a single
update_bits operation. -/
def sampleCollab : Collaborators :=
  { set_gyro_conf_off := fun m => regmap_update_bits m 0x1F 0x0C 0,
    set_accel_conf_off := fun m => regmap_update_bits m 0x1F 0x03 0,
    set_temp_conf_off := fun m => regmap_update_bits m 0x22 0x70 0 }

/-- Out-parameters holding NULL pointers and zero flags. -/
def out0 : DecodeOut :=
  { accel := none, gyro := none, temp := none, timestamp := none, odr := 0 }

/-- A dual-sensor record: header 0x6C (accel, gyro, fsync code 0b11), the three gyro
axes equal to 0x8000. -/
def samplePacketDual : List Nat :=
  [0x6C, 1, 2, 3, 4, 5, 6, 0x80, 0x00, 0x80, 0x00, 0x80, 0x00, 13, 14, 15]

/-- A gyro-only record: header 0x20. -/
def samplePacketGyro : List Nat := [0x20, 0x11, 0x22, 0x33, 0x44, 0x55, 0x66, 0x19]

/-- Every record that the walk meets from offset i on, below `count`, has length s; the
walk ends at a header that is empty or malformed. The first argument bounds the number
of records looked at, as in fifo_walk. -/
def records_have_size (data : List Nat) (count s : Nat) : Nat → Nat → Bool
  | 0, _ => true
  | fuel + 1, i =>
    if i < count then
      match record_size (rd8 data i) with
      | some t => t == s && records_have_size data count s fuel (i + t)
      | none => true
    else true

/-- A dual-sensor record with fsync code 0b00 (header 0x60) whose three gyro axes are
0x8000. -/
def samplePacketDualPlain : List Nat :=
  [0x60, 1, 2, 3, 4, 5, 6, 0x80, 0x00, 0x80, 0x00, 0x80, 0x00, 13, 14, 15]

/-- The lifecycle part of the software state: the counter fifo.on, the FIFO enable mask
and the two desired watermarks. -/
def lifecycle_fields (st : inv_icm42670_state) : Nat × Nat × Nat × Nat :=
  (st.fifo_on, st.fifo_en, st.fifo_watermark_gyro, st.fifo_watermark_accel)

/-- The lifecycle part of the state that lines 438-442 of inv_icm42670_buffer_postdisable
store for the IIO device indio_dev: the mask without the sensor flag and the watermark of
that sensor 0; the counter is not written. -/
def postdisable_fields (k : Consts) (st : inv_icm42670_state) (indio_dev : Nat) :
    Nat × Nat × Nat × Nat :=
  if indio_dev = st.indio_gyro then
    (st.fifo_on, and_not st.fifo_en k.SENSOR_GYRO, 0, st.fifo_watermark_accel)
  else if indio_dev = st.indio_accel then
    (st.fifo_on, and_not st.fifo_en k.SENSOR_ACCEL, st.fifo_watermark_gyro, 0)
  else lifecycle_fields st

/-- The value that line 347 writes to FIFO_CONFIG1 to select the streaming mode. -/
def stream_mode (k : Consts) : Nat :=
  k.FIFO_CONFIG1_FIFO_BYPASS_OFF ||| k.FIFO_CONFIG1_FIFO_MODE_STREAM

/-- The hardware FIFO is in streaming mode: the last value written to the mode register
FIFO_CONFIG1 is the streaming value. -/
def streaming (k : Consts) (st : inv_icm42670_state) : Prop :=
  st.map.regs k.FIFO_CONFIG1 = stream_mode k

instance (k : Consts) (st : inv_icm42670_state) : Decidable (streaming k st) := by
  unfold streaming; infer_instance

/-- The states reached from st0 by any sequence of calls of
inv_icm42670_buffer_postenable and inv_icm42670_buffer_predisable; the transport
operations fail as the script of st0 says. -/
inductive Reachable (k : Consts) (st0 : inv_icm42670_state) : inv_icm42670_state → Prop
  | init : Reachable k st0 st0
  | enable (s : inv_icm42670_state) :
      Reachable k st0 s → Reachable k st0 (inv_icm42670_buffer_postenable k s).2
  | disable (s : inv_icm42670_state) :
      Reachable k st0 s → Reachable k st0 (inv_icm42670_buffer_predisable k s).2

/-- The states reached from st0 by calls of inv_icm42670_buffer_postenable and
inv_icm42670_buffer_predisable of which each one either returns 0 or fails at an
operation that is not later than its write of the mode register (index at most 2 of the
enable sequence, index 0 of the disable sequence); predisable is only called with a
non-zero counter and postenable with a counter below the largest unsigned int. -/
inductive ReachableClean (k : Consts) (st0 : inv_icm42670_state) :
    inv_icm42670_state → Prop
  | init : ReachableClean k st0 st0
  | enable_ok (s : inv_icm42670_state) :
      ReachableClean k st0 s → s.fifo_on + 1 < U32_MOD →
      (inv_icm42670_buffer_postenable k s).1 = 0 →
      ReachableClean k st0 (inv_icm42670_buffer_postenable k s).2
  | enable_fail (s : inv_icm42670_state) (i : Nat) (e : Int) (rest : List Int) :
      ReachableClean k st0 s → s.fifo_on = 0 →
      s.map.errs = List.replicate i 0 ++ e :: rest → e ≠ 0 → i ≤ 2 →
      ReachableClean k st0 (inv_icm42670_buffer_postenable k s).2
  | disable_ok (s : inv_icm42670_state) :
      ReachableClean k st0 s → 0 < s.fifo_on →
      (inv_icm42670_buffer_predisable k s).1 = 0 →
      ReachableClean k st0 (inv_icm42670_buffer_predisable k s).2
  | disable_fail (s : inv_icm42670_state) :
      ReachableClean k st0 s → s.fifo_on = 1 → s.map.next ≠ 0 →
      ReachableClean k st0 (inv_icm42670_buffer_predisable k s).2

/-- The registers that an operation may write. -/
def RegOp.touches : RegOp → Nat → Prop
  | RegOp.update_bits reg _ _, r => r = reg
  | RegOp.write reg _, r => r = reg
  | RegOp.bulk_write reg bytes, r => reg ≤ r ∧ r < reg + bytes.length
  | RegOp.bulk_read _ _, _ => False
  | RegOp.noinc_read _ _, _ => False

/-- The sample state with the FIFO in bypass mode (the mode register 0x28 holds 1), on a
transport whose next operations have the scripted results errs. -/
def sampleBypassed (errs : List Int) : inv_icm42670_state :=
  { sampleState with
    map := { regs := fun r => if r = 0x28 then 1 else 0, errs := errs, log := [],
             fifo := [] } }

/-- The test of line 534, `gyro != NULL && inv_icm42670_fifo_is_data_valid(gyro)`, for
the record at offset i of the buffer: the decoder runs on the record (line 530) and the
test reads the record that the decoder has left. -/
def gyro_counted (k : Consts) (data : List Nat) (i : Nat) : Bool :=
  sample_valid k (inv_icm42670_fifo_decode_packet k (data.drop i) out0).packet 0
    (inv_icm42670_fifo_decode_packet k (data.drop i) out0).out.gyro

/-- The number of gyro samples counted over the records of a buffer: the records are
followed from offset i by the lengths that their headers announce, as long as they start
below count and are structurally valid and not empty, and a record counts for 1 when the
test of line 534 passes on it. The first argument bounds the number of records. -/
def count_gyro (k : Consts) (data : List Nat) (count : Nat) : Nat → Nat → Nat
  | 0, _ => 0
  | fuel + 1, i =>
    if i < count then
      match record_size (rd8 data i) with
      | some t =>
        (if gyro_counted k data i then 1 else 0) + count_gyro k data count fuel (i + t)
      | none => 0
    else 0

/-- A state whose internal FIFO buffer has 32 bytes, on a transport whose count register
reads the 16-bit value `reported` and whose FIFO stream is `fifo`. -/
def sampleDrainSmall (reported : Nat) (fifo : List Nat) : inv_icm42670_state :=
  { sampleDrainState reported fifo with fifo_data := List.replicate 32 0 }

/-! ## Auxiliary facts on bits and buffers -/

theorem and_BIT_ne_zero (h n : Nat) : h &&& BIT n ≠ 0 ↔ h.testBit n = true := by
  unfold BIT
  rw [Nat.and_two_pow]
  cases h.testBit n <;> simp

theorem or_one_eq (x : Nat) : x ||| 1 = 2 * (x / 2) + 1 := by
  have h1 : (x ||| 1) / 2 = x / 2 := by rw [Nat.or_div_two]; simp
  have h2 : (x ||| 1) % 2 = 1 := by rw [Nat.or_mod_two_eq_one]; simp
  omega

theorem and_not_one_eq (x : Nat) (hx : x < 2 ^ 16) : x &&& (2 ^ 16 - 1 - 1) = 2 * (x / 2) := by
  have h1 : (x &&& (2 ^ 16 - 1 - 1)) / 2 = x / 2 := by
    rw [Nat.and_div_two]
    have : (2 ^ 16 - 1 - 1) / 2 = 2 ^ 15 - 1 := by norm_num
    rw [this, Nat.and_pow_two_sub_one_eq_mod]
    omega
  have h2 : (x &&& (2 ^ 16 - 1 - 1)) % 2 = 0 := by
    rcases Nat.mod_two_eq_zero_or_one (x &&& (2 ^ 16 - 1 - 1)) with h | h
    · exact h
    · rw [Nat.and_mod_two_eq_one] at h
      norm_num at h
  omega

theorem rd8_lt (m : List Nat) (i : Nat) : rd8 m i < 256 := by
  unfold rd8; omega

theorem getD_set_zero (m : List Nat) (i j v : Nat) :
    (m.set i v).getD j 0 = if i = j ∧ i < m.length then v else m.getD j 0 := by
  simp only [List.getD_eq_getElem?_getD, List.getElem?_set]
  by_cases hij : i = j
  · subst hij
    by_cases hl : i < m.length
    · simp [hl]
    · have hn : m[i]? = none := List.getElem?_eq_none (Nat.le_of_not_lt hl)
      simp [hl, hn]
  · simp [hij]

theorem wellFormed_getD (m : List Nat) (hm : WellFormed m) (i : Nat) : m.getD i 0 < 256 := by
  rw [List.getD_eq_getElem?_getD]
  cases h : m[i]? with
  | none => simp
  | some b =>
    have hb : b ∈ m := by
      rw [List.getElem?_eq_some_iff] at h
      obtain ⟨hl, rfl⟩ := h
      exact List.getElem_mem hl
    simpa using hm b hb

theorem rd8_of_wellFormed (m : List Nat) (hm : WellFormed m) (i : Nat) : rd8 m i = m.getD i 0 := by
  unfold rd8
  exact Nat.mod_eq_of_lt (wellFormed_getD m hm i)

theorem be16_or_1_length (m : List Nat) (i : Nat) : (be16_or_1 m i).length = m.length := by
  simp [be16_or_1, wr_be16]

theorem be16_and_not_1_length (m : List Nat) (i : Nat) :
    (be16_and_not_1 m i).length = m.length := by
  simp [be16_and_not_1, wr_be16]

theorem be16_or_1_getD (m : List Nat) (i j : Nat) :
    (be16_or_1 m i).getD j 0 =
      if i + 1 = j ∧ i + 1 < m.length then 2 * (rd8 m (i + 1) / 2) + 1
      else if i = j ∧ i < m.length then rd8 m i
      else m.getD j 0 := by
  unfold be16_or_1 wr_be16
  rw [getD_set_zero, getD_set_zero, List.length_set, or_one_eq]
  have ha := rd8_lt m i
  have hb := rd8_lt m (i + 1)
  unfold rd_be16
  norm_num
  split_ifs <;> omega

theorem be16_and_not_1_getD (m : List Nat) (i j : Nat) :
    (be16_and_not_1 m i).getD j 0 =
      if i + 1 = j ∧ i + 1 < m.length then 2 * (rd8 m (i + 1) / 2)
      else if i = j ∧ i < m.length then rd8 m i
      else m.getD j 0 := by
  have ha := rd8_lt m i
  have hb := rd8_lt m (i + 1)
  have hv : rd_be16 m i < 2 ^ 16 := by unfold rd_be16; omega
  unfold be16_and_not_1 wr_be16
  rw [getD_set_zero, getD_set_zero, List.length_set, and_not_one_eq _ hv]
  unfold rd_be16
  norm_num
  split_ifs <;> omega

theorem be16_or_1_rd8 (m : List Nat) (i j : Nat) :
    rd8 (be16_or_1 m i) j =
      if i + 1 = j ∧ i + 1 < m.length then 2 * (rd8 m j / 2) + 1 else rd8 m j := by
  have hb := rd8_lt m (i + 1)
  have ha := rd8_lt m i
  rw [rd8, be16_or_1_getD]
  by_cases h1 : i + 1 = j
  · subst h1
    by_cases hl : i + 1 < m.length
    · simp only [hl, and_self, if_true]; omega
    · simp only [hl, and_false, if_false]
      have : ¬ (i = i + 1) := by omega
      simp only [this, false_and, if_false]; rfl
  · simp only [h1, false_and, if_false]
    by_cases h2 : i = j ∧ i < m.length
    · obtain ⟨rfl, hl⟩ := h2
      simp only [hl, and_self, if_true]; omega
    · simp only [h2, if_false]; rfl

theorem be16_and_not_1_rd8 (m : List Nat) (i j : Nat) :
    rd8 (be16_and_not_1 m i) j =
      if i + 1 = j ∧ i + 1 < m.length then 2 * (rd8 m j / 2) else rd8 m j := by
  have hb := rd8_lt m (i + 1)
  have ha := rd8_lt m i
  rw [rd8, be16_and_not_1_getD]
  by_cases h1 : i + 1 = j
  · subst h1
    by_cases hl : i + 1 < m.length
    · simp only [hl, and_self, if_true]; omega
    · simp only [hl, and_false, if_false]
      have : ¬ (i = i + 1) := by omega
      simp only [this, false_and, if_false]; rfl
  · simp only [h1, false_and, if_false]
    by_cases h2 : i = j ∧ i < m.length
    · obtain ⟨rfl, hl⟩ := h2
      simp only [hl, and_self, if_true]; omega
    · simp only [h2, if_false]; rfl

theorem decode_fsync_fix_length (header : Nat) (m : List Nat) :
    (decode_fsync_fix header m).length = m.length := by
  unfold decode_fsync_fix
  split_ifs <;> simp [be16_or_1_length, be16_and_not_1_length]

/-- Byte j of the packet after the adjustment of lines 87-95: the low bytes of the three
axes (offsets 8, 10, 12) get bit 0 forced, every other byte is kept. -/
theorem decode_fsync_fix_getD (header : Nat) (m : List Nat) (j : Nat) :
    (decode_fsync_fix header m).getD j 0 =
      if (j = 8 ∨ j = 10 ∨ j = 12) ∧ j < m.length then
        2 * (rd8 m j / 2) +
          (if header &&& INV_ICM42670_FIFO_HEADER_TMST_FSYNC =
              INV_ICM42670_FIFO_HEADER_TMST_FSYNC then 1 else 0)
      else if (j = 7 ∨ j = 9 ∨ j = 11) ∧ j < m.length then rd8 m j
      else m.getD j 0 := by
  unfold decode_fsync_fix
  have hj : j = 7 ∨ j = 8 ∨ j = 9 ∨ j = 10 ∨ j = 11 ∨ j = 12 ∨ (j < 7 ∨ 12 < j) := by omega
  by_cases hc : header &&& INV_ICM42670_FIFO_HEADER_TMST_FSYNC =
      INV_ICM42670_FIFO_HEADER_TMST_FSYNC
  · simp only [hc, if_true, pack2_gyro, pack2_accel,
      sizeof_fifo_sensor_data, sensor_data_x, sensor_data_y, sensor_data_z, Nat.reduceAdd]
    rcases hj with rfl | rfl | rfl | rfl | rfl | rfl | hj
    · simp [-List.getD_eq_getElem?_getD, be16_or_1_getD, be16_or_1_rd8, be16_or_1_length]
    · simp [-List.getD_eq_getElem?_getD, be16_or_1_getD, be16_or_1_rd8, be16_or_1_length]
    · simp [-List.getD_eq_getElem?_getD, be16_or_1_getD, be16_or_1_rd8, be16_or_1_length]
    · simp [-List.getD_eq_getElem?_getD, be16_or_1_getD, be16_or_1_rd8, be16_or_1_length]
    · simp [-List.getD_eq_getElem?_getD, be16_or_1_getD, be16_or_1_rd8, be16_or_1_length]
    · simp [-List.getD_eq_getElem?_getD, be16_or_1_getD, be16_or_1_rd8, be16_or_1_length]
    · have h7 : ¬ 7 = j := by omega
      have h8 : ¬ 8 = j := by omega
      have h9 : ¬ 9 = j := by omega
      have h10 : ¬ 10 = j := by omega
      have h11 : ¬ 11 = j := by omega
      have h12 : ¬ 12 = j := by omega
      have h7' : ¬ j = 7 := by omega
      have h8' : ¬ j = 8 := by omega
      have h9' : ¬ j = 9 := by omega
      have h10' : ¬ j = 10 := by omega
      have h11' : ¬ j = 11 := by omega
      have h12' : ¬ j = 12 := by omega
      simp [-List.getD_eq_getElem?_getD, be16_or_1_getD, be16_or_1_length, h7, h8, h9, h10, h11, h12, h7', h8', h9', h10',
        h11', h12']
  · simp only [hc, if_false, pack2_gyro, pack2_accel,
      sizeof_fifo_sensor_data, sensor_data_x, sensor_data_y, sensor_data_z, Nat.reduceAdd]
    rcases hj with rfl | rfl | rfl | rfl | rfl | rfl | hj
    · simp [-List.getD_eq_getElem?_getD, be16_and_not_1_getD, be16_and_not_1_rd8, be16_and_not_1_length]
    · simp [-List.getD_eq_getElem?_getD, be16_and_not_1_getD, be16_and_not_1_rd8, be16_and_not_1_length]
    · simp [-List.getD_eq_getElem?_getD, be16_and_not_1_getD, be16_and_not_1_rd8, be16_and_not_1_length]
    · simp [-List.getD_eq_getElem?_getD, be16_and_not_1_getD, be16_and_not_1_rd8, be16_and_not_1_length]
    · simp [-List.getD_eq_getElem?_getD, be16_and_not_1_getD, be16_and_not_1_rd8, be16_and_not_1_length]
    · simp [-List.getD_eq_getElem?_getD, be16_and_not_1_getD, be16_and_not_1_rd8, be16_and_not_1_length]
    · have h7 : ¬ 7 = j := by omega
      have h8 : ¬ 8 = j := by omega
      have h9 : ¬ 9 = j := by omega
      have h10 : ¬ 10 = j := by omega
      have h11 : ¬ 11 = j := by omega
      have h12 : ¬ 12 = j := by omega
      have h7' : ¬ j = 7 := by omega
      have h8' : ¬ j = 8 := by omega
      have h9' : ¬ j = 9 := by omega
      have h10' : ¬ j = 10 := by omega
      have h11' : ¬ j = 11 := by omega
      have h12' : ¬ j = 12 := by omega
      simp [-List.getD_eq_getElem?_getD, be16_and_not_1_getD, be16_and_not_1_length, h7, h8,
        h9, h10, h11, h12, h7', h8', h9', h10', h11', h12']

/-- The fsync test of line 87 holds exactly when header bits 3..2 are both set. -/
theorem fsync_test_iff (h : Nat) :
    h &&& INV_ICM42670_FIFO_HEADER_TMST_FSYNC = INV_ICM42670_FIFO_HEADER_TMST_FSYNC ↔
      h / 4 % 4 = 3 := by
  have hm : INV_ICM42670_FIFO_HEADER_TMST_FSYNC = 12 := by decide
  rw [hm]
  have h2 : (h &&& 12) / 4 = h / 4 &&& 3 := by
    have e1 : (h &&& 12) / 4 = (h &&& 12) / 2 / 2 := by rw [Nat.div_div_eq_div_mul]
    have e2 : h / 4 = h / 2 / 2 := by rw [Nat.div_div_eq_div_mul]
    rw [e1, e2, Nat.and_div_two, Nat.and_div_two]
  have h3 : h / 4 &&& 3 = h / 4 % 4 := by
    have := Nat.and_pow_two_sub_one_eq_mod (h / 4) 2
    simpa using this
  have h4 : (h &&& 12) % 4 = 0 := by
    have e : (h &&& 12) % 4 = (h &&& 12) &&& 3 := by
      have := Nat.and_pow_two_sub_one_eq_mod (h &&& 12) 2
      simpa using this.symm
    rw [e, Nat.land_assoc]
    have : 12 &&& 3 = 0 := by decide
    rw [this]; simp
  omega

/-- The decoder as a case distinction on header bits 7, 6 and 5. -/
theorem decode_cases (k : Consts) (packet : List Nat) (out : DecodeOut) :
    inv_icm42670_fifo_decode_packet k packet out =
      if (rd8 packet 0).testBit 7 = true then
        { ret := 0, packet := packet,
          out := { accel := none, gyro := none, temp := none, timestamp := none, odr := 0 } }
      else if (rd8 packet 0).testBit 6 = true ∧ (rd8 packet 0).testBit 5 = true then
        { ret := 16, packet := decode_fsync_fix (rd8 packet 0) packet,
          out := { accel := some 1, gyro := some 7, temp := some 13, timestamp := some 14,
                   odr := decode_odr k (rd8 packet 0) } }
      else if (rd8 packet 0).testBit 6 = true then
        { ret := 8, packet := packet,
          out := { accel := some 1, gyro := none, temp := some 7, timestamp := none,
                   odr := decode_odr k (rd8 packet 0) } }
      else if (rd8 packet 0).testBit 5 = true then
        { ret := 8, packet := packet,
          out := { accel := none, gyro := some 1, temp := some 7, timestamp := none,
                   odr := decode_odr k (rd8 packet 0) } }
      else
        { ret := -22, packet := packet,
          out := { out with odr := decode_odr k (rd8 packet 0) } } := by
  simp only [inv_icm42670_fifo_decode_packet, INV_ICM42670_FIFO_HEADER_MSG,
    INV_ICM42670_FIFO_HEADER_ACCEL, INV_ICM42670_FIFO_HEADER_GYRO, and_BIT_ne_zero]
  rfl

/-! ## Properties of the packet decoder -/

/-- C1: for every packet whose header byte has bit 7 (empty) set, the decoder returns
length 0, stores NULL to accel, gyro, temp and timestamp and 0 to the ODR flags, and
leaves the packet as it is, whatever the other header bits, the payload and the previous
contents of the out-parameters are. -/
theorem decode_empty (k : Consts) (packet : List Nat) (out : DecodeOut)
    (h7 : (rd8 packet 0).testBit 7 = true) :
    inv_icm42670_fifo_decode_packet k packet out =
      { ret := 0, packet := packet,
        out := { accel := none, gyro := none, temp := none, timestamp := none, odr := 0 } } := by
  rw [decode_cases, if_pos h7]

/-- Witness of C1 on a header 0xFF with a payload and stale out-parameters. -/
theorem decode_empty_witness :
    (rd8 [0xFF, 0x12, 0x34, 0x56] 0).testBit 7 = true ∧
    inv_icm42670_fifo_decode_packet sampleConsts [0xFF, 0x12, 0x34, 0x56]
        { accel := some 1, gyro := some 7, temp := some 13, timestamp := some 14, odr := 3 } =
      { ret := 0, packet := [0xFF, 0x12, 0x34, 0x56],
        out := { accel := none, gyro := none, temp := none, timestamp := none, odr := 0 } } :=
  ⟨by decide, decode_empty sampleConsts [0xFF, 0x12, 0x34, 0x56]
      { accel := some 1, gyro := some 7, temp := some 13, timestamp := some 14, odr := 3 }
      (by decide)⟩

/-- C2: the decoder returns the malformed-header error -EINVAL exactly for the headers
with bits 7, 6 and 5 all clear; it is a total function, and for every other header the
returned value is one of 0, 8 and 16. -/
theorem decode_einval_iff (k : Consts) (packet : List Nat) (out : DecodeOut) :
    ((inv_icm42670_fifo_decode_packet k packet out).ret = -EINVAL ↔
      ((rd8 packet 0).testBit 7 = false ∧ (rd8 packet 0).testBit 6 = false ∧
        (rd8 packet 0).testBit 5 = false)) ∧
    ((inv_icm42670_fifo_decode_packet k packet out).ret = -EINVAL ∨
      (inv_icm42670_fifo_decode_packet k packet out).ret = 0 ∨
      (inv_icm42670_fifo_decode_packet k packet out).ret = 8 ∨
      (inv_icm42670_fifo_decode_packet k packet out).ret = 16) := by
  rw [decode_cases]
  unfold EINVAL
  cases (rd8 packet 0).testBit 7 <;> cases (rd8 packet 0).testBit 6 <;>
    cases (rd8 packet 0).testBit 5 <;> simp

/-- Byte j of the adjusted packet, read as a uint8_t. -/
theorem decode_fsync_fix_rd8 (header : Nat) (m : List Nat) (j : Nat) :
    rd8 (decode_fsync_fix header m) j =
      if (j = 8 ∨ j = 10 ∨ j = 12) ∧ j < m.length then
        2 * (rd8 m j / 2) + (if header / 4 % 4 = 3 then 1 else 0)
      else rd8 m j := by
  have hb := rd8_lt m j
  rw [rd8, decode_fsync_fix_getD]
  simp only [fsync_test_iff]
  split_ifs <;> first | rfl | omega

/-- C3: for every dual-sensor record (header bit 7 clear, bits 6 and 5 set) held in a
buffer that covers the three gyro axes, and for each axis (the big-endian 16-bit fields
at offsets 7, 9 and 11), after the decoder the least-significant bit of the axis value,
which is bit 0 of packet byte 8, 10 or 12, is 1 when header bits 3..2 are 0b11 and 0 for
the other three fsync codes, and the other 15 bits of the axis are unchanged. -/
theorem decode_dual_gyro_lsb (k : Consts) (packet : List Nat) (out : DecodeOut)
    (h7 : (rd8 packet 0).testBit 7 = false) (h6 : (rd8 packet 0).testBit 6 = true)
    (h5 : (rd8 packet 0).testBit 5 = true) (hlen : 13 ≤ packet.length)
    (axis : Nat) (hax : axis = 7 ∨ axis = 9 ∨ axis = 11) :
    rd_be16 (inv_icm42670_fifo_decode_packet k packet out).packet axis % 2 =
        (if rd8 packet 0 / 4 % 4 = 3 then 1 else 0) ∧
    rd8 (inv_icm42670_fifo_decode_packet k packet out).packet (axis + 1) % 2 =
        (if rd8 packet 0 / 4 % 4 = 3 then 1 else 0) ∧
    rd_be16 (inv_icm42670_fifo_decode_packet k packet out).packet axis / 2 =
        rd_be16 packet axis / 2 := by
  have hp : (inv_icm42670_fifo_decode_packet k packet out).packet =
      decode_fsync_fix (rd8 packet 0) packet := by
    rw [decode_cases]; simp [h7, h6, h5]
  rw [hp]
  unfold rd_be16
  rcases hax with rfl | rfl | rfl <;>
    · simp only [decode_fsync_fix_rd8, Nat.reduceAdd]
      have h8 : 8 < packet.length := by omega
      have h10 : 10 < packet.length := by omega
      have h12 : 12 < packet.length := by omega
      simp only [h8, h10, h12, Nat.reduceEqDiff, and_true, and_self, or_true, true_or,
        or_false, false_or, false_and, if_true, if_false]
      have b7 := rd8_lt packet 7
      have b8 := rd8_lt packet 8
      have b9 := rd8_lt packet 9
      have b10 := rd8_lt packet 10
      have b11 := rd8_lt packet 11
      have b12 := rd8_lt packet 12
      split_ifs <;> omega

/-- Witness of C3: a dual-sensor record with fsync code 0b11 and axis y = 0x8000. -/
theorem decode_dual_gyro_lsb_witness :
    rd_be16 (inv_icm42670_fifo_decode_packet sampleConsts samplePacketDual out0).packet 9 % 2 =
        (if rd8 samplePacketDual 0 / 4 % 4 = 3 then 1 else 0) ∧
    rd8 (inv_icm42670_fifo_decode_packet sampleConsts samplePacketDual out0).packet (9 + 1) % 2 =
        (if rd8 samplePacketDual 0 / 4 % 4 = 3 then 1 else 0) ∧
    rd_be16 (inv_icm42670_fifo_decode_packet sampleConsts samplePacketDual out0).packet 9 / 2 =
        rd_be16 samplePacketDual 9 / 2 :=
  decode_dual_gyro_lsb sampleConsts samplePacketDual out0 (by decide) (by decide) (by decide)
    (by decide) 9 (by decide)

/-- C4: for every header with bit 7 clear and bits 6 and 5 both set the decoder selects
the dual-sensor variant: it returns INV_ICM42670_FIFO_2SENSORS_PACKET_SIZE = 16, accel
points to offset 1 and gyro to offset 7 (6 bytes each), temp to the byte at offset 13
and timestamp to the 2 bytes at offsets 14..15. -/
theorem decode_dual_layout (k : Consts) (packet : List Nat) (out : DecodeOut)
    (h7 : (rd8 packet 0).testBit 7 = false) (h6 : (rd8 packet 0).testBit 6 = true)
    (h5 : (rd8 packet 0).testBit 5 = true) :
    (inv_icm42670_fifo_decode_packet k packet out).ret =
        (INV_ICM42670_FIFO_2SENSORS_PACKET_SIZE : Int) ∧
    (inv_icm42670_fifo_decode_packet k packet out).ret = 16 ∧
    (inv_icm42670_fifo_decode_packet k packet out).out.accel = some 1 ∧
    (inv_icm42670_fifo_decode_packet k packet out).out.gyro = some 7 ∧
    (inv_icm42670_fifo_decode_packet k packet out).out.temp = some 13 ∧
    (inv_icm42670_fifo_decode_packet k packet out).out.timestamp = some 14 ∧
    1 + sizeof_fifo_sensor_data = 7 ∧ 7 + sizeof_fifo_sensor_data = 13 ∧
    sizeof_2sensors_packet = 14 + 2 := by
  rw [decode_cases]
  simp [h7, h6, h5, INV_ICM42670_FIFO_2SENSORS_PACKET_SIZE, sizeof_fifo_sensor_data,
    sizeof_2sensors_packet, pack2_timestamp, pack2_temp, pack2_gyro, pack2_accel]

/-- Witness of C4 on the sample dual-sensor record. -/
theorem decode_dual_layout_witness :
    (inv_icm42670_fifo_decode_packet sampleConsts samplePacketDual out0).ret =
        (INV_ICM42670_FIFO_2SENSORS_PACKET_SIZE : Int) ∧
    (inv_icm42670_fifo_decode_packet sampleConsts samplePacketDual out0).ret = 16 ∧
    (inv_icm42670_fifo_decode_packet sampleConsts samplePacketDual out0).out.accel = some 1 ∧
    (inv_icm42670_fifo_decode_packet sampleConsts samplePacketDual out0).out.gyro = some 7 ∧
    (inv_icm42670_fifo_decode_packet sampleConsts samplePacketDual out0).out.temp = some 13 ∧
    (inv_icm42670_fifo_decode_packet sampleConsts samplePacketDual out0).out.timestamp =
        some 14 ∧
    1 + sizeof_fifo_sensor_data = 7 ∧ 7 + sizeof_fifo_sensor_data = 13 ∧
    sizeof_2sensors_packet = 14 + 2 :=
  decode_dual_layout sampleConsts samplePacketDual out0 (by decide) (by decide) (by decide)

/-- C5: for every header with bit 7 clear and exactly one of bits 6 and 5 set the decoder
returns INV_ICM42670_FIFO_1SENSOR_PACKET_SIZE = 8; the sensor data are the 6 bytes at
offset 1, reported as accel when bit 6 is the one set and as gyro when bit 5 is, the other
sensor pointer is NULL, temp points to the byte at offset 7 and timestamp is NULL. -/
theorem decode_single_layout (k : Consts) (packet : List Nat) (out : DecodeOut)
    (h7 : (rd8 packet 0).testBit 7 = false)
    (h65 : (rd8 packet 0).testBit 6 ≠ (rd8 packet 0).testBit 5) :
    (inv_icm42670_fifo_decode_packet k packet out).ret =
        (INV_ICM42670_FIFO_1SENSOR_PACKET_SIZE : Int) ∧
    (inv_icm42670_fifo_decode_packet k packet out).ret = 8 ∧
    (inv_icm42670_fifo_decode_packet k packet out).out.accel =
        (if (rd8 packet 0).testBit 6 = true then some 1 else none) ∧
    (inv_icm42670_fifo_decode_packet k packet out).out.gyro =
        (if (rd8 packet 0).testBit 5 = true then some 1 else none) ∧
    (inv_icm42670_fifo_decode_packet k packet out).out.temp = some 7 ∧
    (inv_icm42670_fifo_decode_packet k packet out).out.timestamp = none ∧
    1 + sizeof_fifo_sensor_data = 7 ∧ sizeof_1sensor_packet = 7 + 1 := by
  rw [decode_cases]
  revert h65
  cases (rd8 packet 0).testBit 6 <;> cases (rd8 packet 0).testBit 5 <;>
    simp [h7, INV_ICM42670_FIFO_1SENSOR_PACKET_SIZE, sizeof_fifo_sensor_data,
      sizeof_1sensor_packet, pack1_temp, pack1_data]

/-- Witness of C5 on a gyro-only record (header 0x20). -/
theorem decode_single_layout_witness :
    (inv_icm42670_fifo_decode_packet sampleConsts samplePacketGyro out0).ret =
        (INV_ICM42670_FIFO_1SENSOR_PACKET_SIZE : Int) ∧
    (inv_icm42670_fifo_decode_packet sampleConsts samplePacketGyro out0).ret = 8 ∧
    (inv_icm42670_fifo_decode_packet sampleConsts samplePacketGyro out0).out.accel =
        (if (rd8 samplePacketGyro 0).testBit 6 = true then some 1 else none) ∧
    (inv_icm42670_fifo_decode_packet sampleConsts samplePacketGyro out0).out.gyro =
        (if (rd8 samplePacketGyro 0).testBit 5 = true then some 1 else none) ∧
    (inv_icm42670_fifo_decode_packet sampleConsts samplePacketGyro out0).out.temp = some 7 ∧
    (inv_icm42670_fifo_decode_packet sampleConsts samplePacketGyro out0).out.timestamp = none ∧
    1 + sizeof_fifo_sensor_data = 7 ∧ sizeof_1sensor_packet = 7 + 1 :=
  decode_single_layout sampleConsts samplePacketGyro out0 (by decide) (by decide)

/-- C6: a decode of a non-empty record that does not fail returns one of the two fixed
lengths, INV_ICM42670_FIFO_1SENSOR_PACKET_SIZE = 8 or
INV_ICM42670_FIFO_2SENSORS_PACKET_SIZE = 16; and two buffers whose headers agree on bits
7, 6 and 5 decode (from the same out-parameters) to the same returned length and the same
variant, that is the same accel, gyro, temp and timestamp pointers, whatever header bits
4..0 and the payloads are. -/
theorem decode_length_fixed (k : Consts) (p1 p2 : List Nat) (out : DecodeOut)
    (h7 : (rd8 p1 0).testBit 7 = (rd8 p2 0).testBit 7)
    (h6 : (rd8 p1 0).testBit 6 = (rd8 p2 0).testBit 6)
    (h5 : (rd8 p1 0).testBit 5 = (rd8 p2 0).testBit 5) :
    ((rd8 p1 0).testBit 7 = false →
      (inv_icm42670_fifo_decode_packet k p1 out).ret ≠ -EINVAL →
      (inv_icm42670_fifo_decode_packet k p1 out).ret =
          (INV_ICM42670_FIFO_1SENSOR_PACKET_SIZE : Int) ∨
      (inv_icm42670_fifo_decode_packet k p1 out).ret =
          (INV_ICM42670_FIFO_2SENSORS_PACKET_SIZE : Int)) ∧
    (inv_icm42670_fifo_decode_packet k p1 out).ret =
      (inv_icm42670_fifo_decode_packet k p2 out).ret ∧
    (inv_icm42670_fifo_decode_packet k p1 out).out.accel =
      (inv_icm42670_fifo_decode_packet k p2 out).out.accel ∧
    (inv_icm42670_fifo_decode_packet k p1 out).out.gyro =
      (inv_icm42670_fifo_decode_packet k p2 out).out.gyro ∧
    (inv_icm42670_fifo_decode_packet k p1 out).out.temp =
      (inv_icm42670_fifo_decode_packet k p2 out).out.temp ∧
    (inv_icm42670_fifo_decode_packet k p1 out).out.timestamp =
      (inv_icm42670_fifo_decode_packet k p2 out).out.timestamp := by
  rw [decode_cases k p1, decode_cases k p2, ← h7, ← h6, ← h5]
  unfold EINVAL INV_ICM42670_FIFO_1SENSOR_PACKET_SIZE INV_ICM42670_FIFO_2SENSORS_PACKET_SIZE
  cases (rd8 p1 0).testBit 7 <;> cases (rd8 p1 0).testBit 6 <;>
    cases (rd8 p1 0).testBit 5 <;> simp

/-- Witness of C6: headers 0x6C and 0x73 agree on bits 7..5 and differ on bits 4..0. -/
theorem decode_length_fixed_witness :
    ((rd8 samplePacketDual 0).testBit 7 = false →
      (inv_icm42670_fifo_decode_packet sampleConsts samplePacketDual out0).ret ≠ -EINVAL →
      (inv_icm42670_fifo_decode_packet sampleConsts samplePacketDual out0).ret =
          (INV_ICM42670_FIFO_1SENSOR_PACKET_SIZE : Int) ∨
      (inv_icm42670_fifo_decode_packet sampleConsts samplePacketDual out0).ret =
          (INV_ICM42670_FIFO_2SENSORS_PACKET_SIZE : Int)) ∧
    (inv_icm42670_fifo_decode_packet sampleConsts samplePacketDual out0).ret =
      (inv_icm42670_fifo_decode_packet sampleConsts [0x73, 9, 9, 9] out0).ret ∧
    (inv_icm42670_fifo_decode_packet sampleConsts samplePacketDual out0).out.accel =
      (inv_icm42670_fifo_decode_packet sampleConsts [0x73, 9, 9, 9] out0).out.accel ∧
    (inv_icm42670_fifo_decode_packet sampleConsts samplePacketDual out0).out.gyro =
      (inv_icm42670_fifo_decode_packet sampleConsts [0x73, 9, 9, 9] out0).out.gyro ∧
    (inv_icm42670_fifo_decode_packet sampleConsts samplePacketDual out0).out.temp =
      (inv_icm42670_fifo_decode_packet sampleConsts [0x73, 9, 9, 9] out0).out.temp ∧
    (inv_icm42670_fifo_decode_packet sampleConsts samplePacketDual out0).out.timestamp =
      (inv_icm42670_fifo_decode_packet sampleConsts [0x73, 9, 9, 9] out0).out.timestamp :=
  decode_length_fixed sampleConsts samplePacketDual [0x73, 9, 9, 9] out0 (by decide)
    (by decide) (by decide)

/-- C7: on a buffer of bytes the decoder keeps the length of the buffer and every byte
except the bytes at offsets 8, 10 and 12, of which it changes at most bit 0; and when
the header is not a dual-sensor one (empty, accel only, gyro only or malformed) the
buffer after the call equals the buffer before it. -/
theorem decode_frame (k : Consts) (packet : List Nat) (out : DecodeOut)
    (hwf : WellFormed packet) :
    (inv_icm42670_fifo_decode_packet k packet out).packet.length = packet.length ∧
    (∀ j, j ≠ 8 → j ≠ 10 → j ≠ 12 →
      (inv_icm42670_fifo_decode_packet k packet out).packet.getD j 0 = packet.getD j 0) ∧
    (∀ j, (inv_icm42670_fifo_decode_packet k packet out).packet.getD j 0 / 2 =
      packet.getD j 0 / 2) ∧
    (¬ ((rd8 packet 0).testBit 7 = false ∧ (rd8 packet 0).testBit 6 = true ∧
        (rd8 packet 0).testBit 5 = true) →
      (inv_icm42670_fifo_decode_packet k packet out).packet = packet) := by
  have hfix : ∀ j, (decode_fsync_fix (rd8 packet 0) packet).getD j 0 / 2 = packet.getD j 0 / 2 ∧
      (j ≠ 8 → j ≠ 10 → j ≠ 12 →
        (decode_fsync_fix (rd8 packet 0) packet).getD j 0 = packet.getD j 0) := by
    intro j
    rw [decode_fsync_fix_getD, rd8_of_wellFormed packet hwf j]
    constructor
    · split_ifs <;> omega
    · intro h8 h10 h12
      split_ifs <;> first | rfl | omega
  rw [decode_cases]
  cases (rd8 packet 0).testBit 7 <;> cases (rd8 packet 0).testBit 6 <;>
    cases (rd8 packet 0).testBit 5 <;> simp [-List.getD_eq_getElem?_getD]
  exact ⟨decode_fsync_fix_length _ _, fun j => (hfix j).2, fun j => (hfix j).1⟩

/-- Witness of C7 on the sample dual-sensor record. -/
theorem decode_frame_witness :
    (inv_icm42670_fifo_decode_packet sampleConsts samplePacketDual out0).packet.length =
      samplePacketDual.length ∧
    (∀ j, j ≠ 8 → j ≠ 10 → j ≠ 12 →
      (inv_icm42670_fifo_decode_packet sampleConsts samplePacketDual out0).packet.getD j 0 =
        samplePacketDual.getD j 0) ∧
    (∀ j, (inv_icm42670_fifo_decode_packet sampleConsts samplePacketDual out0).packet.getD j 0 / 2 =
      samplePacketDual.getD j 0 / 2) ∧
    (¬ ((rd8 samplePacketDual 0).testBit 7 = false ∧ (rd8 samplePacketDual 0).testBit 6 = true ∧
        (rd8 samplePacketDual 0).testBit 5 = true) →
      (inv_icm42670_fifo_decode_packet sampleConsts samplePacketDual out0).packet =
        samplePacketDual) :=
  decode_frame sampleConsts samplePacketDual out0 (by decide)

/-! ## Properties of the watermark computation -/

theorem get_packet_size_cases (k : Consts) (st : inv_icm42670_state) :
    inv_icm42670_get_packet_size k st = 8 ∨ inv_icm42670_get_packet_size k st = 16 := by
  unfold inv_icm42670_get_packet_size INV_ICM42670_FIFO_1SENSOR_PACKET_SIZE
    INV_ICM42670_FIFO_2SENSORS_PACKET_SIZE
  split_ifs
  · exact Or.inr rfl
  · exact Or.inl rfl

theorem wm_truncate_zero (k : Consts) (ps : Nat) : inv_icm42670_wm_truncate k 0 ps = 0 := by
  simp [inv_icm42670_wm_truncate]

theorem wm_truncate_eq (k : Consts) (w ps : Nat) (hps : 0 < ps) (hw : w < U32_MOD)
    (hov : w * ps < SIZE_MOD) :
    inv_icm42670_wm_truncate k w ps = min w (k.FIFO_WATERMARK_MAX / ps) := by
  unfold inv_icm42670_wm_truncate
  simp only [Nat.mod_eq_of_lt hov]
  by_cases hgt : w * ps > k.FIFO_WATERMARK_MAX
  · have hlt : k.FIFO_WATERMARK_MAX / ps < w :=
      Nat.div_lt_of_lt_mul (by rw [Nat.mul_comm]; exact hgt)
    rw [if_pos hgt, Nat.mod_eq_of_lt (Nat.lt_trans hlt hw)]
    exact (Nat.min_eq_right (Nat.le_of_lt hlt)).symm
  · have hle : w ≤ k.FIFO_WATERMARK_MAX / ps :=
      (Nat.le_div_iff_mul_le hps).2 (Nat.le_of_not_gt hgt)
    rw [if_neg hgt, Nat.mul_div_cancel w hps, Nat.mod_eq_of_lt hw]
    exact (Nat.min_eq_left hle).symm

/-- C8: for every desired watermark w (an unsigned int) and packet size ps > 0 with
w * ps not overflowing size_t, inv_icm42670_wm_truncate(w, ps) is
min(w, INV_ICM42670_FIFO_WATERMARK_MAX / ps) with truncating division; hence the result
is at most w, result * ps is at most INV_ICM42670_FIFO_WATERMARK_MAX, and it is the
largest count with both properties. -/
theorem wm_truncate_spec (k : Consts) (w ps : Nat) (hps : 0 < ps) (hw : w < U32_MOD)
    (hov : w * ps < SIZE_MOD) :
    inv_icm42670_wm_truncate k w ps = min w (k.FIFO_WATERMARK_MAX / ps) ∧
    inv_icm42670_wm_truncate k w ps ≤ w ∧
    inv_icm42670_wm_truncate k w ps * ps ≤ k.FIFO_WATERMARK_MAX ∧
    ∀ c, c ≤ w → c * ps ≤ k.FIFO_WATERMARK_MAX → c ≤ inv_icm42670_wm_truncate k w ps := by
  rw [wm_truncate_eq k w ps hps hw hov]
  refine ⟨rfl, Nat.min_le_left _ _, ?_, ?_⟩
  · exact Nat.le_trans (Nat.mul_le_mul_right ps (Nat.min_le_right _ _))
      (Nat.div_mul_le_self _ _)
  · intro c hc hcm
    exact Nat.le_min.2 ⟨hc, (Nat.le_div_iff_mul_le hps).2 hcm⟩

/-- Witness of C8: watermark 100 with 16-byte packets and a capacity of 1024 bytes. -/
theorem wm_truncate_spec_witness :
    inv_icm42670_wm_truncate sampleConsts 100 16 =
      min 100 (sampleConsts.FIFO_WATERMARK_MAX / 16) ∧
    inv_icm42670_wm_truncate sampleConsts 100 16 ≤ 100 ∧
    inv_icm42670_wm_truncate sampleConsts 100 16 * 16 ≤ sampleConsts.FIFO_WATERMARK_MAX ∧
    ∀ c, c ≤ 100 → c * 16 ≤ sampleConsts.FIFO_WATERMARK_MAX →
      c ≤ inv_icm42670_wm_truncate sampleConsts 100 16 :=
  wm_truncate_spec sampleConsts 100 16 (by decide) (by decide) (by decide)

/-- C9: when one sensor's desired watermark is 0 the joint watermark is the other
sensor's truncated count, whatever the two ODR settings are: with the gyro watermark 0
it is inv_icm42670_wm_truncate of the accel watermark; with the accel watermark 0 it is
inv_icm42670_wm_truncate of the gyro watermark, the gyro period being a non-zero number
of microseconds and the 32-bit latency product not wrapping (the ODR table and the
capacity are not among the sources). -/
theorem joint_watermark_one_sensor_off (k : Consts) (st : inv_icm42670_state) :
    (st.fifo_watermark_gyro = 0 →
      joint_watermark k st =
        inv_icm42670_wm_truncate k st.fifo_watermark_accel
          (inv_icm42670_get_packet_size k st)) ∧
    (st.fifo_watermark_accel = 0 → 0 < period_gyro k st →
      period_gyro k st * wm_gyro k st < U32_MOD →
      joint_watermark k st =
        inv_icm42670_wm_truncate k st.fifo_watermark_gyro
          (inv_icm42670_get_packet_size k st)) := by
  constructor
  · intro h0
    have hw : wm_gyro k st = 0 := by rw [wm_gyro, h0, wm_truncate_zero]
    have hl : latency_gyro k st = 0 := by simp [latency_gyro, hw]
    rw [joint_watermark, if_pos hl, wm_accel]
  · intro h0 hper hnowrap
    have hw : wm_accel k st = 0 := by rw [wm_accel, h0, wm_truncate_zero]
    have hl : latency_accel k st = 0 := by simp [latency_accel, hw]
    by_cases hg : latency_gyro k st = 0
    · rw [joint_watermark, if_pos hg, hw]
      rw [latency_gyro, Nat.mod_eq_of_lt hnowrap] at hg
      rcases Nat.mul_eq_zero.1 hg with h | h
      · omega
      · rw [← h, wm_gyro]
    · rw [joint_watermark, if_neg hg, if_pos hl, wm_gyro]

/-- Witness of C9: gyro watermark 0 with accel watermark 6, and accel watermark 0 with
gyro at 10 ms and watermark 4. -/
theorem joint_watermark_one_sensor_off_witness :
    joint_watermark sampleConsts { sampleState with fifo_watermark_gyro := 0 } = 6 ∧
    joint_watermark sampleConsts { sampleState with fifo_watermark_accel := 0 } = 4 :=
  ⟨((joint_watermark_one_sensor_off sampleConsts
        { sampleState with fifo_watermark_gyro := 0 }).1 rfl).trans (by decide),
   ((joint_watermark_one_sensor_off sampleConsts
        { sampleState with fifo_watermark_accel := 0 }).2 rfl (by decide) (by decide)).trans
      (by decide)⟩

/-- The value computed with the accel watermark 0, without any assumption on the ODR
table: the test of line 256 comes first, so a gyro latency of 0 selects the accel
count, which is 0. -/
theorem joint_watermark_accel_off (k : Consts) (st : inv_icm42670_state)
    (h0 : st.fifo_watermark_accel = 0) :
    joint_watermark k st = if latency_gyro k st = 0 then 0 else wm_gyro k st := by
  have hw : wm_accel k st = 0 := by rw [wm_accel, h0, wm_truncate_zero]
  have hl : latency_accel k st = 0 := by simp [latency_accel, hw]
  by_cases hg : latency_gyro k st = 0
  · rw [joint_watermark, if_pos hg, if_pos hg, hw]
  · rw [joint_watermark, if_neg hg, if_pos hl, if_neg hg]

theorem latency_gyro_lt (k : Consts) (st : inv_icm42670_state) :
    latency_gyro k st < U32_MOD :=
  Nat.mod_lt _ (by decide)

theorem latency_accel_lt (k : Consts) (st : inv_icm42670_state) :
    latency_accel k st < U32_MOD :=
  Nat.mod_lt _ (by decide)

/-- With both latencies non-zero the joint watermark is the quotient of lines 261-274. -/
theorem joint_watermark_both (k : Consts) (st : inv_icm42670_state)
    (hg : latency_gyro k st ≠ 0) (ha : latency_accel k st ≠ 0) :
    joint_watermark k st =
      max 1 ((min (latency_gyro k st) (latency_accel k st) -
          max (latency_gyro k st) (latency_accel k st) %
            min (latency_gyro k st) (latency_accel k st)) /
        min (period_gyro k st) (period_accel k st)) := by
  have hgl := latency_gyro_lt k st
  have hal := latency_accel_lt k st
  rw [joint_watermark, if_neg hg, if_neg ha]
  have hper : (if period_gyro k st ≤ period_accel k st then period_gyro k st
      else period_accel k st) = min (period_gyro k st) (period_accel k st) := by
    split_ifs with h
    · exact (Nat.min_eq_left h).symm
    · exact (Nat.min_eq_right (Nat.le_of_not_le h)).symm
  have hlat : (if latency_gyro k st ≤ latency_accel k st then
        (latency_gyro k st - latency_accel k st % latency_gyro k st) % U32_MOD
      else (latency_accel k st - latency_gyro k st % latency_accel k st) % U32_MOD) =
      min (latency_gyro k st) (latency_accel k st) -
        max (latency_gyro k st) (latency_accel k st) %
          min (latency_gyro k st) (latency_accel k st) := by
    split_ifs with h
    · rw [Nat.min_eq_left h, Nat.max_eq_right h]
      exact Nat.mod_eq_of_lt (Nat.lt_of_le_of_lt (Nat.sub_le _ _) hgl)
    · have h' := Nat.le_of_not_le h
      rw [Nat.min_eq_right h', Nat.max_eq_left h']
      exact Nat.mod_eq_of_lt (Nat.lt_of_le_of_lt (Nat.sub_le _ _) hal)
  simp only [hper, hlat]
  split_ifs with h1
  · omega
  · omega

theorem joint_watermark_both_lt (k : Consts) (st : inv_icm42670_state)
    (hg : latency_gyro k st ≠ 0) (ha : latency_accel k st ≠ 0) :
    joint_watermark k st < U32_MOD := by
  have hgl := latency_gyro_lt k st
  have hal := latency_accel_lt k st
  rw [joint_watermark_both k st hg ha]
  have h1 : (min (latency_gyro k st) (latency_accel k st) -
          max (latency_gyro k st) (latency_accel k st) %
            min (latency_gyro k st) (latency_accel k st)) /
        min (period_gyro k st) (period_accel k st) ≤ latency_gyro k st :=
    Nat.le_trans (Nat.div_le_self _ _)
      (Nat.le_trans (Nat.sub_le _ _) (Nat.min_le_left _ _))
  have h2 : (1 : Nat) < U32_MOD := by decide
  exact Nat.max_lt.2 ⟨h2, Nat.lt_of_le_of_lt h1 hgl⟩

theorem regmap_update_bits_check_log (map : Regmap) (reg mask val : Nat) :
    (regmap_update_bits_check map reg mask val).2.2.log =
      map.log ++ [RegOp.update_bits reg mask val] := by
  unfold regmap_update_bits_check
  split_ifs <;> rfl

theorem regmap_update_bits_log (map : Regmap) (reg mask val : Nat) :
    (regmap_update_bits map reg mask val).2.log =
      map.log ++ [RegOp.update_bits reg mask val] :=
  regmap_update_bits_check_log map reg mask val

theorem regmap_bulk_write_log (map : Regmap) (reg : Nat) (bytes : List Nat) :
    (regmap_bulk_write map reg bytes).2.log = map.log ++ [RegOp.bulk_write reg bytes] := by
  unfold regmap_bulk_write
  split_ifs <;> rfl

/-- The operations that a call of inv_icm42670_buffer_update_watermark issues, in order:
the clearing of the interrupt enable bit, then (when that succeeded) the write of the
two bytes of INV_ICM42670_FIFO_WATERMARK_VAL(wm_size) to the watermark register, then
(when the bit had changed) the setting of the bit; a call that returns 0 has issued the
write. -/
theorem update_watermark_log (k : Consts) (st : inv_icm42670_state) :
    ((inv_icm42670_buffer_update_watermark k st).2.map.log =
        st.map.log ++
          [RegOp.update_bits k.INT_SOURCE0 k.INT_SOURCE0_FIFO_THS_INT1_EN_MASK 0] ∨
      (inv_icm42670_buffer_update_watermark k st).2.map.log =
        st.map.log ++
          [RegOp.update_bits k.INT_SOURCE0 k.INT_SOURCE0_FIFO_THS_INT1_EN_MASK 0,
           RegOp.bulk_write k.FIFO_WATERMARK
             (le16_bytes (k.FIFO_WATERMARK_VAL (wm_size k st)))] ∨
      (inv_icm42670_buffer_update_watermark k st).2.map.log =
        st.map.log ++
          [RegOp.update_bits k.INT_SOURCE0 k.INT_SOURCE0_FIFO_THS_INT1_EN_MASK 0,
           RegOp.bulk_write k.FIFO_WATERMARK
             (le16_bytes (k.FIFO_WATERMARK_VAL (wm_size k st))),
           RegOp.update_bits k.INT_SOURCE0 k.INT_SOURCE0_FIFO_THS_INT1_EN_MASK
             k.INT_SOURCE0_FIFO_THS_INT1_EN_MASK]) ∧
    ((inv_icm42670_buffer_update_watermark k st).1 = 0 →
      (inv_icm42670_buffer_update_watermark k st).2.map.log ≠
        st.map.log ++
          [RegOp.update_bits k.INT_SOURCE0 k.INT_SOURCE0_FIFO_THS_INT1_EN_MASK 0]) := by
  have htake : ∀ (v : Nat) (l : List Nat), (le16_bytes v ++ l).take 2 = le16_bytes v := by
    intro v l; simp [le16_bytes]
  unfold inv_icm42670_buffer_update_watermark
  simp only [htake]
  split_ifs with h1 h2 h3 h4
  · refine ⟨Or.inl ?_, fun h0 => absurd h0 h1⟩
    simp only [regmap_update_bits_check_log]
  · refine ⟨Or.inr (Or.inl ?_), fun _ => ?_⟩ <;>
      simp [regmap_update_bits_check_log, regmap_bulk_write_log]
  · refine ⟨Or.inr (Or.inr ?_), fun _ => ?_⟩ <;>
      simp [regmap_update_bits_check_log, regmap_bulk_write_log, regmap_update_bits_log]
  · refine ⟨Or.inr (Or.inr ?_), fun _ => ?_⟩ <;>
      simp [regmap_update_bits_check_log, regmap_bulk_write_log, regmap_update_bits_log]
  · refine ⟨Or.inr (Or.inl ?_), fun _ => ?_⟩ <;>
      simp [regmap_update_bits_check_log, regmap_bulk_write_log]

/-- C10: when both sensor latencies (truncated count times period in whole
microseconds, as 32-bit unsigned products) are non-zero, the joint watermark is
max(1, (Lmin - (Lmax mod Lmin)) / min(period_gyro, period_accel)) with truncating
division, Lmin and Lmax being the smaller and the larger latency; the byte threshold
wm_size is that watermark times the packet size; and the call sends it, through
INV_ICM42670_FIFO_WATERMARK_VAL, to the watermark register: the operations issued are
the clearing of the interrupt enable bit, then the write of the threshold, then possibly
the setting of the bit, and a call returning 0 has issued the write. -/
theorem update_watermark_both_active (k : Consts) (st : inv_icm42670_state)
    (hg : latency_gyro k st ≠ 0) (ha : latency_accel k st ≠ 0) :
    joint_watermark k st =
      max 1 ((min (latency_gyro k st) (latency_accel k st) -
          max (latency_gyro k st) (latency_accel k st) %
            min (latency_gyro k st) (latency_accel k st)) /
        min (period_gyro k st) (period_accel k st)) ∧
    wm_size k st = joint_watermark k st * inv_icm42670_get_packet_size k st ∧
    ((inv_icm42670_buffer_update_watermark k st).2.map.log =
        st.map.log ++
          [RegOp.update_bits k.INT_SOURCE0 k.INT_SOURCE0_FIFO_THS_INT1_EN_MASK 0] ∨
      (inv_icm42670_buffer_update_watermark k st).2.map.log =
        st.map.log ++
          [RegOp.update_bits k.INT_SOURCE0 k.INT_SOURCE0_FIFO_THS_INT1_EN_MASK 0,
           RegOp.bulk_write k.FIFO_WATERMARK
             (le16_bytes (k.FIFO_WATERMARK_VAL
               (joint_watermark k st * inv_icm42670_get_packet_size k st)))] ∨
      (inv_icm42670_buffer_update_watermark k st).2.map.log =
        st.map.log ++
          [RegOp.update_bits k.INT_SOURCE0 k.INT_SOURCE0_FIFO_THS_INT1_EN_MASK 0,
           RegOp.bulk_write k.FIFO_WATERMARK
             (le16_bytes (k.FIFO_WATERMARK_VAL
               (joint_watermark k st * inv_icm42670_get_packet_size k st))),
           RegOp.update_bits k.INT_SOURCE0 k.INT_SOURCE0_FIFO_THS_INT1_EN_MASK
             k.INT_SOURCE0_FIFO_THS_INT1_EN_MASK]) ∧
    ((inv_icm42670_buffer_update_watermark k st).1 = 0 →
      (inv_icm42670_buffer_update_watermark k st).2.map.log ≠
        st.map.log ++
          [RegOp.update_bits k.INT_SOURCE0 k.INT_SOURCE0_FIFO_THS_INT1_EN_MASK 0]) := by
  have hsz : wm_size k st = joint_watermark k st * inv_icm42670_get_packet_size k st := by
    have hlt := joint_watermark_both_lt k st hg ha
    unfold wm_size
    apply Nat.mod_eq_of_lt
    unfold U32_MOD at hlt
    unfold SIZE_MOD
    rcases get_packet_size_cases k st with h | h <;> rw [h] <;> omega
  have hlog := update_watermark_log k st
  rw [hsz] at hlog
  exact ⟨joint_watermark_both k st hg ha, hsz, hlog.1, hlog.2⟩

/-- Witness of C10: gyro at 10 ms with watermark 4 and accel at 10 ms with watermark 6
give the joint watermark 2 and the threshold 32 bytes, sent as the bytes 32, 0. -/
theorem update_watermark_both_active_witness :
    joint_watermark sampleConsts sampleState = 2 ∧
    wm_size sampleConsts sampleState = 2 * 16 ∧
    (inv_icm42670_buffer_update_watermark sampleConsts sampleState).2.map.log =
      [RegOp.update_bits 0x2B 4 0, RegOp.bulk_write 0x29 [32, 0]] :=
  ⟨(update_watermark_both_active sampleConsts sampleState (by decide) (by decide)).1.trans
      (by decide),
    by decide, by decide⟩

/-- With equal periods and latency products that do not wrap, the joint watermark is
the smaller truncated count minus the remainder of the larger by the smaller. -/
theorem joint_watermark_equal_periods (k : Consts) (st : inv_icm42670_state)
    (hper : period_gyro k st = period_accel k st)
    (hg : latency_gyro k st ≠ 0) (ha : latency_accel k st ≠ 0)
    (hng : period_gyro k st * wm_gyro k st < U32_MOD)
    (hna : period_accel k st * wm_accel k st < U32_MOD) :
    joint_watermark k st =
      min (wm_gyro k st) (wm_accel k st) -
        max (wm_gyro k st) (wm_accel k st) % min (wm_gyro k st) (wm_accel k st) := by
  have hLg : latency_gyro k st = period_gyro k st * wm_gyro k st := by
    rw [latency_gyro, Nat.mod_eq_of_lt hng]
  have hLa : latency_accel k st = period_gyro k st * wm_accel k st := by
    rw [latency_accel, Nat.mod_eq_of_lt hna, hper]
  rw [joint_watermark_both k st hg ha, ← hper, Nat.min_self]
  rw [hLg] at hg
  rw [hLa] at ha
  rw [hLg, hLa]
  generalize period_gyro k st = p at *
  generalize wm_gyro k st = a at *
  generalize wm_accel k st = b at *
  have hp : 0 < p := Nat.pos_of_ne_zero (fun h => hg (by rw [h, Nat.zero_mul]))
  have ha0 : 0 < a := Nat.pos_of_ne_zero (fun h => hg (by rw [h, Nat.mul_zero]))
  have hb0 : 0 < b := Nat.pos_of_ne_zero (fun h => ha (by rw [h, Nat.mul_zero]))
  rw [Nat.mul_min_mul_left, Nat.mul_max_mul_left, Nat.mul_mod_mul_left,
    ← Nat.mul_sub_left_distrib, Nat.mul_div_cancel_left _ hp]
  have hm : 0 < min a b := Nat.lt_min.2 ⟨ha0, hb0⟩
  have hr : max a b % min a b < min a b := Nat.mod_lt _ hm
  exact Nat.max_eq_right (by omega)

/-- Counterexample to C11: gyro and accel both at 10 ms, truncated counts 4 and 6, both
latencies non-zero; the joint watermark is 2 and not the smaller count 4. -/
theorem joint_watermark_equal_periods_not_min :
    period_gyro sampleConsts (sampleStateWm 4 6) = 10000 ∧
    period_accel sampleConsts (sampleStateWm 4 6) = 10000 ∧
    wm_gyro sampleConsts (sampleStateWm 4 6) = 4 ∧
    wm_accel sampleConsts (sampleStateWm 4 6) = 6 ∧
    latency_gyro sampleConsts (sampleStateWm 4 6) ≠ 0 ∧
    latency_accel sampleConsts (sampleStateWm 4 6) ≠ 0 ∧
    joint_watermark sampleConsts (sampleStateWm 4 6) = 2 ∧
    joint_watermark sampleConsts (sampleStateWm 4 6) ≠
      min (wm_gyro sampleConsts (sampleStateWm 4 6))
        (wm_accel sampleConsts (sampleStateWm 4 6)) := by
  decide

/-- C11, amended: for every configuration with both sensors active (both latencies
non-zero), equal ODR periods and latency products that do not wrap 32 bits, the joint
watermark is wmin - (wmax mod wmin), where wmin and wmax are the smaller and the larger
of the two truncated counts; it is the smaller count exactly when the smaller count
divides the larger one. -/
theorem joint_watermark_equal_periods_spec (k : Consts) (st : inv_icm42670_state)
    (hper : period_gyro k st = period_accel k st)
    (hg : latency_gyro k st ≠ 0) (ha : latency_accel k st ≠ 0)
    (hng : period_gyro k st * wm_gyro k st < U32_MOD)
    (hna : period_accel k st * wm_accel k st < U32_MOD) :
    joint_watermark k st =
      min (wm_gyro k st) (wm_accel k st) -
        max (wm_gyro k st) (wm_accel k st) % min (wm_gyro k st) (wm_accel k st) ∧
    (joint_watermark k st = min (wm_gyro k st) (wm_accel k st) ↔
      min (wm_gyro k st) (wm_accel k st) ∣ max (wm_gyro k st) (wm_accel k st)) := by
  have h := joint_watermark_equal_periods k st hper hg ha hng hna
  refine ⟨h, ?_⟩
  have hgw : wm_gyro k st ≠ 0 := by
    intro h0; apply hg; rw [latency_gyro, h0, Nat.mul_zero, Nat.zero_mod]
  have haw : wm_accel k st ≠ 0 := by
    intro h0; apply ha; rw [latency_accel, h0, Nat.mul_zero, Nat.zero_mod]
  have hm : 0 < min (wm_gyro k st) (wm_accel k st) :=
    Nat.lt_min.2 ⟨Nat.pos_of_ne_zero hgw, Nat.pos_of_ne_zero haw⟩
  rw [h, Nat.dvd_iff_mod_eq_zero]
  omega

/-- Witness of the amended C11: counts 4 and 6 at 10 ms give 4 - (6 mod 4) = 2. -/
theorem joint_watermark_equal_periods_spec_witness :
    joint_watermark sampleConsts (sampleStateWm 4 6) =
      min (wm_gyro sampleConsts (sampleStateWm 4 6))
          (wm_accel sampleConsts (sampleStateWm 4 6)) -
        max (wm_gyro sampleConsts (sampleStateWm 4 6))
            (wm_accel sampleConsts (sampleStateWm 4 6)) %
          min (wm_gyro sampleConsts (sampleStateWm 4 6))
            (wm_accel sampleConsts (sampleStateWm 4 6)) ∧
    (joint_watermark sampleConsts (sampleStateWm 4 6) =
        min (wm_gyro sampleConsts (sampleStateWm 4 6))
          (wm_accel sampleConsts (sampleStateWm 4 6)) ↔
      min (wm_gyro sampleConsts (sampleStateWm 4 6))
          (wm_accel sampleConsts (sampleStateWm 4 6)) ∣
        max (wm_gyro sampleConsts (sampleStateWm 4 6))
          (wm_accel sampleConsts (sampleStateWm 4 6))) :=
  joint_watermark_equal_periods_spec sampleConsts (sampleStateWm 4 6) (by decide) (by decide)
    (by decide) (by decide) (by decide)

theorem wm_truncate_lt (k : Consts) (w ps : Nat) : inv_icm42670_wm_truncate k w ps < U32_MOD :=
  Nat.mod_lt _ (by decide)

/-- A desired watermark whose byte size fits the capacity is not truncated. -/
theorem wm_truncate_of_fits (k : Consts) (st : inv_icm42670_state) (w : Nat)
    (hfit : w * 16 ≤ k.FIFO_WATERMARK_MAX) (hw : w < U32_MOD) :
    inv_icm42670_wm_truncate k w (inv_icm42670_get_packet_size k st) = w := by
  unfold U32_MOD at hw
  rcases get_packet_size_cases k st with h | h <;> rw [h]
  · rw [wm_truncate_eq k w 8 (by decide) hw (by unfold SIZE_MOD; omega)]
    exact Nat.min_eq_left ((Nat.le_div_iff_mul_le (by decide)).2 (by omega))
  · rw [wm_truncate_eq k w 16 (by decide) hw (by unfold SIZE_MOD; omega)]
    exact Nat.min_eq_left ((Nat.le_div_iff_mul_le (by decide)).2 hfit)

/-- C12: with gyro at 100 Hz (a period of 10 ms) and desired watermark 4, accel at
100 Hz and desired watermark 6, and a capacity that holds 6 dual-sensor packets (so that
neither count is truncated), the joint watermark computed is 2. -/
theorem joint_watermark_doc_example (k : Consts) (st : inv_icm42670_state)
    (hog : k.odr_to_period st.conf_gyro_odr = 10000000)
    (hoa : k.odr_to_period st.conf_accel_odr = 10000000)
    (hwg : st.fifo_watermark_gyro = 4) (hwa : st.fifo_watermark_accel = 6)
    (hmax : 6 * 16 ≤ k.FIFO_WATERMARK_MAX) :
    joint_watermark k st = 2 := by
  have hpg : period_gyro k st = 10000 := by rw [period_gyro, hog]; decide
  have hpa : period_accel k st = 10000 := by rw [period_accel, hoa]; decide
  have hg4 : wm_gyro k st = 4 := by
    rw [wm_gyro, hwg]; exact wm_truncate_of_fits k st 4 (by omega) (by decide)
  have ha6 : wm_accel k st = 6 := by
    rw [wm_accel, hwa]; exact wm_truncate_of_fits k st 6 hmax (by decide)
  have hLg : latency_gyro k st = 40000 := by rw [latency_gyro, hpg, hg4]; decide
  have hLa : latency_accel k st = 60000 := by rw [latency_accel, hpa, ha6]; decide
  rw [joint_watermark_equal_periods k st (by rw [hpg, hpa]) (by rw [hLg]; decide)
    (by rw [hLa]; decide) (by rw [hpg, hg4]; decide) (by rw [hpa, ha6]; decide), hg4, ha6]
  decide

/-- Witness of C12 on the sample constants and state. -/
theorem joint_watermark_doc_example_witness :
    joint_watermark sampleConsts sampleState = 2 :=
  joint_watermark_doc_example sampleConsts sampleState (by decide) (by decide) rfl rfl
    (by decide)

/-- The joint watermark of the both-active branch in terms of the local latency. -/
theorem joint_watermark_eq_latency (k : Consts) (st : inv_icm42670_state)
    (hg : latency_gyro k st ≠ 0) (ha : latency_accel k st ≠ 0) :
    joint_watermark k st =
      if joint_latency k st /
          (if period_gyro k st ≤ period_accel k st then period_gyro k st
            else period_accel k st) < 1 then 1
      else joint_latency k st /
          (if period_gyro k st ≤ period_accel k st then period_gyro k st
            else period_accel k st) := by
  rw [joint_watermark, if_neg hg, if_neg ha]
  rfl

/-- C13, evaluation of the code at the failing input: gyro and accel both at 10 ms, with
desired watermarks 5 and 7. The latencies are 50000 and 70000 microseconds, the joint
latency chosen is 50000 - (70000 mod 50000) = 30000, which divides neither of them; the
joint watermark is 3. -/
theorem joint_latency_not_common_divisor :
    period_gyro sampleConsts (sampleStateWm 5 7) =
      period_accel sampleConsts (sampleStateWm 5 7) ∧
    latency_gyro sampleConsts (sampleStateWm 5 7) = 50000 ∧
    latency_accel sampleConsts (sampleStateWm 5 7) = 70000 ∧
    joint_latency sampleConsts (sampleStateWm 5 7) = 30000 ∧
    ¬ (joint_latency sampleConsts (sampleStateWm 5 7) ∣
        latency_gyro sampleConsts (sampleStateWm 5 7)) ∧
    ¬ (joint_latency sampleConsts (sampleStateWm 5 7) ∣
        latency_accel sampleConsts (sampleStateWm 5 7)) ∧
    joint_watermark sampleConsts (sampleStateWm 5 7) = 3 := by
  decide

/-- The value computed with the gyro watermark 0: the accel count. -/
theorem joint_watermark_gyro_off (k : Consts) (st : inv_icm42670_state)
    (h0 : st.fifo_watermark_gyro = 0) : joint_watermark k st = wm_accel k st := by
  have hw : wm_gyro k st = 0 := by rw [wm_gyro, h0, wm_truncate_zero]
  have hl : latency_gyro k st = 0 := by simp [latency_gyro, hw]
  rw [joint_watermark, if_pos hl]

/-- The truncated count grows with the desired watermark. -/
theorem wm_truncate_mono (k : Consts) (st : inv_icm42670_state) (w w' : Nat) (hle : w ≤ w')
    (hw' : w' < U32_MOD) :
    inv_icm42670_wm_truncate k w (inv_icm42670_get_packet_size k st) ≤
      inv_icm42670_wm_truncate k w' (inv_icm42670_get_packet_size k st) := by
  have hw : w < U32_MOD := Nat.lt_of_le_of_lt hle hw'
  unfold U32_MOD at hw hw'
  rcases get_packet_size_cases k st with h | h <;> rw [h]
  · rw [wm_truncate_eq k w 8 (by decide) hw (by unfold SIZE_MOD; omega),
      wm_truncate_eq k w' 8 (by decide) hw' (by unfold SIZE_MOD; omega)]
    exact Nat.le_min.2 ⟨Nat.le_trans (Nat.min_le_left _ _) hle, Nat.min_le_right _ _⟩
  · rw [wm_truncate_eq k w 16 (by decide) hw (by unfold SIZE_MOD; omega),
      wm_truncate_eq k w' 16 (by decide) hw' (by unfold SIZE_MOD; omega)]
    exact Nat.le_min.2 ⟨Nat.le_trans (Nat.min_le_left _ _) hle, Nat.min_le_right _ _⟩

/-- The byte threshold grows with the joint watermark, the packet size being kept. -/
theorem wm_size_le_of_joint_le (k : Consts) (s t : inv_icm42670_state)
    (hps : inv_icm42670_get_packet_size k s = inv_icm42670_get_packet_size k t)
    (ht : joint_watermark k t < U32_MOD)
    (hle : joint_watermark k s ≤ joint_watermark k t) :
    wm_size k s ≤ wm_size k t := by
  unfold wm_size
  rw [hps]
  have hmul : joint_watermark k s * inv_icm42670_get_packet_size k t ≤
      joint_watermark k t * inv_icm42670_get_packet_size k t := Nat.mul_le_mul_right _ hle
  have hlt : joint_watermark k t * inv_icm42670_get_packet_size k t < SIZE_MOD := by
    unfold U32_MOD at ht
    unfold SIZE_MOD
    rcases get_packet_size_cases k t with h | h <;> rw [h] <;> omega
  rw [Nat.mod_eq_of_lt hlt, Nat.mod_eq_of_lt (Nat.lt_of_le_of_lt hmul hlt)]
  exact hmul

/-- Counterexample to C14: with gyro and accel both at 10 ms and the gyro watermark 4,
raising the accel desired watermark from 4 to 6 lowers the byte threshold from 64 to
32. -/
theorem wm_size_not_monotone :
    wm_size sampleConsts (sampleStateWm 4 4) = 64 ∧
    wm_size sampleConsts (sampleStateWm 4 6) = 32 ∧
    ¬ (wm_size sampleConsts (sampleStateWm 4 4) ≤ wm_size sampleConsts (sampleStateWm 4 6)) := by
  decide

/-- C14, amended: the byte threshold is monotonic in one sensor's desired watermark
when the other sensor's desired watermark is 0, the ODR settings, the FIFO enable mask
and the other watermark being held fixed: raising the accel desired watermark from w to
w' with the gyro watermark 0 never lowers it, and neither does raising the gyro desired
watermark with the accel watermark 0, the gyro period being non-zero and the 32-bit
latency product of the larger count not wrapping. -/
theorem wm_size_monotone_one_sensor (k : Consts) (st : inv_icm42670_state) (w w' : Nat)
    (hle : w ≤ w') (hw' : w' < U32_MOD) :
    (st.fifo_watermark_gyro = 0 →
      wm_size k { st with fifo_watermark_accel := w } ≤
        wm_size k { st with fifo_watermark_accel := w' }) ∧
    (st.fifo_watermark_accel = 0 → 0 < period_gyro k st →
      period_gyro k st *
          inv_icm42670_wm_truncate k w' (inv_icm42670_get_packet_size k st) < U32_MOD →
      wm_size k { st with fifo_watermark_gyro := w } ≤
        wm_size k { st with fifo_watermark_gyro := w' }) := by
  constructor
  · intro h0
    have e1 := joint_watermark_gyro_off k { st with fifo_watermark_accel := w } h0
    have e2 := joint_watermark_gyro_off k { st with fifo_watermark_accel := w' } h0
    refine wm_size_le_of_joint_le k _ _ ?_ ?_ ?_
    · rfl
    · rw [e2]
      exact wm_truncate_lt _ _ _
    · rw [e1, e2]
      exact wm_truncate_mono k st w w' hle hw'
  · intro h0 hper hnowrap
    have e1 := joint_watermark_accel_off k { st with fifo_watermark_gyro := w } h0
    have e2 := joint_watermark_accel_off k { st with fifo_watermark_gyro := w' } h0
    have hmono := wm_truncate_mono k st w w' hle hw'
    have hlat' : latency_gyro k { st with fifo_watermark_gyro := w' } =
        period_gyro k st *
          inv_icm42670_wm_truncate k w' (inv_icm42670_get_packet_size k st) :=
      Nat.mod_eq_of_lt hnowrap
    have hwg : wm_gyro k { st with fifo_watermark_gyro := w } =
        inv_icm42670_wm_truncate k w (inv_icm42670_get_packet_size k st) := rfl
    have hwg' : wm_gyro k { st with fifo_watermark_gyro := w' } =
        inv_icm42670_wm_truncate k w' (inv_icm42670_get_packet_size k st) := rfl
    rw [hlat', hwg'] at e2
    rw [hwg] at e1
    refine wm_size_le_of_joint_le k _ _ ?_ ?_ ?_
    · rfl
    · rw [e2]
      split_ifs
      · decide
      · exact wm_truncate_lt _ _ _
    · rw [e1, e2]
      by_cases hz : period_gyro k st *
          inv_icm42670_wm_truncate k w' (inv_icm42670_get_packet_size k st) = 0
      · rw [if_pos hz]
        rcases Nat.mul_eq_zero.1 hz with h | h
        · omega
        · have : inv_icm42670_wm_truncate k w (inv_icm42670_get_packet_size k st) = 0 := by
            omega
          rw [this]; split_ifs <;> exact Nat.le_refl 0
      · rw [if_neg hz]
        split_ifs
        · exact Nat.zero_le _
        · exact hmono

/-- Witness of the amended C14: with one sensor off, raising the other desired
watermark from 4 to 6 raises the threshold. -/
theorem wm_size_monotone_one_sensor_witness :
    wm_size sampleConsts { sampleStateWm 0 0 with fifo_watermark_accel := 4 } ≤
      wm_size sampleConsts { sampleStateWm 0 0 with fifo_watermark_accel := 6 } ∧
    wm_size sampleConsts { sampleStateWm 0 0 with fifo_watermark_gyro := 4 } ≤
      wm_size sampleConsts { sampleStateWm 0 0 with fifo_watermark_gyro := 6 } :=
  ⟨(wm_size_monotone_one_sensor sampleConsts (sampleStateWm 0 0) 4 6 (by decide)
      (by decide)).1 rfl,
   (wm_size_monotone_one_sensor sampleConsts (sampleStateWm 0 0) 4 6 (by decide)
      (by decide)).2 rfl (by decide) (by decide)⟩

theorem wm_truncate_checked_eq (k : Consts) (w ps : Nat) (hps : ps ≠ 0) :
    inv_icm42670_wm_truncate_checked k w ps = some (inv_icm42670_wm_truncate k w ps) := by
  simp [inv_icm42670_wm_truncate_checked, inv_icm42670_wm_truncate, div_checked, hps]

theorem get_packet_size_ne_zero (k : Consts) (st : inv_icm42670_state) :
    inv_icm42670_get_packet_size k st ≠ 0 := by
  rcases get_packet_size_cases k st with h | h <;> rw [h] <;> decide

theorem period_gyro_ne_zero (k : Consts) (st : inv_icm42670_state)
    (hg : latency_gyro k st ≠ 0) : period_gyro k st ≠ 0 := by
  intro h; apply hg; rw [latency_gyro, h, Nat.zero_mul, Nat.zero_mod]

theorem period_accel_ne_zero (k : Consts) (st : inv_icm42670_state)
    (ha : latency_accel k st ≠ 0) : period_accel k st ≠ 0 := by
  intro h; apply ha; rw [latency_accel, h, Nat.zero_mul, Nat.zero_mod]

/-- The checked computation never traps and gives the watermark of the unchecked one. -/
theorem joint_watermark_checked_eq (k : Consts) (st : inv_icm42670_state) :
    joint_watermark_checked k st = some (joint_watermark k st) := by
  have hps := get_packet_size_ne_zero k st
  unfold joint_watermark_checked
  simp only [wm_truncate_checked_eq k _ _ hps, Option.some_bind]
  show (if latency_gyro k st = 0 then some (wm_accel k st)
    else if latency_accel k st = 0 then some (wm_gyro k st)
    else
      (if latency_gyro k st ≤ latency_accel k st then
        (mod_checked (latency_accel k st) (latency_gyro k st)).map
          fun r => (latency_gyro k st - r) % U32_MOD
      else
        (mod_checked (latency_gyro k st) (latency_accel k st)).map
          fun r => (latency_accel k st - r) % U32_MOD).bind fun latency =>
      (div_checked latency
        (if period_gyro k st ≤ period_accel k st then period_gyro k st
          else period_accel k st)).map fun watermark =>
        if watermark < 1 then 1 else watermark) = some (joint_watermark k st)
  unfold joint_watermark
  by_cases hg : latency_gyro k st = 0
  · rw [if_pos hg, if_pos hg]
  · by_cases ha : latency_accel k st = 0
    · rw [if_neg hg, if_neg hg, if_pos ha, if_pos ha]
    · have hpg := period_gyro_ne_zero k st hg
      have hpa := period_accel_ne_zero k st ha
      have hp : (if period_gyro k st ≤ period_accel k st then period_gyro k st
          else period_accel k st) ≠ 0 := by split_ifs <;> assumption
      rw [if_neg hg, if_neg hg, if_neg ha, if_neg ha]
      simp only [mod_checked, div_checked, hg, ha, hp, if_false]
      split_ifs with h1 h2 h3 h3 h2 h3 h3 <;>
        simp only [Option.map_some', Option.some_bind, h3, if_true, if_false]

/-- C15: the arithmetic of the watermark computation is total: the packet size that
inv_icm42670_wm_truncate divides by is always 8 or 16; the computation with every
division and remainder checked never traps and yields the watermark; and in the
both-active branch the modulus (the smaller latency) and the divisor (the shorter
period) are non-zero. -/
theorem planner_total (k : Consts) (st : inv_icm42670_state) :
    (inv_icm42670_get_packet_size k st = 8 ∨ inv_icm42670_get_packet_size k st = 16) ∧
    joint_watermark_checked k st = some (joint_watermark k st) ∧
    (latency_gyro k st ≠ 0 → latency_accel k st ≠ 0 →
      min (latency_gyro k st) (latency_accel k st) ≠ 0 ∧
      min (period_gyro k st) (period_accel k st) ≠ 0) := by
  refine ⟨get_packet_size_cases k st, joint_watermark_checked_eq k st, ?_⟩
  intro hg ha
  have hpg := period_gyro_ne_zero k st hg
  have hpa := period_accel_ne_zero k st ha
  constructor
  · rcases Nat.le_total (latency_gyro k st) (latency_accel k st) with h | h
    · rw [Nat.min_eq_left h]; exact hg
    · rw [Nat.min_eq_right h]; exact ha
  · rcases Nat.le_total (period_gyro k st) (period_accel k st) with h | h
    · rw [Nat.min_eq_left h]; exact hpg
    · rw [Nat.min_eq_right h]; exact hpa

/-- Witness of C15 on the sample state, both sensors active. -/
theorem planner_total_witness :
    joint_watermark_checked sampleConsts sampleState = some 2 ∧
    min (latency_gyro sampleConsts sampleState) (latency_accel sampleConsts sampleState) ≠ 0 ∧
    min (period_gyro sampleConsts sampleState) (period_accel sampleConsts sampleState) ≠ 0 :=
  ⟨(planner_total sampleConsts sampleState).2.1.trans (by decide),
   (planner_total sampleConsts sampleState).2.2 (by decide) (by decide)⟩

/-! ## Properties of the FIFO drain -/

theorem regmap_bulk_read_ok (map : Regmap) (reg : Nat) (hok : map.next = 0) :
    regmap_bulk_read map reg 2 =
      (0, [map.regs reg % 256, map.regs (reg + 1) % 256],
        map.issue (RegOp.bulk_read reg 2)) := by
  unfold regmap_bulk_read
  rw [if_neg (by rw [hok]; exact fun h => h rfl)]
  rfl

theorem regmap_bulk_read_fail (map : Regmap) (reg count : Nat) (h : map.next ≠ 0) :
    regmap_bulk_read map reg count = (map.next, [], map.issue (RegOp.bulk_read reg count)) := by
  unfold regmap_bulk_read
  rw [if_pos h]

theorem regmap_noinc_read_ok (map : Regmap) (reg count : Nat) (hok : map.next = 0) :
    regmap_noinc_read map reg count =
      (0, (List.range count).map (fun j => map.fifo.getD j 0xFF % 256),
        { map.issue (RegOp.noinc_read reg count) with fifo := map.fifo.drop count }) := by
  unfold regmap_noinc_read
  rw [if_neg (by rw [hok]; exact fun h => h rfl)]

theorem regmap_noinc_read_fail (map : Regmap) (reg count : Nat) (h : map.next ≠ 0) :
    regmap_noinc_read map reg count =
      (map.next, [], map.issue (RegOp.noinc_read reg count)) := by
  unfold regmap_noinc_read
  rw [if_pos h]

theorem rd_be16_count (a b : Nat) (l : List Nat) :
    rd_be16 ([a % 256, b % 256] ++ l) 0 = 256 * (a % 256) + b % 256 := by
  simp [rd_be16, rd8]

/-- The cap of lines 502-506: the capacity of the internal buffer when max is 0, max
packets otherwise. -/
theorem fifo_read_cap_eq (k : Consts) (st : inv_icm42670_state) (max : Nat)
    (hmax : max < U32_MOD) :
    (if max = 0 then k.sizeof_fifo_data
      else max * inv_icm42670_get_packet_size k st % SIZE_MOD) =
    (if max = 0 then k.sizeof_fifo_data else max * inv_icm42670_get_packet_size k st) := by
  split_ifs
  · rfl
  · apply Nat.mod_eq_of_lt
    unfold U32_MOD at hmax
    unfold SIZE_MOD
    rcases get_packet_size_cases k st with h | h <;> rw [h] <;> omega

/-- The outcome of lines 496-526 when the read of the count register fails. -/
theorem fifo_read_fetch_fail1 (k : Consts) (st : inv_icm42670_state) (max : Nat)
    (h1 : st.map.next ≠ 0) :
    fifo_read_fetch k st max =
      { ret := st.map.next, walk := false,
        st := { st with fifo_count := 0, fifo_nb_gyro := 0, fifo_nb_accel := 0,
                        fifo_nb_total := 0,
                        map := st.map.issue (RegOp.bulk_read k.FIFO_COUNTH 2) } } := by
  unfold fifo_read_fetch
  simp only [regmap_bulk_read_fail _ _ _ h1]
  rw [if_pos h1]

/-- The outcome of lines 496-526 when the count register reads 0. -/
theorem fifo_read_fetch_zero (k : Consts) (st : inv_icm42670_state) (max : Nat)
    (h1 : st.map.next = 0) (hz : reported_count k st = 0) :
    fifo_read_fetch k st max =
      { ret := 0, walk := false,
        st := { st with fifo_count := 0, fifo_nb_gyro := 0, fifo_nb_accel := 0,
                        fifo_nb_total := 0,
                        map := st.map.issue (RegOp.bulk_read k.FIFO_COUNTH 2),
                        buffer := [st.map.regs k.FIFO_COUNTH % 256,
                                   st.map.regs (k.FIFO_COUNTH + 1) % 256] ++
                                  st.buffer.drop 2 } } := by
  unfold reported_count at hz
  unfold fifo_read_fetch
  simp only [regmap_bulk_read_ok _ _ h1, rd_be16_count, hz, ne_eq, not_true_eq_false,
    if_false, if_true]

/-- C16: for every state and every max hint, when the read of the count register
succeeds and the register reads 0, inv_icm42670_buffer_fifo_read returns 0 with the
byte count, the gyro count, the accel count and the total count all 0, and the only
operation it issues on the transport is the 2-byte read of the count register: no
non-incrementing read of the FIFO data register. -/
theorem fifo_read_count_zero (k : Consts) (st : inv_icm42670_state) (max : Nat)
    (out : DecodeOut) (h1 : st.map.next = 0) (hz : reported_count k st = 0) :
    (inv_icm42670_buffer_fifo_read k st max out).1 = 0 ∧
    (inv_icm42670_buffer_fifo_read k st max out).2.fifo_count = 0 ∧
    (inv_icm42670_buffer_fifo_read k st max out).2.fifo_nb_gyro = 0 ∧
    (inv_icm42670_buffer_fifo_read k st max out).2.fifo_nb_accel = 0 ∧
    (inv_icm42670_buffer_fifo_read k st max out).2.fifo_nb_total = 0 ∧
    (inv_icm42670_buffer_fifo_read k st max out).2.map.log =
      st.map.log ++ [RegOp.bulk_read k.FIFO_COUNTH 2] := by
  unfold inv_icm42670_buffer_fifo_read
  simp only [fifo_read_fetch_zero k st max h1 hz]
  exact ⟨rfl, rfl, rfl, rfl, rfl, rfl⟩

/-- Witness of C16: the sample state with the count register reading 0 and a stale
gyro count, drained with max hint 5. -/
theorem fifo_read_count_zero_witness :
    (inv_icm42670_buffer_fifo_read sampleConsts
        { sampleDrainState 0 sampleFifo with fifo_nb_gyro := 7 } 5 out0).1 = 0 ∧
    (inv_icm42670_buffer_fifo_read sampleConsts
        { sampleDrainState 0 sampleFifo with fifo_nb_gyro := 7 } 5 out0).2.fifo_count = 0 ∧
    (inv_icm42670_buffer_fifo_read sampleConsts
        { sampleDrainState 0 sampleFifo with fifo_nb_gyro := 7 } 5 out0).2.fifo_nb_gyro = 0 ∧
    (inv_icm42670_buffer_fifo_read sampleConsts
        { sampleDrainState 0 sampleFifo with fifo_nb_gyro := 7 } 5 out0).2.fifo_nb_accel = 0 ∧
    (inv_icm42670_buffer_fifo_read sampleConsts
        { sampleDrainState 0 sampleFifo with fifo_nb_gyro := 7 } 5 out0).2.fifo_nb_total = 0 ∧
    (inv_icm42670_buffer_fifo_read sampleConsts
        { sampleDrainState 0 sampleFifo with fifo_nb_gyro := 7 } 5 out0).2.map.log =
      [] ++ [RegOp.bulk_read 0x3D 2] :=
  fifo_read_count_zero sampleConsts { sampleDrainState 0 sampleFifo with fifo_nb_gyro := 7 } 5
    out0 (by decide) (by decide)

/-- The outcome of lines 496-526 when both reads succeed and the count register does
not read 0; c is the clamped count of lines 519-520. -/
theorem fifo_read_fetch_ok (k : Consts) (st : inv_icm42670_state) (max c : Nat)
    (h1 : st.map.next = 0) (hnz : reported_count k st ≠ 0)
    (h2 : (st.map.issue (RegOp.bulk_read k.FIFO_COUNTH 2)).next = 0)
    (hc : c = if reported_count k st >
                (if max = 0 then k.sizeof_fifo_data
                  else max * inv_icm42670_get_packet_size k st % SIZE_MOD)
              then (if max = 0 then k.sizeof_fifo_data
                  else max * inv_icm42670_get_packet_size k st % SIZE_MOD)
              else reported_count k st) :
    fifo_read_fetch k st max =
      { ret := 0, walk := true,
        st := { st with
          fifo_count := c, fifo_nb_gyro := 0, fifo_nb_accel := 0, fifo_nb_total := 0,
          map := { (st.map.issue (RegOp.bulk_read k.FIFO_COUNTH 2)).issue
                      (RegOp.noinc_read k.FIFO_DATA c) with fifo := st.map.fifo.drop c },
          buffer := [st.map.regs k.FIFO_COUNTH % 256,
                     st.map.regs (k.FIFO_COUNTH + 1) % 256] ++ st.buffer.drop 2,
          fifo_data := (List.range c).map (fun j => st.map.fifo.getD j 0xFF % 256) ++
                       st.fifo_data.drop c } } := by
  unfold reported_count at hnz hc
  have hps : inv_icm42670_get_packet_size k
      { st with fifo_count := 0, fifo_nb_gyro := 0, fifo_nb_accel := 0,
                fifo_nb_total := 0 } = inv_icm42670_get_packet_size k st := rfl
  unfold fifo_read_fetch
  simp only [regmap_bulk_read_ok _ _ h1, rd_be16_count, hnz, ne_eq, not_true_eq_false,
    if_false, hps]
  by_cases hgt : 256 * (st.map.regs k.FIFO_COUNTH % 256) +
      st.map.regs (k.FIFO_COUNTH + 1) % 256 >
      (if max = 0 then k.sizeof_fifo_data
        else max * inv_icm42670_get_packet_size k st % SIZE_MOD)
  · rw [if_pos hgt] at hc
    rw [if_pos hgt]
    simp only [regmap_noinc_read_ok _ _ _ h2, ne_eq, not_true_eq_false, if_false, ← hc]
    rfl
  · rw [if_neg hgt] at hc
    rw [if_neg hgt]
    simp only [regmap_noinc_read_ok _ _ _ h2, ne_eq, not_true_eq_false, if_false, ← hc]
    rfl

/-- A drain that returns 0 has read the count register successfully. -/
theorem fifo_read_ret_zero_first (k : Consts) (st : inv_icm42670_state) (max : Nat)
    (out : DecodeOut) (hret : (inv_icm42670_buffer_fifo_read k st max out).1 = 0) :
    st.map.next = 0 := by
  by_contra h1
  unfold inv_icm42670_buffer_fifo_read at hret
  simp only [fifo_read_fetch_fail1 k st max h1] at hret
  exact h1 hret

/-- The outcome of lines 496-526 when the read of the FIFO data fails. -/
theorem fifo_read_fetch_fail2 (k : Consts) (st : inv_icm42670_state) (max : Nat)
    (h1 : st.map.next = 0) (hnz : reported_count k st ≠ 0)
    (h2 : (st.map.issue (RegOp.bulk_read k.FIFO_COUNTH 2)).next ≠ 0) :
    (fifo_read_fetch k st max).walk = false ∧
      (fifo_read_fetch k st max).ret =
        (st.map.issue (RegOp.bulk_read k.FIFO_COUNTH 2)).next := by
  unfold reported_count at hnz
  unfold fifo_read_fetch
  simp only [regmap_bulk_read_ok _ _ h1, rd_be16_count, hnz, ne_eq, not_true_eq_false,
    if_false]
  by_cases hgt : 256 * (st.map.regs k.FIFO_COUNTH % 256) +
      st.map.regs (k.FIFO_COUNTH + 1) % 256 >
      (if max = 0 then k.sizeof_fifo_data
        else max * inv_icm42670_get_packet_size k
          { st with fifo_count := 0, fifo_nb_gyro := 0, fifo_nb_accel := 0,
                    fifo_nb_total := 0 } % SIZE_MOD)
  · rw [if_pos hgt]
    simp only [regmap_noinc_read_fail _ _ _ h2, ne_eq, h2, not_false_eq_true, if_true,
      and_self]
  · rw [if_neg hgt]
    simp only [regmap_noinc_read_fail _ _ _ h2, ne_eq, h2, not_false_eq_true, if_true,
      and_self]

/-- A drain that returns 0 with a non-zero count has read the FIFO data successfully. -/
theorem fifo_read_ret_zero_second (k : Consts) (st : inv_icm42670_state) (max : Nat)
    (out : DecodeOut) (hret : (inv_icm42670_buffer_fifo_read k st max out).1 = 0)
    (hnz : reported_count k st ≠ 0) :
    (st.map.issue (RegOp.bulk_read k.FIFO_COUNTH 2)).next = 0 := by
  have h1 := fifo_read_ret_zero_first k st max out hret
  by_contra h2
  have hfail := fifo_read_fetch_fail2 k st max h1 hnz h2
  unfold inv_icm42670_buffer_fifo_read at hret
  simp only [hfail.1, Bool.false_eq_true, if_false, hfail.2] at hret
  exact h2 hret

/-- The clamp of lines 519-520 is a minimum. -/
theorem clamp_eq_min (reported cap : Nat) :
    min reported cap = if reported > cap then cap else reported := by
  rw [Nat.min_def]
  split_ifs <;> omega

/-- The drained count and the operations issued by a drain whose two reads succeed, the
count register not reading 0. -/
theorem fifo_read_ok_count_log (k : Consts) (st : inv_icm42670_state) (max : Nat)
    (out : DecodeOut) (hmax : max < U32_MOD) (h1 : st.map.next = 0)
    (hnz : reported_count k st ≠ 0)
    (h2 : (st.map.issue (RegOp.bulk_read k.FIFO_COUNTH 2)).next = 0) :
    (inv_icm42670_buffer_fifo_read k st max out).2.fifo_count =
      min (reported_count k st)
        (if max = 0 then k.sizeof_fifo_data
          else max * inv_icm42670_get_packet_size k st) ∧
    (inv_icm42670_buffer_fifo_read k st max out).2.map.log =
      st.map.log ++
        [RegOp.bulk_read k.FIFO_COUNTH 2,
         RegOp.noinc_read k.FIFO_DATA
           (min (reported_count k st)
             (if max = 0 then k.sizeof_fifo_data
               else max * inv_icm42670_get_packet_size k st))] := by
  have hc := clamp_eq_min (reported_count k st)
    (if max = 0 then k.sizeof_fifo_data else max * inv_icm42670_get_packet_size k st)
  rw [← fifo_read_cap_eq k st max hmax] at hc
  have hf := fifo_read_fetch_ok k st max _ h1 hnz h2 hc
  rw [fifo_read_cap_eq k st max hmax] at hf
  unfold inv_icm42670_buffer_fifo_read
  simp only [hf, if_true]
  refine ⟨trivial, ?_⟩
  simp [Regmap.issue]

/-- C17: for every drain that returns 0 with a non-zero reported count (the two bytes of
the count register read big-endian, 256 * b0 + b1), the drained byte count is
min(reported, cap), where cap is the capacity of the internal buffer when max is 0 and
max times the current packet size otherwise; it is never above the reported value; and
the transport operations issued are the read of the count register followed by one
non-incrementing read of exactly that many bytes from the FIFO data register. -/
theorem fifo_read_clamp (k : Consts) (st : inv_icm42670_state) (max : Nat)
    (out : DecodeOut) (hmax : max < U32_MOD)
    (hret : (inv_icm42670_buffer_fifo_read k st max out).1 = 0)
    (hnz : reported_count k st ≠ 0) :
    reported_count k st =
      256 * (st.map.regs k.FIFO_COUNTH % 256) + st.map.regs (k.FIFO_COUNTH + 1) % 256 ∧
    (inv_icm42670_buffer_fifo_read k st max out).2.fifo_count =
      min (reported_count k st)
        (if max = 0 then k.sizeof_fifo_data
          else max * inv_icm42670_get_packet_size k st) ∧
    (inv_icm42670_buffer_fifo_read k st max out).2.fifo_count ≤ reported_count k st ∧
    (inv_icm42670_buffer_fifo_read k st max out).2.map.log =
      st.map.log ++
        [RegOp.bulk_read k.FIFO_COUNTH 2,
         RegOp.noinc_read k.FIFO_DATA
           (min (reported_count k st)
             (if max = 0 then k.sizeof_fifo_data
               else max * inv_icm42670_get_packet_size k st))] := by
  have h1 := fifo_read_ret_zero_first k st max out hret
  have h2 := fifo_read_ret_zero_second k st max out hret hnz
  have h := fifo_read_ok_count_log k st max out hmax h1 hnz h2
  refine ⟨rfl, h.1, ?_, h.2⟩
  rw [h.1]
  exact Nat.min_le_left _ _

/-- Witness of C17: the count register reads 48 and the hint is 2 dual packets, so 32
bytes are drained. -/
theorem fifo_read_clamp_witness :
    (inv_icm42670_buffer_fifo_read sampleConsts (sampleDrainState 48 sampleFifo) 2
        out0).2.fifo_count = 32 ∧
    (inv_icm42670_buffer_fifo_read sampleConsts (sampleDrainState 48 sampleFifo) 2
        out0).2.map.log = [RegOp.bulk_read 0x3D 2, RegOp.noinc_read 0x3F 32] :=
  ⟨(fifo_read_clamp sampleConsts (sampleDrainState 48 sampleFifo) 2 out0 (by decide)
      (by decide) (by decide)).2.1.trans (by decide),
   (fifo_read_clamp sampleConsts (sampleDrainState 48 sampleFifo) 2 out0 (by decide)
      (by decide) (by decide)).2.2.2.trans (by decide)⟩

/-- With max = 0 the bytes requested from the FIFO data register fit the internal
buffer. -/
theorem fifo_read_request_max_zero (k : Consts) (st : inv_icm42670_state)
    (out : DecodeOut) (h1 : st.map.next = 0) (hnz : reported_count k st ≠ 0)
    (h2 : (st.map.issue (RegOp.bulk_read k.FIFO_COUNTH 2)).next = 0) :
    (inv_icm42670_buffer_fifo_read k st 0 out).2.map.log =
      st.map.log ++
        [RegOp.bulk_read k.FIFO_COUNTH 2,
         RegOp.noinc_read k.FIFO_DATA (min (reported_count k st) k.sizeof_fifo_data)] ∧
    min (reported_count k st) k.sizeof_fifo_data ≤ k.sizeof_fifo_data := by
  have h := fifo_read_ok_count_log k st 0 out (by decide) h1 hnz h2
  simp only [if_true] at h
  exact ⟨h.2, Nat.min_le_right _ _⟩

/-- With max different from 0 the bytes requested are min(reported, max * packet size),
whatever the capacity of the internal buffer is. -/
theorem fifo_read_request_max_pos (k : Consts) (st : inv_icm42670_state) (max : Nat)
    (out : DecodeOut) (hmax : max < U32_MOD) (hpos : max ≠ 0) (h1 : st.map.next = 0)
    (hnz : reported_count k st ≠ 0)
    (h2 : (st.map.issue (RegOp.bulk_read k.FIFO_COUNTH 2)).next = 0) :
    (inv_icm42670_buffer_fifo_read k st max out).2.map.log =
      st.map.log ++
        [RegOp.bulk_read k.FIFO_COUNTH 2,
         RegOp.noinc_read k.FIFO_DATA
           (min (reported_count k st) (max * inv_icm42670_get_packet_size k st))] := by
  have h := fifo_read_ok_count_log k st max out hmax h1 hnz h2
  simp only [hpos, if_false] at h
  exact h.2

/-- C18, evaluation of the code at the failing input: both sensors in the FIFO (packet
size 16), max hint 200, count register reading 4095, internal buffer of 2080 bytes.
The cap is 200 * 16 = 3200 and the drain requests 3200 bytes from the FIFO data
register for the 2080-byte buffer. -/
theorem fifo_read_request_exceeds_capacity :
    reported_count sampleConsts (sampleDrainState 4095 sampleFifo) = 4095 ∧
    inv_icm42670_get_packet_size sampleConsts (sampleDrainState 4095 sampleFifo) = 16 ∧
    sampleConsts.sizeof_fifo_data = 2080 ∧
    (inv_icm42670_buffer_fifo_read sampleConsts (sampleDrainState 4095 sampleFifo) 200
        out0).2.map.log = [RegOp.bulk_read 0x3D 2, RegOp.noinc_read 0x3F 3200] ∧
    ¬ (3200 ≤ sampleConsts.sizeof_fifo_data) := by
  refine ⟨by decide, by decide, rfl, ?_, by decide⟩
  exact (fifo_read_request_max_pos sampleConsts (sampleDrainState 4095 sampleFifo) 200 out0
    (by decide) (by decide) (by decide) (by decide) (by decide)).trans (by decide)

/-! ### The walk over the drained buffer -/

theorem rd8_drop (d : List Nat) (i j : Nat) : rd8 (d.drop i) j = rd8 d (i + j) := by
  simp only [rd8, List.getD_eq_getElem?_getD, List.getElem?_drop]

theorem decode_of_record_size (k : Consts) (p : List Nat) (out : DecodeOut) (s : Nat)
    (h : record_size (rd8 p 0) = some s) :
    (inv_icm42670_fifo_decode_packet k p out).ret = (s : Int) ∧ (s = 8 ∨ s = 16) ∧
    (s = 8 → (inv_icm42670_fifo_decode_packet k p out).packet = p) ∧
    (s = 16 → (inv_icm42670_fifo_decode_packet k p out).packet =
      decode_fsync_fix (rd8 p 0) p) := by
  rw [decode_cases]
  unfold record_size at h
  revert h
  cases (rd8 p 0).testBit 7 <;> cases (rd8 p 0).testBit 6 <;>
    cases (rd8 p 0).testBit 5 <;> simp <;> intro h <;> subst h <;> simp

theorem decode_of_record_none (k : Consts) (p : List Nat) (out : DecodeOut)
    (h : record_size (rd8 p 0) = none) :
    (inv_icm42670_fifo_decode_packet k p out).ret ≤ 0 ∧
    (inv_icm42670_fifo_decode_packet k p out).packet = p := by
  rw [decode_cases]
  unfold record_size at h
  revert h
  cases (rd8 p 0).testBit 7 <;> cases (rd8 p 0).testBit 6 <;>
    cases (rd8 p 0).testBit 5 <;> simp

/-- A buffer in which the part from offset i on has been replaced by a list of the same
length. -/
theorem getD_take_append (d p : List Nat) (i t : Nat) (hp : p.length = (d.drop i).length) :
    (d.take i ++ p).getD t 0 = if t < i then d.getD t 0 else p.getD (t - i) 0 := by
  rcases Nat.lt_or_ge d.length i with hlt | hge
  · have hp0 : p = [] := by
      apply List.eq_nil_of_length_eq_zero
      rw [hp, List.length_drop]; omega
    rw [hp0, List.append_nil, List.take_of_length_le (Nat.le_of_lt hlt)]
    split_ifs with h
    · rfl
    · simp only [List.getD_eq_getElem?_getD]
      rw [List.getElem?_eq_none (by omega)]
      rfl
  · have hlen : (d.take i).length = i := by rw [List.length_take]; omega
    split_ifs with h
    · rw [List.getD_append _ _ _ _ (by omega)]
      simp only [List.getD_eq_getElem?_getD, List.getElem?_take_of_lt h]
    · rw [List.getD_append_right _ _ _ _ (by omega), hlen]

/-- Beyond a record that the decoder has accepted the buffer is as before. -/
theorem rd8_after_decode (k : Consts) (d : List Nat) (out : DecodeOut) (i s t : Nat)
    (h : record_size (rd8 d i) = some s) (ht : i + s ≤ t) :
    rd8 (d.take i ++ (inv_icm42670_fifo_decode_packet k (d.drop i) out).packet) t =
      rd8 d t := by
  have h0 : record_size (rd8 (d.drop i) 0) = some s := by rw [rd8_drop]; exact h
  obtain ⟨_, hs, h8, h16⟩ := decode_of_record_size k (d.drop i) out s h0
  rcases hs with hs | hs
  · rw [h8 hs, List.take_append_drop]
  · rw [h16 hs]
    unfold rd8
    rw [getD_take_append _ _ _ _ (decode_fsync_fix_length _ _), if_neg (by omega),
      decode_fsync_fix_getD]
    have e1 : ¬ ((t - i = 8 ∨ t - i = 10 ∨ t - i = 12) ∧ t - i < (d.drop i).length) := by
      omega
    have e2 : ¬ ((t - i = 7 ∨ t - i = 9 ∨ t - i = 11) ∧ t - i < (d.drop i).length) := by
      omega
    rw [if_neg e1, if_neg e2]
    simp only [List.getD_eq_getElem?_getD, List.getElem?_drop]
    rw [show i + (t - i) = t by omega]

theorem valid_records_congr (a b : List Nat) (c : Nat) :
    ∀ (n i : Nat), (∀ t, i ≤ t → rd8 a t = rd8 b t) →
      valid_records a c n i = valid_records b c n i := by
  intro n
  induction n with
  | zero => intro i _; rfl
  | succ n ih =>
    intro i hab
    unfold valid_records
    rw [hab i (Nat.le_refl i)]
    split_ifs with hi
    · cases hrs : record_size (rd8 b i) with
      | none => rfl
      | some s => exact ih (i + s) (fun t ht => hab t (by omega))
    · rfl

theorem record_size_pos (h s : Nat) (hs : record_size h = some s) : s = 8 ∨ s = 16 := by
  unfold record_size at hs
  revert hs
  cases h.testBit 7 <;> cases h.testBit 6 <;> cases h.testBit 5 <;> simp <;>
    intro h <;> omega

theorem valid_records_succ (d : List Nat) (c n i j : Nat)
    (h : valid_records d c (n + 1) i = some j) :
    i < c ∧ ∃ s, record_size (rd8 d i) = some s ∧ (s = 8 ∨ s = 16) ∧
      valid_records d c n (i + s) = some j := by
  unfold valid_records at h
  by_cases hi : i < c
  · rw [if_pos hi] at h
    cases hrs : record_size (rd8 d i) with
    | none => rw [hrs] at h; exact absurd h (by simp)
    | some s =>
      rw [hrs] at h
      exact ⟨hi, s, rfl, record_size_pos _ _ hrs, h⟩
  · rw [if_neg hi] at h; exact absurd h (by simp)

theorem valid_records_le (d : List Nat) (c : Nat) :
    ∀ (n i j : Nat), valid_records d c n i = some j → i + 8 * n ≤ j := by
  intro n
  induction n with
  | zero =>
    intro i j h
    unfold valid_records at h
    have := Option.some.inj h
    omega
  | succ n ih =>
    intro i j h
    obtain ⟨_, s, _, hs, hv⟩ := valid_records_succ d c n i j h
    have := ih (i + s) j hv
    omega

theorem walk_body_data (k : Consts) (i : Nat) (w : WalkState) :
    (walk_body k i w).data =
      w.data.take i ++ (inv_icm42670_fifo_decode_packet k (w.data.drop i) w.out).packet := by
  simp only [walk_body]
  split_ifs <;> rfl

theorem walk_body_total (k : Consts) (i : Nat) (w : WalkState) :
    (walk_body k i w).nb_total = w.nb_total + 1 := by
  simp only [walk_body]
  split_ifs <;> rfl

theorem walk_body_calls (k : Consts) (i : Nat) (w : WalkState) :
    (walk_body k i w).calls = w.calls ++ [i] := by
  simp only [walk_body]
  split_ifs <;> rfl

/-- The loop ends when the index has reached the count. -/
theorem fifo_walk_exit (k : Consts) (c fuel i : Nat) (w : WalkState) (hi : ¬ i < c) :
    fifo_walk k c fuel i w = w := by
  cases fuel with
  | zero => rfl
  | succ f => rw [fifo_walk, if_neg hi]

/-- The loop breaks on a header that is empty or malformed: only the locals and the
record of calls change. -/
theorem fifo_walk_stop (k : Consts) (c f i : Nat) (w : WalkState) (hi : i < c)
    (hr : record_size (rd8 w.data i) = none) :
    fifo_walk k c (f + 1) i w =
      { w with out := (inv_icm42670_fifo_decode_packet k (w.data.drop i) w.out).out,
               calls := w.calls ++ [i] } := by
  have h0 : record_size (rd8 (w.data.drop i) 0) = none := by rw [rd8_drop]; exact hr
  obtain ⟨hret, hpk⟩ := decode_of_record_none k (w.data.drop i) w.out h0
  rw [fifo_walk, if_pos hi]
  simp only [hret, if_true, hpk, List.take_append_drop]

/-- The loop goes on after a structurally valid non-empty record. -/
theorem fifo_walk_step (k : Consts) (c f i s : Nat) (w : WalkState) (hi : i < c)
    (hr : record_size (rd8 w.data i) = some s) :
    fifo_walk k c (f + 1) i w = fifo_walk k c f (i + s) (walk_body k i w) := by
  have h0 : record_size (rd8 (w.data.drop i) 0) = some s := by rw [rd8_drop]; exact hr
  obtain ⟨hret, hs, _, _⟩ := decode_of_record_size k (w.data.drop i) w.out s h0
  have hpos : ¬ ((s : Int) ≤ 0) := by omega
  rw [fifo_walk, if_pos hi]
  simp only [hret, hpos, if_false, Int.toNat_ofNat]
  rfl

/-- The walk over n structurally valid non-empty records that end at offset j, where
the walk stops (by the count or by an empty or malformed header), compared with the
walk of the first j bytes only. -/
theorem fifo_walk_records (k : Consts) (c j : Nat) :
    ∀ (n fuel fuel' i : Nat) (w : WalkState),
      valid_records w.data c n i = some j → c - i ≤ fuel → j - i ≤ fuel' →
      (c ≤ j ∨ record_size (rd8 w.data j) = none) →
      (fifo_walk k c fuel i w).data = (fifo_walk k j fuel' i w).data ∧
      (fifo_walk k c fuel i w).nb_gyro = (fifo_walk k j fuel' i w).nb_gyro ∧
      (fifo_walk k c fuel i w).nb_accel = (fifo_walk k j fuel' i w).nb_accel ∧
      (fifo_walk k c fuel i w).nb_total = (fifo_walk k j fuel' i w).nb_total ∧
      (fifo_walk k j fuel' i w).nb_total = w.nb_total + n ∧
      (fifo_walk k c fuel i w).calls =
        (fifo_walk k j fuel' i w).calls ++ (if j < c then [j] else []) ∧
      (∀ x ∈ (fifo_walk k j fuel' i w).calls, x ∈ w.calls ∨ x < j) := by
  intro n
  induction n with
  | zero =>
    intro fuel fuel' i w hv hf _ hstop
    have hij : i = j := Option.some.inj hv
    subst hij
    rw [fifo_walk_exit k i fuel' i w (Nat.lt_irrefl i)]
    by_cases hic : i < c
    · obtain ⟨f, rfl⟩ : ∃ f, fuel = f + 1 := ⟨fuel - 1, by omega⟩
      have hr : record_size (rd8 w.data i) = none := by
        rcases hstop with h | h
        · omega
        · exact h
      rw [fifo_walk_stop k c f i w hic hr, if_pos hic]
      exact ⟨rfl, rfl, rfl, rfl, rfl, rfl, fun x hx => Or.inl hx⟩
    · rw [fifo_walk_exit k c fuel i w hic, if_neg hic, List.append_nil]
      exact ⟨rfl, rfl, rfl, rfl, rfl, rfl, fun x hx => Or.inl hx⟩
  | succ n ih =>
    intro fuel fuel' i w hv hf hf' hstop
    obtain ⟨hic, s, hrs, hs, hv'⟩ := valid_records_succ w.data c n i j hv
    have hle := valid_records_le w.data c n (i + s) j hv'
    have hij : i < j := by omega
    obtain ⟨f, rfl⟩ : ∃ f, fuel = f + 1 := ⟨fuel - 1, by omega⟩
    obtain ⟨f', rfl⟩ : ∃ f', fuel' = f' + 1 := ⟨fuel' - 1, by omega⟩
    rw [fifo_walk_step k c f i s w hic hrs, fifo_walk_step k j f' i s w hij hrs]
    have hagree : ∀ t, i + s ≤ t → rd8 (walk_body k i w).data t = rd8 w.data t := by
      intro t ht
      rw [walk_body_data]
      exact rd8_after_decode k w.data w.out i s t hrs ht
    have hv2 : valid_records (walk_body k i w).data c n (i + s) = some j := by
      rw [valid_records_congr _ w.data c n (i + s) hagree]
      exact hv'
    have hstop2 : c ≤ j ∨ record_size (rd8 (walk_body k i w).data j) = none := by
      rw [hagree j (by omega)]
      exact hstop
    obtain ⟨e1, e2, e3, e4, e5, e6, e7⟩ :=
      ih f f' (i + s) (walk_body k i w) hv2 (by omega) (by omega) hstop2
    refine ⟨e1, e2, e3, e4, ?_, e6, ?_⟩
    · rw [e5, walk_body_total]; omega
    · intro x hx
      rcases e7 x hx with h | h
      · rw [walk_body_calls] at h
        rcases List.mem_append.1 h with h | h
        · exact Or.inl h
        · rw [List.mem_singleton] at h
          exact Or.inr (by omega)
      · exact Or.inr h

theorem record_size_empty (h : Nat) (h7 : h.testBit 7 = true) : record_size h = none := by
  unfold record_size
  rw [if_pos h7]

theorem record_size_malformed (h : Nat) (h7 : h.testBit 7 = false) (h6 : h.testBit 6 = false)
    (h5 : h.testBit 5 = false) : record_size h = none := by
  unfold record_size
  simp [h7, h6, h5]

/-- The reads have succeeded when the function enters the loop, and the counters are 0
on entry. -/
theorem fifo_read_fetch_counters (k : Consts) (st : inv_icm42670_state) (max : Nat)
    (hf : (fifo_read_fetch k st max).walk = true) :
    (fifo_read_fetch k st max).st.fifo_nb_gyro = 0 ∧
    (fifo_read_fetch k st max).st.fifo_nb_accel = 0 ∧
    (fifo_read_fetch k st max).st.fifo_nb_total = 0 := by
  by_cases h1 : st.map.next = 0
  · by_cases hz : reported_count k st = 0
    · rw [fifo_read_fetch_zero k st max h1 hz] at hf
      exact absurd hf (by simp)
    · by_cases h2 : (st.map.issue (RegOp.bulk_read k.FIFO_COUNTH 2)).next = 0
      · rw [fifo_read_fetch_ok k st max _ h1 hz h2 rfl]
        exact ⟨rfl, rfl, rfl⟩
      · rw [(fifo_read_fetch_fail2 k st max h1 hz h2).1] at hf
        exact absurd hf (by simp)
  · rw [fifo_read_fetch_fail1 k st max h1] at hf
    exact absurd hf (by simp)

/-- The drain when the function enters the loop: it returns 0 and stores the buffer and
the counters of the walk. -/
theorem fifo_read_of_walk (k : Consts) (st : inv_icm42670_state) (max : Nat)
    (out : DecodeOut) (hf : (fifo_read_fetch k st max).walk = true) :
    (inv_icm42670_buffer_fifo_read k st max out).1 = 0 ∧
    (inv_icm42670_buffer_fifo_read k st max out).2.fifo_data =
      (fifo_read_walk k st max out).data ∧
    (inv_icm42670_buffer_fifo_read k st max out).2.fifo_nb_gyro =
      (fifo_read_walk k st max out).nb_gyro ∧
    (inv_icm42670_buffer_fifo_read k st max out).2.fifo_nb_accel =
      (fifo_read_walk k st max out).nb_accel ∧
    (inv_icm42670_buffer_fifo_read k st max out).2.fifo_nb_total =
      (fifo_read_walk k st max out).nb_total := by
  unfold inv_icm42670_buffer_fifo_read
  simp only [hf, if_true]
  exact ⟨trivial, trivial, trivial, trivial, trivial⟩

/-- The drain over a buffer that holds n structurally valid non-empty records ending at
offset j, where the walk stops. -/
theorem fifo_read_records (k : Consts) (st : inv_icm42670_state) (max : Nat)
    (out : DecodeOut) (n j : Nat)
    (hf : (fifo_read_fetch k st max).walk = true)
    (hv : valid_records (fifo_read_fetch k st max).st.fifo_data
      (fifo_read_fetch k st max).st.fifo_count n 0 = some j)
    (hstop : (fifo_read_fetch k st max).st.fifo_count ≤ j ∨
      record_size (rd8 (fifo_read_fetch k st max).st.fifo_data j) = none) :
    (inv_icm42670_buffer_fifo_read k st max out).1 = 0 ∧
    (inv_icm42670_buffer_fifo_read k st max out).2.fifo_nb_total = n ∧
    (inv_icm42670_buffer_fifo_read k st max out).2.fifo_nb_gyro =
      (fifo_walk k j j 0 (walk_init (fifo_read_fetch k st max).st out)).nb_gyro ∧
    (inv_icm42670_buffer_fifo_read k st max out).2.fifo_nb_accel =
      (fifo_walk k j j 0 (walk_init (fifo_read_fetch k st max).st out)).nb_accel ∧
    (inv_icm42670_buffer_fifo_read k st max out).2.fifo_data =
      (fifo_walk k j j 0 (walk_init (fifo_read_fetch k st max).st out)).data ∧
    (fifo_read_walk k st max out).calls =
      (fifo_walk k j j 0 (walk_init (fifo_read_fetch k st max).st out)).calls ++
        (if j < (fifo_read_fetch k st max).st.fifo_count then [j] else []) ∧
    (∀ x ∈ (fifo_read_walk k st max out).calls, x ≤ j) := by
  obtain ⟨r1, r2, r3, r4, r5⟩ := fifo_read_of_walk k st max out hf
  obtain ⟨_, _, c3⟩ := fifo_read_fetch_counters k st max hf
  obtain ⟨e1, e2, e3, e4, e5, e6, e7⟩ :=
    fifo_walk_records k (fifo_read_fetch k st max).st.fifo_count j n
      (fifo_read_fetch k st max).st.fifo_count j 0
      (walk_init (fifo_read_fetch k st max).st out) hv (by omega) (by omega) hstop
  have hw : fifo_read_walk k st max out =
      fifo_walk k (fifo_read_fetch k st max).st.fifo_count
        (fifo_read_fetch k st max).st.fifo_count 0
        (walk_init (fifo_read_fetch k st max).st out) := rfl
  have hn0 : (walk_init (fifo_read_fetch k st max).st out).nb_total = 0 := c3
  refine ⟨r1, ?_, ?_, ?_, ?_, ?_, ?_⟩
  · rw [r5, hw, e4, e5, hn0]; omega
  · rw [r3, hw, e2]
  · rw [r4, hw, e3]
  · rw [r2, hw, e1]
  · rw [hw, e6]
  · intro x hx
    rw [hw, e6] at hx
    rcases List.mem_append.1 hx with h | h
    · rcases e7 x h with h' | h'
      · exact absurd h' (List.not_mem_nil x)
      · omega
    · split_ifs at h
      · rw [List.mem_singleton] at h; omega
      · exact absurd h (List.not_mem_nil x)

/-- C19: for every drained buffer that starts with n structurally valid non-empty
records, each starting below the drained byte count, followed at offset j by a header
with the empty bit set, the drain returns 0 with total = n: the walk stops at that
header, which is not counted, and the decoder is called at no offset beyond j, whatever
the drained byte count is. The per-sensor counts and the buffer are those of a walk of
the first j bytes (the n records) alone. -/
theorem fifo_read_stops_at_empty (k : Consts) (st : inv_icm42670_state) (max : Nat)
    (out : DecodeOut) (n j : Nat)
    (hf : (fifo_read_fetch k st max).walk = true)
    (hv : valid_records (fifo_read_fetch k st max).st.fifo_data
      (fifo_read_fetch k st max).st.fifo_count n 0 = some j)
    (he : (rd8 (fifo_read_fetch k st max).st.fifo_data j).testBit 7 = true) :
    (inv_icm42670_buffer_fifo_read k st max out).1 = 0 ∧
    (inv_icm42670_buffer_fifo_read k st max out).2.fifo_nb_total = n ∧
    (inv_icm42670_buffer_fifo_read k st max out).2.fifo_nb_gyro =
      (fifo_walk k j j 0 (walk_init (fifo_read_fetch k st max).st out)).nb_gyro ∧
    (inv_icm42670_buffer_fifo_read k st max out).2.fifo_nb_accel =
      (fifo_walk k j j 0 (walk_init (fifo_read_fetch k st max).st out)).nb_accel ∧
    (inv_icm42670_buffer_fifo_read k st max out).2.fifo_data =
      (fifo_walk k j j 0 (walk_init (fifo_read_fetch k st max).st out)).data ∧
    (fifo_read_walk k st max out).calls =
      (fifo_walk k j j 0 (walk_init (fifo_read_fetch k st max).st out)).calls ++
        (if j < (fifo_read_fetch k st max).st.fifo_count then [j] else []) ∧
    (∀ x ∈ (fifo_read_walk k st max out).calls, x ≤ j) :=
  fifo_read_records k st max out n j hf hv (Or.inr (record_size_empty _ he))

/-- Witness of C19: three valid records, then an empty header at offset 32, then stale
bytes, with 48 bytes drained: total is 3 and the decoder is called at 0, 8, 24, 32. -/
theorem fifo_read_stops_at_empty_witness :
    (inv_icm42670_buffer_fifo_read sampleConsts (sampleDrainState 48 sampleFifo) 0
        out0).2.fifo_nb_total = 3 ∧
    (fifo_read_walk sampleConsts (sampleDrainState 48 sampleFifo) 0 out0).calls =
      [0, 8, 24, 32] :=
  ⟨(fifo_read_stops_at_empty sampleConsts (sampleDrainState 48 sampleFifo) 0 out0 3 32
      (by decide) (by decide) (by decide)).2.1,
   (fifo_read_stops_at_empty sampleConsts (sampleDrainState 48 sampleFifo) 0 out0 3 32
      (by decide) (by decide) (by decide)).2.2.2.2.2.1.trans (by decide)⟩

/-- C20: for every drained buffer in which a malformed header (bits 7, 6 and 5 all
clear) is met at offset j, below the drained byte count, after n structurally valid
non-empty records, the drain returns 0 and not an error, with total = n and the gyro and
accel counts of a walk of the first j bytes (the n records) alone; the decoder is called
at the n records, then at j, and at no offset beyond j. -/
theorem fifo_read_stops_at_malformed (k : Consts) (st : inv_icm42670_state) (max : Nat)
    (out : DecodeOut) (n j : Nat)
    (hf : (fifo_read_fetch k st max).walk = true)
    (hv : valid_records (fifo_read_fetch k st max).st.fifo_data
      (fifo_read_fetch k st max).st.fifo_count n 0 = some j)
    (hj : j < (fifo_read_fetch k st max).st.fifo_count)
    (h7 : (rd8 (fifo_read_fetch k st max).st.fifo_data j).testBit 7 = false)
    (h6 : (rd8 (fifo_read_fetch k st max).st.fifo_data j).testBit 6 = false)
    (h5 : (rd8 (fifo_read_fetch k st max).st.fifo_data j).testBit 5 = false) :
    (inv_icm42670_buffer_fifo_read k st max out).1 = 0 ∧
    (inv_icm42670_buffer_fifo_read k st max out).2.fifo_nb_total = n ∧
    (inv_icm42670_buffer_fifo_read k st max out).2.fifo_nb_gyro =
      (fifo_walk k j j 0 (walk_init (fifo_read_fetch k st max).st out)).nb_gyro ∧
    (inv_icm42670_buffer_fifo_read k st max out).2.fifo_nb_accel =
      (fifo_walk k j j 0 (walk_init (fifo_read_fetch k st max).st out)).nb_accel ∧
    (fifo_read_walk k st max out).calls =
      (fifo_walk k j j 0 (walk_init (fifo_read_fetch k st max).st out)).calls ++ [j] ∧
    (∀ x ∈ (fifo_read_walk k st max out).calls, x ≤ j) := by
  obtain ⟨e1, e2, e3, e4, _, e6, e7⟩ :=
    fifo_read_records k st max out n j hf hv (Or.inr (record_size_malformed _ h7 h6 h5))
  rw [if_pos hj] at e6
  exact ⟨e1, e2, e3, e4, e6, e7⟩

/-- Witness of C20: two valid records, a malformed header 0x1F at offset 16, then a
stale record, with 32 bytes drained: the drain returns 0, total is 2 and the decoder is
called at 0, 8, 16. -/
theorem fifo_read_stops_at_malformed_witness :
    (inv_icm42670_buffer_fifo_read sampleConsts (sampleDrainState 32 sampleFifoBad) 0
        out0).1 = 0 ∧
    (inv_icm42670_buffer_fifo_read sampleConsts (sampleDrainState 32 sampleFifoBad) 0
        out0).2.fifo_nb_total = 2 ∧
    (fifo_read_walk sampleConsts (sampleDrainState 32 sampleFifoBad) 0 out0).calls =
      [0, 8, 16] :=
  ⟨(fifo_read_stops_at_malformed sampleConsts (sampleDrainState 32 sampleFifoBad) 0 out0 2 16
      (by decide) (by decide) (by decide) (by decide) (by decide) (by decide)).1,
   (fifo_read_stops_at_malformed sampleConsts (sampleDrainState 32 sampleFifoBad) 0 out0 2 16
      (by decide) (by decide) (by decide) (by decide) (by decide) (by decide)).2.1,
   (fifo_read_stops_at_malformed sampleConsts (sampleDrainState 32 sampleFifoBad) 0 out0 2 16
      (by decide) (by decide) (by decide) (by decide) (by decide)
      (by decide)).2.2.2.2.1.trans (by decide)⟩

/-! ### Transport failures in the drain -/

/-- The state that lines 496-526 leave when the read of the FIFO data fails. -/
theorem fifo_read_fetch_fail2_st (k : Consts) (st : inv_icm42670_state) (max : Nat)
    (h1 : st.map.next = 0) (hnz : reported_count k st ≠ 0)
    (h2 : (st.map.issue (RegOp.bulk_read k.FIFO_COUNTH 2)).next ≠ 0) :
    (fifo_read_fetch k st max).st.fifo_nb_gyro = 0 ∧
    (fifo_read_fetch k st max).st.fifo_nb_accel = 0 ∧
    (fifo_read_fetch k st max).st.fifo_nb_total = 0 ∧
    (fifo_read_fetch k st max).st.fifo_data = st.fifo_data := by
  unfold reported_count at hnz
  unfold fifo_read_fetch
  simp only [regmap_bulk_read_ok _ _ h1, rd_be16_count, hnz, ne_eq, not_true_eq_false,
    if_false]
  by_cases hgt : 256 * (st.map.regs k.FIFO_COUNTH % 256) +
      st.map.regs (k.FIFO_COUNTH + 1) % 256 >
      (if max = 0 then k.sizeof_fifo_data
        else max * inv_icm42670_get_packet_size k
          { st with fifo_count := 0, fifo_nb_gyro := 0, fifo_nb_accel := 0,
                    fifo_nb_total := 0 } % SIZE_MOD)
  · rw [if_pos hgt]
    simp only [regmap_noinc_read_fail _ _ _ h2, ne_eq, h2, not_false_eq_true, if_true,
      and_self]
  · rw [if_neg hgt]
    simp only [regmap_noinc_read_fail _ _ _ h2, ne_eq, h2, not_false_eq_true, if_true,
      and_self]

/-- C21: if the read of the count register fails with error e, or that read succeeds
with a non-zero count and the read of the FIFO data fails with error e, then
inv_icm42670_buffer_fifo_read returns e; the loop that decodes is not entered and the
internal buffer is as before the call; and the gyro, accel and total counters are 0,
whatever they held before the call. -/
theorem fifo_read_error (k : Consts) (st : inv_icm42670_state) (max : Nat) (out : DecodeOut)
    (e : Int) (he : e ≠ 0)
    (hfail : st.map.next = e ∨
      (st.map.next = 0 ∧ reported_count k st ≠ 0 ∧
        (st.map.issue (RegOp.bulk_read k.FIFO_COUNTH 2)).next = e)) :
    (inv_icm42670_buffer_fifo_read k st max out).1 = e ∧
    (fifo_read_fetch k st max).walk = false ∧
    (inv_icm42670_buffer_fifo_read k st max out).2.fifo_data = st.fifo_data ∧
    (inv_icm42670_buffer_fifo_read k st max out).2.fifo_nb_gyro = 0 ∧
    (inv_icm42670_buffer_fifo_read k st max out).2.fifo_nb_accel = 0 ∧
    (inv_icm42670_buffer_fifo_read k st max out).2.fifo_nb_total = 0 := by
  rcases hfail with h | ⟨h1, hnz, h2⟩
  · have hne : st.map.next ≠ 0 := by rw [h]; exact he
    unfold inv_icm42670_buffer_fifo_read
    simp only [fifo_read_fetch_fail1 k st max hne]
    exact ⟨h, trivial, rfl, rfl, rfl, rfl⟩
  · have hne : (st.map.issue (RegOp.bulk_read k.FIFO_COUNTH 2)).next ≠ 0 := by
      rw [h2]; exact he
    obtain ⟨hw, hr⟩ := fifo_read_fetch_fail2 k st max h1 hnz hne
    obtain ⟨eg, ea, et, ed⟩ := fifo_read_fetch_fail2_st k st max h1 hnz hne
    unfold inv_icm42670_buffer_fifo_read
    simp only [hw, Bool.false_eq_true, if_false]
    exact ⟨hr.trans h2, trivial, ed, eg, ea, et⟩

/-- Witness of C21: the count register reads 48, the read of the FIFO data fails with
-5, and the counters held 7, 5 and 9 before the call. -/
theorem fifo_read_error_witness :
    (inv_icm42670_buffer_fifo_read sampleConsts (sampleDrainStale 48 sampleFifo [0, -5]) 0
        out0).1 = -5 ∧
    (fifo_read_fetch sampleConsts (sampleDrainStale 48 sampleFifo [0, -5]) 0).walk = false ∧
    (inv_icm42670_buffer_fifo_read sampleConsts (sampleDrainStale 48 sampleFifo [0, -5]) 0
        out0).2.fifo_data = (sampleDrainStale 48 sampleFifo [0, -5]).fifo_data ∧
    (inv_icm42670_buffer_fifo_read sampleConsts (sampleDrainStale 48 sampleFifo [0, -5]) 0
        out0).2.fifo_nb_gyro = 0 ∧
    (inv_icm42670_buffer_fifo_read sampleConsts (sampleDrainStale 48 sampleFifo [0, -5]) 0
        out0).2.fifo_nb_accel = 0 ∧
    (inv_icm42670_buffer_fifo_read sampleConsts (sampleDrainStale 48 sampleFifo [0, -5]) 0
        out0).2.fifo_nb_total = 0 :=
  fifo_read_error sampleConsts (sampleDrainStale 48 sampleFifo [0, -5]) 0 out0 (-5)
    (by decide) (Or.inr ⟨by decide, by decide, by decide⟩)

/-! ### Bounds of the walk -/

/-- C22: with an internal buffer of 32 bytes, max hint 0 and a count register reading 40,
the drain clamps the count to 32 and walks three gyro-only records and then calls the
decoder at offset 24, where 24 + 16 exceeds the capacity 32; the header there announces a
dual-sensor record, whose gyro triplet (pointer at 24 + 7, low bytes at 24 + 8, 24 + 10,
24 + 12) lies at and beyond the end of the 32-byte buffer. -/
theorem fifo_read_decodes_past_capacity :
    (fifo_read_fetch smallConsts smallDrainState 0).walk = true ∧
    (fifo_read_fetch smallConsts smallDrainState 0).st.fifo_count = 32 ∧
    (fifo_read_fetch smallConsts smallDrainState 0).st.fifo_data.length = 32 ∧
    (fifo_read_walk smallConsts smallDrainState 0 out0).calls = [0, 8, 16, 24] ∧
    ¬ (24 + 16 ≤ smallConsts.sizeof_fifo_data) ∧
    (inv_icm42670_fifo_decode_packet smallConsts
      ((fifo_read_fetch smallConsts smallDrainState 0).st.fifo_data.drop 24) out0).ret = 16 ∧
    (inv_icm42670_fifo_decode_packet smallConsts
      ((fifo_read_fetch smallConsts smallDrainState 0).st.fifo_data.drop 24) out0).out.gyro =
        some 7 ∧
    ¬ (24 + 12 < smallConsts.sizeof_fifo_data) := by
  decide

/-- The result of the walk does not depend on the fuel, once the fuel covers one
iteration for every 8 bytes between the index and the count. -/
theorem fifo_walk_fuel (k : Consts) (c : Nat) :
    ∀ (f1 f2 i : Nat) (w : WalkState), (c - i + 7) / 8 ≤ f1 → (c - i + 7) / 8 ≤ f2 →
      fifo_walk k c f1 i w = fifo_walk k c f2 i w := by
  intro f1
  induction f1 with
  | zero =>
    intro f2 i w h1 _
    have hi : ¬ i < c := by omega
    rw [fifo_walk_exit k c 0 i w hi, fifo_walk_exit k c f2 i w hi]
  | succ f ih =>
    intro f2 i w h1 h2
    by_cases hi : i < c
    · obtain ⟨g, rfl⟩ : ∃ g, f2 = g + 1 := ⟨f2 - 1, by omega⟩
      cases hrs : record_size (rd8 w.data i) with
      | none => rw [fifo_walk_stop k c f i w hi hrs, fifo_walk_stop k c g i w hi hrs]
      | some s =>
        have hs := record_size_pos _ _ hrs
        rw [fifo_walk_step k c f i s w hi hrs, fifo_walk_step k c g i s w hi hrs]
        exact ih g (i + s) (walk_body k i w) (by omega) (by omega)
    · rw [fifo_walk_exit k c (f + 1) i w hi, fifo_walk_exit k c f2 i w hi]

/-- The walk calls the decoder at most once for every 8 bytes between the index and the
count, whatever the fuel. -/
theorem fifo_walk_calls_le (k : Consts) (c : Nat) :
    ∀ (fuel i : Nat) (w : WalkState),
      (fifo_walk k c fuel i w).calls.length ≤ w.calls.length + (c - i + 7) / 8 := by
  intro fuel
  induction fuel with
  | zero =>
    intro i w
    rw [fifo_walk]
    omega
  | succ f ih =>
    intro i w
    by_cases hi : i < c
    · cases hrs : record_size (rd8 w.data i) with
      | none =>
        rw [fifo_walk_stop k c f i w hi hrs]
        simp only [List.length_append, List.length_singleton]
        omega
      | some s =>
        have hs := record_size_pos _ _ hrs
        rw [fifo_walk_step k c f i s w hi hrs]
        have h := ih (i + s) (walk_body k i w)
        rw [walk_body_calls] at h
        simp only [List.length_append, List.length_singleton] at h
        omega
    · rw [fifo_walk_exit k c (f + 1) i w hi]
      omega

/-- C23: for every buffer content and every drained byte count c, the decoder returns a
length that is at most 0 (the loop stops) or is 8 or 16 (the offset advances by at least
8); the walk from offset 0 gives the same result for every fuel of at least ceil(c / 8)
iterations, in particular for the fuel c that the embedding of the function gives it, so
the loop ends within ceil(c / 8) iterations; and it calls the decoder at most ceil(c / 8)
times. -/
theorem fifo_walk_terminates (k : Consts) (c fuel : Nat) (w : WalkState)
    (hfuel : (c + 7) / 8 ≤ fuel) :
    (∀ (p : List Nat) (out : DecodeOut),
      (inv_icm42670_fifo_decode_packet k p out).ret ≤ 0 ∨
      (inv_icm42670_fifo_decode_packet k p out).ret = 8 ∨
      (inv_icm42670_fifo_decode_packet k p out).ret = 16) ∧
    fifo_walk k c fuel 0 w = fifo_walk k c ((c + 7) / 8) 0 w ∧
    fifo_walk k c c 0 w = fifo_walk k c ((c + 7) / 8) 0 w ∧
    (fifo_walk k c fuel 0 w).calls.length ≤ w.calls.length + (c + 7) / 8 := by
  refine ⟨?_, ?_, ?_, ?_⟩
  · intro p out
    rw [decode_cases]
    split_ifs <;> simp
  · exact fifo_walk_fuel k c fuel ((c + 7) / 8) 0 w (by omega) (by omega)
  · exact fifo_walk_fuel k c c ((c + 7) / 8) 0 w (by omega) (by omega)
  · have h := fifo_walk_calls_le k c fuel 0 w
    simpa using h

/-- Witness of C23: the walk of 48 drained bytes of the sample FIFO with fuel 100. -/
theorem fifo_walk_terminates_witness :
    (∀ (p : List Nat) (out : DecodeOut),
      (inv_icm42670_fifo_decode_packet sampleConsts p out).ret ≤ 0 ∨
      (inv_icm42670_fifo_decode_packet sampleConsts p out).ret = 8 ∨
      (inv_icm42670_fifo_decode_packet sampleConsts p out).ret = 16) ∧
    fifo_walk sampleConsts 48 100 0 (walk_init (sampleDrainState 48 sampleFifo) out0) =
      fifo_walk sampleConsts 48 ((48 + 7) / 8) 0
        (walk_init (sampleDrainState 48 sampleFifo) out0) ∧
    fifo_walk sampleConsts 48 48 0 (walk_init (sampleDrainState 48 sampleFifo) out0) =
      fifo_walk sampleConsts 48 ((48 + 7) / 8) 0
        (walk_init (sampleDrainState 48 sampleFifo) out0) ∧
    (fifo_walk sampleConsts 48 100 0
        (walk_init (sampleDrainState 48 sampleFifo) out0)).calls.length ≤
      (walk_init (sampleDrainState 48 sampleFifo) out0).calls.length + (48 + 7) / 8 :=
  fifo_walk_terminates sampleConsts 48 100 (walk_init (sampleDrainState 48 sampleFifo) out0)
    (by decide)

/-! ## Properties of the buffer callbacks -/

theorem next_of_ok (map : Regmap) (hok : ∀ e ∈ map.errs, e = 0) : map.next = 0 := by
  unfold Regmap.next
  cases h : map.errs with
  | nil => rfl
  | cons a t =>
    rw [h] at hok
    exact hok a (List.mem_cons_self a t)

theorem tail_ok (l : List Int) (hok : ∀ e ∈ l, e = 0) : ∀ e ∈ l.tail, e = 0 :=
  fun e he => hok e (List.mem_of_mem_tail he)

theorem regmap_write_ok (map : Regmap) (reg val : Nat) (h : map.next = 0) :
    regmap_write map reg val =
      (0, { map.issue (RegOp.write reg val) with
            regs := Function.update map.regs reg val }) := by
  unfold regmap_write
  rw [if_neg (by rw [h]; exact fun h => h rfl)]

theorem regmap_write_fail (map : Regmap) (reg val : Nat) (h : map.next ≠ 0) :
    regmap_write map reg val = (map.next, map.issue (RegOp.write reg val)) := by
  unfold regmap_write
  rw [if_pos h]

/-- Every operation returns the scripted result. -/
theorem exec_ret (op : RegOp) (map : Regmap) : (op.exec map).1 = map.next := by
  cases op <;>
    simp only [RegOp.exec, regmap_update_bits, regmap_update_bits_check, regmap_write,
      regmap_bulk_read, regmap_bulk_write, regmap_noinc_read] <;>
    split_ifs with h <;> first | rfl | exact (not_not.mp h).symm

/-- Every operation is logged, whether it succeeds or not. -/
theorem exec_log (op : RegOp) (map : Regmap) : (op.exec map).2.log = map.log ++ [op] := by
  cases op <;>
    simp only [RegOp.exec, regmap_update_bits, regmap_update_bits_check, regmap_write,
      regmap_bulk_read, regmap_bulk_write, regmap_noinc_read] <;>
    split_ifs with h <;> rfl

/-- Every operation consumes one scripted result. -/
theorem exec_errs (op : RegOp) (map : Regmap) : (op.exec map).2.errs = map.errs.tail := by
  cases op <;>
    simp only [RegOp.exec, regmap_update_bits, regmap_update_bits_check, regmap_write,
      regmap_bulk_read, regmap_bulk_write, regmap_noinc_read] <;>
    split_ifs with h <;> rfl

/-- A sequence of operations on a transport on which every operation succeeds. -/
theorem regmap_seq_ok (ops : List RegOp) :
    ∀ (map : Regmap), (∀ e ∈ map.errs, e = 0) →
      (regmap_seq map ops).1 = 0 ∧ (regmap_seq map ops).2.log = map.log ++ ops ∧
      (∀ e ∈ (regmap_seq map ops).2.errs, e = 0) := by
  induction ops with
  | nil => intro map hok; exact ⟨rfl, (List.append_nil _).symm, hok⟩
  | cons op ops ih =>
    intro map hok
    have h0 : (op.exec map).1 = 0 := by rw [exec_ret]; exact next_of_ok map hok
    have hok2 : ∀ e ∈ (op.exec map).2.errs, e = 0 := by
      rw [exec_errs]; exact tail_ok _ hok
    obtain ⟨a, b, c⟩ := ih (op.exec map).2 hok2
    rw [regmap_seq, if_neg (by rw [h0]; exact fun h => h rfl)]
    refine ⟨a, ?_, c⟩
    rw [b, exec_log, List.append_assoc]
    rfl

/-- A sequence of operations that returns 0 has issued all of them. -/
theorem regmap_seq_ret_zero (ops : List RegOp) :
    ∀ (map : Regmap), (regmap_seq map ops).1 = 0 →
      (regmap_seq map ops).2.log = map.log ++ ops := by
  induction ops with
  | nil => intro map _; exact (List.append_nil _).symm
  | cons op ops ih =>
    intro map h
    by_cases h1 : (op.exec map).1 ≠ 0
    · rw [regmap_seq, if_pos h1] at h
      exact absurd h h1
    · rw [regmap_seq, if_neg h1] at h ⊢
      rw [ih _ h, exec_log, List.append_assoc]
      rfl

/-- A sequence of operations of which the one at index i is the first to fail. -/
theorem regmap_seq_fail (ops : List RegOp) :
    ∀ (i : Nat) (map : Regmap) (e : Int) (rest : List Int),
      map.errs = List.replicate i 0 ++ e :: rest → e ≠ 0 → i < ops.length →
      (regmap_seq map ops).1 = e ∧
      (regmap_seq map ops).2.log = map.log ++ ops.take (i + 1) ∧
      (regmap_seq map ops).2.errs = rest := by
  induction ops with
  | nil => intro i map e rest _ _ hi; exact absurd hi (Nat.not_lt_zero i)
  | cons op ops ih =>
    intro i map e rest herrs he hi
    cases i with
    | zero =>
      have hn : map.next = e := by
        unfold Regmap.next
        rw [herrs]
        rfl
      have h1 : (op.exec map).1 ≠ 0 := by rw [exec_ret, hn]; exact he
      rw [regmap_seq, if_pos h1]
      refine ⟨by rw [exec_ret, hn], by rw [exec_log]; rfl, ?_⟩
      rw [exec_errs, herrs]
      rfl
    | succ i =>
      have hn : map.next = 0 := by
        unfold Regmap.next
        rw [herrs]
        rfl
      have h1 : ¬ (op.exec map).1 ≠ 0 := by rw [exec_ret, hn]; exact fun h => h rfl
      have herrs2 : (op.exec map).2.errs = List.replicate i 0 ++ e :: rest := by
        rw [exec_errs, herrs]
        rfl
      obtain ⟨a, b, c⟩ := ih i (op.exec map).2 e rest herrs2 he
        (by simp only [List.length_cons] at hi; omega)
      rw [regmap_seq, if_neg h1]
      refine ⟨a, ?_, c⟩
      rw [b, exec_log, List.append_assoc]
      rfl

/-- A first enable is the run of its five operations; the counter becomes 1 when all
succeed and stays 0 otherwise. -/
theorem postenable_seq (k : Consts) (st : inv_icm42670_state) (h0 : st.fifo_on = 0) :
    (inv_icm42670_buffer_postenable k st).1 = (regmap_seq st.map (postenable_ops k)).1 ∧
    (inv_icm42670_buffer_postenable k st).2.map = (regmap_seq st.map (postenable_ops k)).2 ∧
    (inv_icm42670_buffer_postenable k st).2.fifo_on =
      if (regmap_seq st.map (postenable_ops k)).1 = 0 then 1 else 0 := by
  simp only [inv_icm42670_buffer_postenable, postenable_ops, regmap_seq, RegOp.exec, h0,
    ne_eq, not_true_eq_false, if_false]
  split_ifs <;> simp_all [U32_MOD]

/-- A last disable is the run of its three operations; the counter is decremented when
all succeed and is kept otherwise. -/
theorem predisable_seq (k : Consts) (st : inv_icm42670_state) (h1 : ¬ st.fifo_on > 1) :
    (inv_icm42670_buffer_predisable k st).1 = (regmap_seq st.map (predisable_ops k)).1 ∧
    (inv_icm42670_buffer_predisable k st).2.map = (regmap_seq st.map (predisable_ops k)).2 ∧
    (inv_icm42670_buffer_predisable k st).2.fifo_on =
      if (regmap_seq st.map (predisable_ops k)).1 = 0 then
        (U32_MAX + st.fifo_on) % U32_MOD
      else st.fifo_on := by
  simp only [inv_icm42670_buffer_predisable, predisable_ops, regmap_seq, RegOp.exec, h1,
    if_false]
  split_ifs <;> simp_all

/-- An enable that finds the FIFO already on only increments the counter. -/
theorem postenable_on (k : Consts) (st : inv_icm42670_state) (h : st.fifo_on ≠ 0) :
    inv_icm42670_buffer_postenable k st =
      (0, { st with fifo_on := (st.fifo_on + 1) % U32_MOD }) := by
  unfold inv_icm42670_buffer_postenable
  rw [if_pos h]

/-- A disable that finds several users of the FIFO only decrements the counter. -/
theorem predisable_several (k : Consts) (st : inv_icm42670_state) (h : st.fifo_on > 1) :
    inv_icm42670_buffer_predisable k st =
      (0, { st with fifo_on := (U32_MAX + st.fifo_on) % U32_MOD }) := by
  unfold inv_icm42670_buffer_predisable
  rw [if_pos h]

/-- The decrement of a non-zero unsigned int does not wrap. -/
theorem dec_u32 (n : Nat) (h1 : 1 ≤ n) (hlt : n < U32_MOD) :
    (U32_MAX + n) % U32_MOD = n - 1 := by
  have h : U32_MAX + n = (n - 1) + U32_MOD := by unfold U32_MAX; omega
  rw [h, Nat.add_mod_right, Nat.mod_eq_of_lt (by omega)]

/-- The decrement of the unsigned int 0 wraps to U32_MAX. -/
theorem dec_u32_zero : (U32_MAX + 0) % U32_MOD = U32_MAX := by
  rw [Nat.add_zero]
  exact Nat.mod_eq_of_lt (Nat.sub_lt (Nat.pow_pos (by decide)) (by decide))

/-- C24: an inv_icm42670_buffer_postenable that returns 0 increments the counter
fifo.on by exactly 1 (the counter being below the largest unsigned int). When the counter
was 0 it issues exactly five transport operations, in this order: the setting of the
FIFO-threshold interrupt enable, the write of the FIFO flush, the write of the streaming
mode, one read of 2 bytes of the count register, the setting of the FSYNC polarity bit.
When the counter was not 0 the transport is left as it was: no operation at all. -/
theorem postenable_success (k : Consts) (st : inv_icm42670_state)
    (hret : (inv_icm42670_buffer_postenable k st).1 = 0)
    (hlt : st.fifo_on + 1 < U32_MOD) :
    (inv_icm42670_buffer_postenable k st).2.fifo_on = st.fifo_on + 1 ∧
    (st.fifo_on = 0 →
      (inv_icm42670_buffer_postenable k st).2.map.log =
        st.map.log ++
          [RegOp.update_bits k.INT_SOURCE0 k.INT_SOURCE0_FIFO_THS_INT1_EN_MASK
             k.INT_SOURCE0_FIFO_THS_INT1_EN,
           RegOp.write k.SIGNAL_PATH_RESET k.SIGNAL_PATH_RESET_FIFO_FLUSH_EN,
           RegOp.write k.FIFO_CONFIG1
             (k.FIFO_CONFIG1_FIFO_BYPASS_OFF ||| k.FIFO_CONFIG1_FIFO_MODE_STREAM),
           RegOp.bulk_read k.FIFO_COUNTH 2,
           RegOp.update_bits k.FSYNC_CONFIG_MREG1 k.FSYNC_CONFIG_FSYNC_POLARITY_MASK
             k.FSYNC_CONFIG_FSYNC_POLARITY_MASK]) ∧
    (st.fifo_on ≠ 0 → (inv_icm42670_buffer_postenable k st).2.map = st.map) := by
  refine ⟨?_, ?_, ?_⟩
  · by_cases h0 : st.fifo_on = 0
    · obtain ⟨e1, _, e3⟩ := postenable_seq k st h0
      rw [e3, if_pos (e1.symm.trans hret), h0]
    · rw [postenable_on k st h0]
      exact Nat.mod_eq_of_lt hlt
  · intro h0
    obtain ⟨e1, e2, _⟩ := postenable_seq k st h0
    rw [e2, regmap_seq_ret_zero _ _ (e1.symm.trans hret)]
    rfl
  · intro h0
    rw [postenable_on k st h0]

/-- Witness of C24: a first enable on the sample state, and a second enable on a state
whose counter is 1. -/
theorem postenable_success_witness :
    ((inv_icm42670_buffer_postenable sampleConsts sampleState).2.fifo_on = 0 + 1 ∧
      (inv_icm42670_buffer_postenable sampleConsts sampleState).2.map.log =
        [RegOp.update_bits 0x2B 4 4, RegOp.write 0x02 4, RegOp.write 0x28 0,
         RegOp.bulk_read 0x3D 2, RegOp.update_bits 0x1062 1 1]) ∧
    ((inv_icm42670_buffer_postenable sampleConsts { sampleState with fifo_on := 1 }).2.fifo_on
        = 1 + 1 ∧
      (inv_icm42670_buffer_postenable sampleConsts { sampleState with fifo_on := 1 }).2.map =
        sampleState.map) :=
  ⟨⟨(postenable_success sampleConsts sampleState (by decide) (by decide)).1,
    (postenable_success sampleConsts sampleState (by decide) (by decide)).2.1 rfl⟩,
   ⟨(postenable_success sampleConsts { sampleState with fifo_on := 1 } (by decide)
      (by decide)).1,
    (postenable_success sampleConsts { sampleState with fifo_on := 1 } (by decide)
      (by decide)).2.2 (by decide)⟩⟩

/-- C25: if the operation at index i of the hardware sequence is the first to fail, with
error e (the operations before it succeed), then inv_icm42670_buffer_postenable called
with the counter 0 (i below 5) and inv_icm42670_buffer_predisable called with the
counter at most 1 (i below 3) return e, have issued the operations up to the failing one
and none after it, and leave the counter fifo.on as it was. -/
theorem lifecycle_failure (k : Consts) (st : inv_icm42670_state) (e : Int) (he : e ≠ 0)
    (i : Nat) (rest : List Int)
    (herrs : st.map.errs = List.replicate i 0 ++ e :: rest) :
    (st.fifo_on = 0 → i < 5 →
      (inv_icm42670_buffer_postenable k st).1 = e ∧
      (inv_icm42670_buffer_postenable k st).2.map.log =
        st.map.log ++ (postenable_ops k).take (i + 1) ∧
      (inv_icm42670_buffer_postenable k st).2.fifo_on = st.fifo_on) ∧
    (st.fifo_on ≤ 1 → i < 3 →
      (inv_icm42670_buffer_predisable k st).1 = e ∧
      (inv_icm42670_buffer_predisable k st).2.map.log =
        st.map.log ++ (predisable_ops k).take (i + 1) ∧
      (inv_icm42670_buffer_predisable k st).2.fifo_on = st.fifo_on) := by
  constructor
  · intro h0 hi
    obtain ⟨e1, e2, e3⟩ := postenable_seq k st h0
    obtain ⟨a, b, _⟩ := regmap_seq_fail (postenable_ops k) i st.map e rest herrs he hi
    refine ⟨e1.trans a, by rw [e2, b], ?_⟩
    rw [e3, a, if_neg he, h0]
  · intro h1 hi
    obtain ⟨e1, e2, e3⟩ := predisable_seq k st (by omega)
    obtain ⟨a, b, _⟩ := regmap_seq_fail (predisable_ops k) i st.map e rest herrs he hi
    refine ⟨e1.trans a, by rw [e2, b], ?_⟩
    rw [e3, a, if_neg he]

/-- Witness of C25: the write of the streaming mode (index 2) fails with -5 in a first
enable, and the write of the flush (index 1) fails with -5 in a last disable. -/
theorem lifecycle_failure_witness :
    ((inv_icm42670_buffer_postenable sampleConsts
        { sampleState with map := { sampleMap with errs := [0, 0, -5] } }).1 = -5 ∧
      (inv_icm42670_buffer_postenable sampleConsts
        { sampleState with map := { sampleMap with errs := [0, 0, -5] } }).2.map.log =
        [RegOp.update_bits 0x2B 4 4, RegOp.write 0x02 4, RegOp.write 0x28 0] ∧
      (inv_icm42670_buffer_postenable sampleConsts
        { sampleState with map := { sampleMap with errs := [0, 0, -5] } }).2.fifo_on = 0) ∧
    ((inv_icm42670_buffer_predisable sampleConsts
        { sampleState with map := { sampleMap with errs := [0, -5] }, fifo_on := 1 }).1 = -5 ∧
      (inv_icm42670_buffer_predisable sampleConsts
        { sampleState with map := { sampleMap with errs := [0, -5] },
                           fifo_on := 1 }).2.map.log =
        [RegOp.write 0x28 1, RegOp.write 0x02 4] ∧
      (inv_icm42670_buffer_predisable sampleConsts
        { sampleState with map := { sampleMap with errs := [0, -5] },
                           fifo_on := 1 }).2.fifo_on = 1) :=
  ⟨(lifecycle_failure sampleConsts
      { sampleState with map := { sampleMap with errs := [0, 0, -5] } } (-5) (by decide) 2 []
      rfl).1 rfl (by decide),
   (lifecycle_failure sampleConsts
      { sampleState with map := { sampleMap with errs := [0, -5] }, fifo_on := 1 } (-5)
      (by decide) 1 [] rfl).2 (by decide) (by decide)⟩

/-- C26: for an inv_icm42670_buffer_predisable that returns 0 (the counter being an
unsigned int): when the counter fifo.on is above 1 the counter is decremented and the
transport is left as it was, no operation at all; when the counter is exactly 1 the call
issues, in this order, the write of the bypass mode, the write of the FIFO flush and the
clearing of the FIFO-threshold interrupt enable, and the counter is 0 afterwards. -/
theorem predisable_success (k : Consts) (st : inv_icm42670_state)
    (hret : (inv_icm42670_buffer_predisable k st).1 = 0) (hlt : st.fifo_on < U32_MOD) :
    (1 < st.fifo_on →
      (inv_icm42670_buffer_predisable k st).2.fifo_on = st.fifo_on - 1 ∧
      (inv_icm42670_buffer_predisable k st).2.map = st.map) ∧
    (st.fifo_on = 1 →
      (inv_icm42670_buffer_predisable k st).2.map.log =
        st.map.log ++
          [RegOp.write k.FIFO_CONFIG1 k.FIFO_CONFIG1_FIFO_BYPASS_ON,
           RegOp.write k.SIGNAL_PATH_RESET k.SIGNAL_PATH_RESET_FIFO_FLUSH_EN,
           RegOp.update_bits k.INT_SOURCE0 k.INT_SOURCE0_FIFO_THS_INT1_EN_MASK 0] ∧
      (inv_icm42670_buffer_predisable k st).2.fifo_on = 0) := by
  constructor
  · intro h1
    rw [predisable_several k st h1]
    refine ⟨?_, rfl⟩
    dsimp only
    exact dec_u32 st.fifo_on (by omega) hlt
  · intro h1
    obtain ⟨e1, e2, e3⟩ := predisable_seq k st (by omega)
    have hz := e1.symm.trans hret
    refine ⟨?_, ?_⟩
    · rw [e2, regmap_seq_ret_zero _ _ hz]
      rfl
    · rw [e3, if_pos hz, h1]
      exact dec_u32 1 (Nat.le_refl 1) (by rw [← h1]; exact hlt)

/-- Witness of C26: a disable with the counter at 2, and a disable with the counter at
1. -/
theorem predisable_success_witness :
    ((inv_icm42670_buffer_predisable sampleConsts { sampleState with fifo_on := 2 }).2.fifo_on
        = 2 - 1 ∧
      (inv_icm42670_buffer_predisable sampleConsts { sampleState with fifo_on := 2 }).2.map =
        sampleState.map) ∧
    ((inv_icm42670_buffer_predisable sampleConsts
        { sampleState with fifo_on := 1 }).2.map.log =
        [RegOp.write 0x28 1, RegOp.write 0x02 4, RegOp.update_bits 0x2B 4 0] ∧
      (inv_icm42670_buffer_predisable sampleConsts
        { sampleState with fifo_on := 1 }).2.fifo_on = 0) :=
  ⟨(predisable_success sampleConsts { sampleState with fifo_on := 2 } (by decide)
      (by decide)).1 (by decide),
   (predisable_success sampleConsts { sampleState with fifo_on := 1 } (by decide)
      (by decide)).2 rfl⟩

/-- After update_bits with value 0 the masked bits of the register are clear. -/
theorem and_not_and (a m : Nat) : (and_not a m ||| (0 &&& m)) &&& m = 0 := by
  apply Nat.eq_of_testBit_eq
  intro i
  simp only [and_not, Nat.testBit_and, Nat.testBit_or, Nat.testBit_xor, Nat.zero_and,
    Nat.zero_testBit]
  cases a.testBit i <;> cases m.testBit i <;> rfl

/-- The register that a successful update_bits leaves. -/
theorem regmap_update_bits_regs (map : Regmap) (reg mask val : Nat) (h : map.next = 0) :
    (regmap_update_bits map reg mask val).2.regs reg =
      and_not (map.regs reg) mask ||| (val &&& mask) := by
  unfold regmap_update_bits regmap_update_bits_check
  simp only [h, ne_eq, not_true_eq_false, if_false, Function.update_same]

/-- A sequence of operations on a transport on which every operation succeeds ends with
its last operation. -/
theorem regmap_seq_snoc_ok (op : RegOp) (ops : List RegOp) :
    ∀ (map : Regmap), (∀ e ∈ map.errs, e = 0) →
      (regmap_seq map (ops ++ [op])).2 = (op.exec (regmap_seq map ops).2).2 := by
  induction ops with
  | nil =>
    intro map hok
    have h0 : ¬ (op.exec map).1 ≠ 0 := by
      rw [exec_ret, next_of_ok map hok]; exact fun h => h rfl
    simp only [List.nil_append, regmap_seq, h0, if_false]
  | cons a ops ih =>
    intro map hok
    have h0 : ¬ (a.exec map).1 ≠ 0 := by
      rw [exec_ret, next_of_ok map hok]; exact fun h => h rfl
    have hok2 : ∀ e ∈ (a.exec map).2.errs, e = 0 := by
      rw [exec_errs]; exact tail_ok _ hok
    simp only [List.cons_append, regmap_seq, h0, if_false]
    exact ih _ hok2

/-- A first enable on a transport on which every operation succeeds. -/
theorem postenable_first_ok (k : Consts) (st : inv_icm42670_state) (h0 : st.fifo_on = 0)
    (hok : ∀ e ∈ st.map.errs, e = 0) :
    (inv_icm42670_buffer_postenable k st).1 = 0 ∧
    (inv_icm42670_buffer_postenable k st).2.fifo_on = 1 ∧
    (inv_icm42670_buffer_postenable k st).2.map.log = st.map.log ++ postenable_ops k ∧
    (∀ e ∈ (inv_icm42670_buffer_postenable k st).2.map.errs, e = 0) := by
  obtain ⟨e1, e2, e3⟩ := postenable_seq k st h0
  obtain ⟨a, b, c⟩ := regmap_seq_ok (postenable_ops k) st.map hok
  refine ⟨e1.trans a, ?_, ?_, ?_⟩
  · rw [e3, if_pos a]
  · rw [e2, b]
  · rw [e2]; exact c

/-- A disable with the counter at most 1 on a transport on which every operation
succeeds. -/
theorem predisable_last_ok (k : Consts) (st : inv_icm42670_state) (h1 : st.fifo_on ≤ 1)
    (hok : ∀ e ∈ st.map.errs, e = 0) :
    (inv_icm42670_buffer_predisable k st).1 = 0 ∧
    (inv_icm42670_buffer_predisable k st).2.fifo_on = (U32_MAX + st.fifo_on) % U32_MOD ∧
    (inv_icm42670_buffer_predisable k st).2.map.log = st.map.log ++ predisable_ops k ∧
    (inv_icm42670_buffer_predisable k st).2.map.regs k.INT_SOURCE0 &&&
      k.INT_SOURCE0_FIFO_THS_INT1_EN_MASK = 0 ∧
    (∀ e ∈ (inv_icm42670_buffer_predisable k st).2.map.errs, e = 0) := by
  obtain ⟨e1, e2, e3⟩ := predisable_seq k st (by omega)
  obtain ⟨a, b, c⟩ := regmap_seq_ok (predisable_ops k) st.map hok
  refine ⟨e1.trans a, ?_, ?_, ?_, ?_⟩
  · rw [e3, if_pos a]
  · rw [e2, b]
  · have hsplit : predisable_ops k =
        [RegOp.write k.FIFO_CONFIG1 k.FIFO_CONFIG1_FIFO_BYPASS_ON,
         RegOp.write k.SIGNAL_PATH_RESET k.SIGNAL_PATH_RESET_FIFO_FLUSH_EN] ++
        [RegOp.update_bits k.INT_SOURCE0 k.INT_SOURCE0_FIFO_THS_INT1_EN_MASK 0] := rfl
    obtain ⟨_, _, c2⟩ := regmap_seq_ok
      [RegOp.write k.FIFO_CONFIG1 k.FIFO_CONFIG1_FIFO_BYPASS_ON,
       RegOp.write k.SIGNAL_PATH_RESET k.SIGNAL_PATH_RESET_FIFO_FLUSH_EN] st.map hok
    rw [e2, hsplit, regmap_seq_snoc_ok _ _ _ hok]
    simp only [RegOp.exec]
    rw [regmap_update_bits_regs _ _ _ _ (next_of_ok _ c2)]
    exact and_not_and _ _
  · rw [e2]; exact c

/-- Further enables only count. -/
theorem enable_times_on (k : Consts) :
    ∀ (n : Nat) (st : inv_icm42670_state), st.fifo_on ≠ 0 → st.fifo_on + n < U32_MOD →
      (enable_times k n st).fifo_on = st.fifo_on + n ∧ (enable_times k n st).map = st.map := by
  intro n
  induction n with
  | zero => intro st _ _; exact ⟨rfl, rfl⟩
  | succ n ih =>
    intro st h0 hlt
    have hm : (st.fifo_on + 1) % U32_MOD = st.fifo_on + 1 := Nat.mod_eq_of_lt (by omega)
    have hstep : enable_times k (n + 1) st =
        enable_times k n { st with fifo_on := (st.fifo_on + 1) % U32_MOD } := by
      rw [enable_times, postenable_on k st h0]
    obtain ⟨a, b⟩ := ih { st with fifo_on := (st.fifo_on + 1) % U32_MOD }
      (by show (st.fifo_on + 1) % U32_MOD ≠ 0; rw [hm]; omega)
      (by show (st.fifo_on + 1) % U32_MOD + n < U32_MOD; rw [hm]; omega)
    rw [hstep]
    refine ⟨?_, b⟩
    rw [a]
    show (st.fifo_on + 1) % U32_MOD + n = st.fifo_on + (n + 1)
    rw [hm]; omega

/-- Disables that leave a user only count. -/
theorem disable_times_several (k : Consts) :
    ∀ (n : Nat) (st : inv_icm42670_state), n < st.fifo_on → st.fifo_on < U32_MOD →
      (disable_times k n st).fifo_on = st.fifo_on - n ∧
      (disable_times k n st).map = st.map := by
  intro n
  induction n with
  | zero => intro st _ _; exact ⟨rfl, rfl⟩
  | succ n ih =>
    intro st hn hlt
    have hm : (U32_MAX + st.fifo_on) % U32_MOD = st.fifo_on - 1 :=
      dec_u32 st.fifo_on (by omega) hlt
    have hstep : disable_times k (n + 1) st =
        disable_times k n { st with fifo_on := (U32_MAX + st.fifo_on) % U32_MOD } := by
      rw [disable_times, predisable_several k st (by omega)]
    obtain ⟨a, b⟩ := ih { st with fifo_on := (U32_MAX + st.fifo_on) % U32_MOD }
      (by show n < (U32_MAX + st.fifo_on) % U32_MOD; rw [hm]; omega)
      (by show (U32_MAX + st.fifo_on) % U32_MOD < U32_MOD; rw [hm]; omega)
    rw [hstep]
    refine ⟨?_, b⟩
    rw [a]
    show (U32_MAX + st.fifo_on) % U32_MOD - n = st.fifo_on - (n + 1)
    rw [hm]; omega

/-- The last of n + 1 disables. -/
theorem disable_times_snoc (k : Consts) :
    ∀ (n : Nat) (st : inv_icm42670_state),
      disable_times k (n + 1) st =
        (inv_icm42670_buffer_predisable k (disable_times k n st)).2 := by
  intro n
  induction n with
  | zero => intro st; rfl
  | succ n ih =>
    intro st
    rw [disable_times, ih]
    rfl

/-- C27: from the counter 0, on a transport on which every operation succeeds, n >= 1
calls of inv_icm42670_buffer_postenable bring the counter to n, the first of them having
issued the five setup operations and the others none; n calls of
inv_icm42670_buffer_predisable then bring it back to 0, the first n - 1 of them issuing
no operation and the last one the three operations of the bypass sequence. In the
operations of the whole run the write of the streaming mode occurs exactly once and the
write of the bypass mode exactly once (the mode register not being the reset register and
the two mode values being different), and the FIFO-threshold interrupt enable bits of
INT_SOURCE0 are clear at the end. -/
theorem enable_disable_roundtrip (k : Consts) (st : inv_icm42670_state) (n : Nat)
    (h0 : st.fifo_on = 0) (hok : ∀ e ∈ st.map.errs, e = 0) (hn : 1 ≤ n) (hlt : n < U32_MOD)
    (hreg : k.FIFO_CONFIG1 ≠ k.SIGNAL_PATH_RESET)
    (hval : k.FIFO_CONFIG1_FIFO_BYPASS_ON ≠
      k.FIFO_CONFIG1_FIFO_BYPASS_OFF ||| k.FIFO_CONFIG1_FIFO_MODE_STREAM) :
    (enable_times k n st).fifo_on = n ∧
    (enable_times k 1 st).map.log = st.map.log ++ postenable_ops k ∧
    (enable_times k n st).map.log = st.map.log ++ postenable_ops k ∧
    (disable_times k (n - 1) (enable_times k n st)).map.log =
      st.map.log ++ postenable_ops k ∧
    (disable_times k n (enable_times k n st)).fifo_on = 0 ∧
    (disable_times k n (enable_times k n st)).map.log =
      st.map.log ++ (postenable_ops k ++ predisable_ops k) ∧
    (postenable_ops k ++ predisable_ops k).count
      (RegOp.write k.FIFO_CONFIG1
        (k.FIFO_CONFIG1_FIFO_BYPASS_OFF ||| k.FIFO_CONFIG1_FIFO_MODE_STREAM)) = 1 ∧
    (postenable_ops k ++ predisable_ops k).count
      (RegOp.write k.FIFO_CONFIG1 k.FIFO_CONFIG1_FIFO_BYPASS_ON) = 1 ∧
    (disable_times k n (enable_times k n st)).map.regs k.INT_SOURCE0 &&&
      k.INT_SOURCE0_FIFO_THS_INT1_EN_MASK = 0 := by
  obtain ⟨m, rfl⟩ : ∃ m, n = m + 1 := ⟨n - 1, by omega⟩
  obtain ⟨_, p2, p3, p4⟩ := postenable_first_ok k st h0 hok
  have hE : enable_times k (m + 1) st =
      enable_times k m (inv_icm42670_buffer_postenable k st).2 := rfl
  have h1 : enable_times k 1 st = (inv_icm42670_buffer_postenable k st).2 := rfl
  obtain ⟨q1, q2⟩ := enable_times_on k m (inv_icm42670_buffer_postenable k st).2
    (by rw [p2]; decide) (by rw [p2]; omega)
  rw [← hE, p2] at q1
  rw [← hE] at q2
  have hEon : (enable_times k (m + 1) st).fifo_on = m + 1 := by rw [q1]; omega
  have hElog : (enable_times k (m + 1) st).map.log = st.map.log ++ postenable_ops k := by
    rw [q2, p3]
  obtain ⟨d1, d2⟩ := disable_times_several k m (enable_times k (m + 1) st)
    (by rw [hEon]; omega) (by rw [hEon]; exact hlt)
  have hDon : (disable_times k m (enable_times k (m + 1) st)).fifo_on = 1 := by
    rw [d1, hEon]; omega
  have hDok : ∀ e ∈ (disable_times k m (enable_times k (m + 1) st)).map.errs, e = 0 := by
    rw [d2, q2]; exact p4
  obtain ⟨_, r2, r3, r4, _⟩ := predisable_last_ok k
    (disable_times k m (enable_times k (m + 1) st)) (by omega) hDok
  rw [hDon] at r2
  refine ⟨hEon, by rw [h1, p3], hElog, ?_, ?_, ?_, ?_, ?_, ?_⟩
  · rw [Nat.add_sub_cancel, d2, hElog]
  · rw [disable_times_snoc, r2]
    exact dec_u32 1 (Nat.le_refl 1) (by omega)
  · rw [disable_times_snoc, r3, d2, hElog, List.append_assoc]
  · simp [postenable_ops, predisable_ops, List.count_cons, hreg, hval, Ne.symm hval]
  · simp [postenable_ops, predisable_ops, List.count_cons, hreg, hval, Ne.symm hval]
  · rw [disable_times_snoc]
    exact r4

/-- Witness of C27: enable, enable, disable, disable on the sample state. -/
theorem enable_disable_roundtrip_witness :
    (enable_times sampleConsts 2 sampleState).fifo_on = 2 ∧
    (disable_times sampleConsts 2 (enable_times sampleConsts 2 sampleState)).fifo_on = 0 ∧
    (disable_times sampleConsts 2 (enable_times sampleConsts 2 sampleState)).map.log =
      sampleState.map.log ++ (postenable_ops sampleConsts ++ predisable_ops sampleConsts) ∧
    (disable_times sampleConsts 2 (enable_times sampleConsts 2 sampleState)).map.regs
      sampleConsts.INT_SOURCE0 &&& sampleConsts.INT_SOURCE0_FIFO_THS_INT1_EN_MASK = 0 :=
  ⟨(enable_disable_roundtrip sampleConsts sampleState 2 rfl (by decide) (by decide)
      (by decide) (by decide) (by decide)).1,
   (enable_disable_roundtrip sampleConsts sampleState 2 rfl (by decide) (by decide)
      (by decide) (by decide) (by decide)).2.2.2.2.1,
   (enable_disable_roundtrip sampleConsts sampleState 2 rfl (by decide) (by decide)
      (by decide) (by decide) (by decide)).2.2.2.2.2.1,
   (enable_disable_roundtrip sampleConsts sampleState 2 rfl (by decide) (by decide)
      (by decide) (by decide) (by decide)).2.2.2.2.2.2.2.2⟩

/-- C28, as stated, fails: inv_icm42670_buffer_predisable called on the sample state,
whose counter fifo.on is 0, returns 0, issues the three operations of the bypass
sequence and leaves the counter at 4294967295; the inv_icm42670_buffer_postenable that
follows issues no operation (the log is as the disable left it) and brings the counter
to 0. -/
theorem predisable_at_zero_wraps :
    (inv_icm42670_buffer_predisable sampleConsts sampleState).1 = 0 ∧
    (inv_icm42670_buffer_predisable sampleConsts sampleState).2.fifo_on = 4294967295 ∧
    (inv_icm42670_buffer_predisable sampleConsts sampleState).2.map.log =
      [RegOp.write 0x28 1, RegOp.write 0x02 4, RegOp.update_bits 0x2B 4 0] ∧
    (inv_icm42670_buffer_postenable sampleConsts
      (inv_icm42670_buffer_predisable sampleConsts sampleState).2).1 = 0 ∧
    (inv_icm42670_buffer_postenable sampleConsts
      (inv_icm42670_buffer_predisable sampleConsts sampleState).2).2.map.log =
      [RegOp.write 0x28 1, RegOp.write 0x02 4, RegOp.update_bits 0x2B 4 0] ∧
    (inv_icm42670_buffer_postenable sampleConsts
      (inv_icm42670_buffer_predisable sampleConsts sampleState).2).2.fifo_on = 0 := by
  decide

/-- The increment of the largest unsigned int wraps to 0. -/
theorem inc_u32_max : (U32_MAX + 1) % U32_MOD = 0 := by
  have h : U32_MAX + 1 = U32_MOD := Nat.sub_add_cancel (Nat.pow_pos (by decide))
  rw [h, Nat.mod_self]

/-- C28, amended: inv_icm42670_buffer_predisable called with the counter fifo.on at 0,
every transport operation succeeding, is not rejected: it returns 0, issues the three
operations of the bypass sequence and decrements the unsigned counter, which wraps to
U32_MAX; the inv_icm42670_buffer_postenable that follows finds the counter non-zero,
returns 0 without any transport operation and brings the counter back to 0. -/
theorem predisable_at_zero (k : Consts) (st : inv_icm42670_state) (h0 : st.fifo_on = 0)
    (hok : ∀ e ∈ st.map.errs, e = 0) :
    (inv_icm42670_buffer_predisable k st).1 = 0 ∧
    (inv_icm42670_buffer_predisable k st).2.map.log = st.map.log ++ predisable_ops k ∧
    (inv_icm42670_buffer_predisable k st).2.fifo_on = U32_MAX ∧
    (inv_icm42670_buffer_postenable k (inv_icm42670_buffer_predisable k st).2).1 = 0 ∧
    (inv_icm42670_buffer_postenable k (inv_icm42670_buffer_predisable k st).2).2.map =
      (inv_icm42670_buffer_predisable k st).2.map ∧
    (inv_icm42670_buffer_postenable k (inv_icm42670_buffer_predisable k st).2).2.fifo_on =
      0 := by
  obtain ⟨r1, r2, r3, _, _⟩ := predisable_last_ok k st (by omega) hok
  rw [h0, dec_u32_zero] at r2
  have hne : (inv_icm42670_buffer_predisable k st).2.fifo_on ≠ 0 := by
    rw [r2]; decide
  have hp := postenable_on k (inv_icm42670_buffer_predisable k st).2 hne
  refine ⟨r1, r3, r2, ?_, ?_, ?_⟩
  · rw [hp]
  · rw [hp]
  · rw [hp]
    show ((inv_icm42670_buffer_predisable k st).2.fifo_on + 1) % U32_MOD = 0
    rw [r2]
    exact inc_u32_max

/-- Witness of the amended C28 on the sample state. -/
theorem predisable_at_zero_witness :
    (inv_icm42670_buffer_predisable sampleConsts sampleState).2.fifo_on = U32_MAX ∧
    (inv_icm42670_buffer_postenable sampleConsts
      (inv_icm42670_buffer_predisable sampleConsts sampleState).2).2.map =
      (inv_icm42670_buffer_predisable sampleConsts sampleState).2.map :=
  ⟨(predisable_at_zero sampleConsts sampleState rfl (by decide)).2.2.1,
   (predisable_at_zero sampleConsts sampleState rfl (by decide)).2.2.2.2.1⟩

/-! ### The postdisable callback -/

/-- C29: inv_icm42670_buffer_postdisable called for an IIO device that is neither the
gyro device nor the accel device returns -EINVAL (-22) and leaves the whole state as it
was: no transport operation, and the FIFO enable mask, both watermarks and the counter
fifo.on unchanged. -/
theorem postdisable_invalid_consumer (k : Consts) (c : Collaborators)
    (st : inv_icm42670_state) (d : Nat) (hg : d ≠ st.indio_gyro) (ha : d ≠ st.indio_accel) :
    inv_icm42670_buffer_postdisable k c st d = (-EINVAL, st) ∧
    (inv_icm42670_buffer_postdisable k c st d).1 = -22 ∧
    (inv_icm42670_buffer_postdisable k c st d).2.map.log = st.map.log ∧
    (inv_icm42670_buffer_postdisable k c st d).2.fifo_en = st.fifo_en ∧
    (inv_icm42670_buffer_postdisable k c st d).2.fifo_watermark_gyro =
      st.fifo_watermark_gyro ∧
    (inv_icm42670_buffer_postdisable k c st d).2.fifo_watermark_accel =
      st.fifo_watermark_accel ∧
    (inv_icm42670_buffer_postdisable k c st d).2.fifo_on = st.fifo_on := by
  unfold inv_icm42670_buffer_postdisable
  rw [if_neg hg, if_neg ha]
  exact ⟨rfl, rfl, rfl, rfl, rfl, rfl, rfl⟩

/-- Witness of C29: the sample state, whose devices are 1 and 2, called for device 3. -/
theorem postdisable_invalid_consumer_witness :
    inv_icm42670_buffer_postdisable sampleConsts sampleCollab sampleState 3 =
      (-EINVAL, sampleState) :=
  (postdisable_invalid_consumer sampleConsts sampleCollab sampleState 3 (by decide)
    (by decide)).1

/-- A bit of `a & ~m` is the bit of a where m has a 0, and is clear where m has a 1. -/
theorem and_not_testBit (a m i : Nat) :
    (and_not a m).testBit i = (a.testBit i && !m.testBit i) := by
  simp only [and_not, Nat.testBit_and, Nat.testBit_xor]
  cases a.testBit i <;> cases m.testBit i <;> rfl

/-- A successful inv_icm42670_buffer_set_fifo_en: one update_bits on FIFO_CONFIG5, the
mask stored, the watermarks, the ODR settings and the counter kept. -/
theorem set_fifo_en_ok (k : Consts) (st : inv_icm42670_state) (en : Nat)
    (h : (inv_icm42670_buffer_set_fifo_en k st en).1 = 0) :
    (inv_icm42670_buffer_set_fifo_en k st en).2.fifo_en = en ∧
    (inv_icm42670_buffer_set_fifo_en k st en).2.fifo_watermark_gyro =
      st.fifo_watermark_gyro ∧
    (inv_icm42670_buffer_set_fifo_en k st en).2.fifo_watermark_accel =
      st.fifo_watermark_accel ∧
    (inv_icm42670_buffer_set_fifo_en k st en).2.conf_gyro_odr = st.conf_gyro_odr ∧
    (inv_icm42670_buffer_set_fifo_en k st en).2.conf_accel_odr = st.conf_accel_odr ∧
    (inv_icm42670_buffer_set_fifo_en k st en).2.fifo_on = st.fifo_on ∧
    (inv_icm42670_buffer_set_fifo_en k st en).2.map.log =
      st.map.log ++
        [RegOp.update_bits k.FIFO_CONFIG5_MREG1 (fifo_en_mask k) (fifo_en_val k en)] := by
  by_cases hr : (regmap_update_bits st.map k.FIFO_CONFIG5_MREG1 (fifo_en_mask k)
      (fifo_en_val k en)).1 ≠ 0
  · simp only [inv_icm42670_buffer_set_fifo_en] at h
    rw [if_pos hr] at h
    exact absurd h hr
  · simp only [inv_icm42670_buffer_set_fifo_en]
    rw [if_neg hr]
    exact ⟨rfl, rfl, rfl, rfl, rfl, rfl, regmap_update_bits_log _ _ _ _⟩

/-- The fields that inv_icm42670_buffer_update_watermark keeps. -/
theorem update_watermark_frame (k : Consts) (st : inv_icm42670_state) :
    (inv_icm42670_buffer_update_watermark k st).2.fifo_en = st.fifo_en ∧
    (inv_icm42670_buffer_update_watermark k st).2.fifo_watermark_gyro =
      st.fifo_watermark_gyro ∧
    (inv_icm42670_buffer_update_watermark k st).2.fifo_watermark_accel =
      st.fifo_watermark_accel ∧
    (inv_icm42670_buffer_update_watermark k st).2.fifo_on = st.fifo_on := by
  simp only [inv_icm42670_buffer_update_watermark]
  split_ifs <;> exact ⟨rfl, rfl, rfl, rfl⟩

/-- A successful inv_icm42670_buffer_update_watermark has cleared the interrupt enable
and then written the threshold. -/
theorem update_watermark_ok_log (k : Consts) (st : inv_icm42670_state)
    (h : (inv_icm42670_buffer_update_watermark k st).1 = 0) :
    ∃ l, (inv_icm42670_buffer_update_watermark k st).2.map.log =
      st.map.log ++
        [RegOp.update_bits k.INT_SOURCE0 k.INT_SOURCE0_FIFO_THS_INT1_EN_MASK 0,
         RegOp.bulk_write k.FIFO_WATERMARK
           (le16_bytes (k.FIFO_WATERMARK_VAL (wm_size k st)))] ++ l := by
  obtain ⟨h3, hne⟩ := update_watermark_log k st
  rcases h3 with h1 | h2 | h3
  · exact absurd h1 (hne h)
  · exact ⟨[], by rw [h2, List.append_nil]⟩
  · exact ⟨[RegOp.update_bits k.INT_SOURCE0 k.INT_SOURCE0_FIFO_THS_INT1_EN_MASK
        k.INT_SOURCE0_FIFO_THS_INT1_EN_MASK], by rw [h3]; simp⟩

/-- The byte threshold depends on the FIFO enable mask, the two desired watermarks and
the two ODR settings only. -/
theorem wm_size_congr (k : Consts) (a b : inv_icm42670_state)
    (h1 : a.fifo_en = b.fifo_en) (h2 : a.fifo_watermark_gyro = b.fifo_watermark_gyro)
    (h3 : a.fifo_watermark_accel = b.fifo_watermark_accel)
    (h4 : a.conf_gyro_odr = b.conf_gyro_odr) (h5 : a.conf_accel_odr = b.conf_accel_odr) :
    wm_size k a = wm_size k b := by
  simp only [wm_size, joint_watermark, latency_gyro, latency_accel, period_gyro,
    period_accel, wm_gyro, wm_accel, inv_icm42670_get_packet_size, h1, h2, h3, h4, h5]

theorem clear_watermark_fields (st : inv_icm42670_state) (g : Bool) :
    (clear_watermark st g).map = st.map ∧ (clear_watermark st g).fifo_en = st.fifo_en ∧
    (clear_watermark st g).fifo_watermark_gyro = (if g then 0 else st.fifo_watermark_gyro) ∧
    (clear_watermark st g).fifo_watermark_accel =
      (if g then st.fifo_watermark_accel else 0) ∧
    (clear_watermark st g).conf_gyro_odr = st.conf_gyro_odr ∧
    (clear_watermark st g).conf_accel_odr = st.conf_accel_odr ∧
    (clear_watermark st g).fifo_on = st.fifo_on := by
  cases g <;> exact ⟨rfl, rfl, rfl, rfl, rfl, rfl, rfl⟩

/-- The byte threshold when no product wraps. -/
theorem wm_size_eq (k : Consts) (st : inv_icm42670_state) (hj : joint_watermark k st < U32_MOD) :
    wm_size k st = joint_watermark k st * inv_icm42670_get_packet_size k st := by
  unfold wm_size
  apply Nat.mod_eq_of_lt
  unfold U32_MOD at hj
  unfold SIZE_MOD
  rcases get_packet_size_cases k st with h | h <;> rw [h] <;> omega

/-- Lines 436-475 when they return 0: the mask without the bits of sensor, the chosen
watermark 0, the other watermark and the counter kept, and on the transport the update
of FIFO_CONFIG5, the clearing of the interrupt enable and the write of the threshold
computed on the state that line 443 hands to inv_icm42670_buffer_update_watermark. -/
theorem postdisable_locked_ok (k : Consts) (c : Collaborators) (st : inv_icm42670_state)
    (sensor : Nat) (g : Bool) (happ : c.appends)
    (hret : (postdisable_locked k c st sensor g).1 = 0) :
    (postdisable_locked k c st sensor g).2.fifo_en = and_not st.fifo_en sensor ∧
    (postdisable_locked k c st sensor g).2.fifo_watermark_gyro =
      (if g then 0 else st.fifo_watermark_gyro) ∧
    (postdisable_locked k c st sensor g).2.fifo_watermark_accel =
      (if g then st.fifo_watermark_accel else 0) ∧
    (postdisable_locked k c st sensor g).2.fifo_on = st.fifo_on ∧
    ∃ l, (postdisable_locked k c st sensor g).2.map.log =
      st.map.log ++
        [RegOp.update_bits k.FIFO_CONFIG5_MREG1 (fifo_en_mask k)
           (fifo_en_val k (and_not st.fifo_en sensor)),
         RegOp.update_bits k.INT_SOURCE0 k.INT_SOURCE0_FIFO_THS_INT1_EN_MASK 0,
         RegOp.bulk_write k.FIFO_WATERMARK
           (le16_bytes (k.FIFO_WATERMARK_VAL (wm_size k
             (clear_watermark { st with fifo_en := and_not st.fifo_en sensor } g))))] ++ l := by
  by_cases h1 : (inv_icm42670_buffer_set_fifo_en k st (and_not st.fifo_en sensor)).1 ≠ 0
  · simp only [postdisable_locked] at hret
    rw [if_pos h1] at hret
    exact absurd hret h1
  · by_cases h2 : (inv_icm42670_buffer_update_watermark k (clear_watermark
        (inv_icm42670_buffer_set_fifo_en k st (and_not st.fifo_en sensor)).2 g)).1 ≠ 0
    · simp only [postdisable_locked] at hret
      rw [if_neg h1, if_pos h2] at hret
      exact absurd hret h2
    · obtain ⟨s1, s2, s3, s4, s5, s6, s7⟩ :=
        set_fifo_en_ok k st (and_not st.fifo_en sensor) (not_not.mp h1)
      obtain ⟨c1, c2, c3, c4, c5, c6, c7⟩ := clear_watermark_fields
        (inv_icm42670_buffer_set_fifo_en k st (and_not st.fifo_en sensor)).2 g
      obtain ⟨d1, d2, d3, d4, d5, d6, d7⟩ := clear_watermark_fields
        { st with fifo_en := and_not st.fifo_en sensor } g
      obtain ⟨u1, u2, u3, u4⟩ := update_watermark_frame k (clear_watermark
        (inv_icm42670_buffer_set_fifo_en k st (and_not st.fifo_en sensor)).2 g)
      obtain ⟨l, ul⟩ := update_watermark_ok_log k (clear_watermark
        (inv_icm42670_buffer_set_fifo_en k st (and_not st.fifo_en sensor)).2 g)
        (not_not.mp h2)
      have hw : wm_size k (clear_watermark
          (inv_icm42670_buffer_set_fifo_en k st (and_not st.fifo_en sensor)).2 g) =
          wm_size k (clear_watermark { st with fifo_en := and_not st.fifo_en sensor } g) :=
        wm_size_congr k _ _ (by rw [c2, d2, s1]) (by rw [c3, d3, s2]) (by rw [c4, d4, s3])
          (by rw [c5, d5, s4]) (by rw [c6, d6, s5])
      rw [hw, c1, s7, List.append_assoc, List.append_assoc] at ul
      rw [c2, s1] at u1
      rw [c3, s2] at u2
      rw [c4, s3] at u3
      rw [c7, s6] at u4
      simp only [postdisable_locked]
      rw [if_neg h1, if_neg h2]
      generalize inv_icm42670_buffer_update_watermark k (clear_watermark
        (inv_icm42670_buffer_set_fifo_en k st (and_not st.fifo_en sensor)).2 g) = R
        at u1 u2 u3 u4 ul ⊢
      have hf : ∃ l3, (if sensor = k.SENSOR_GYRO then c.set_gyro_conf_off R.2.map
          else c.set_accel_conf_off R.2.map).2.log = R.2.map.log ++ l3 := by
        obtain ⟨hg, ha, _⟩ := happ R.2.map
        split_ifs
        · exact hg
        · exact ha
      obtain ⟨l3, hf⟩ := hf
      generalize (if sensor = k.SENSOR_GYRO then c.set_gyro_conf_off R.2.map
          else c.set_accel_conf_off R.2.map) = r3 at hf ⊢
      by_cases h3 : r3.1 ≠ 0
      · rw [if_pos h3]
        refine ⟨u1, u2, u3, u4, l ++ l3, ?_⟩
        show r3.2.log = _
        rw [hf, ul]
        simp
      · rw [if_neg h3]
        by_cases h4 : R.2.fifo_on = 0
        · rw [if_pos h4]
          obtain ⟨lt, ht⟩ := (happ r3.2).2.2
          refine ⟨u1, u2, u3, u4, l ++ l3 ++ lt, ?_⟩
          show (c.set_temp_conf_off r3.2).2.log = _
          rw [ht, hf, ul]
          simp
        · rw [if_neg h4]
          refine ⟨u1, u2, u3, u4, l ++ l3, ?_⟩
          show r3.2.log = _
          rw [hf, ul]
          simp

/-- The sample power control only adds to the log. -/
theorem sampleCollab_appends : sampleCollab.appends :=
  fun m => ⟨⟨_, regmap_update_bits_log m 0x1F 0x0C 0⟩, ⟨_, regmap_update_bits_log m 0x1F 0x03 0⟩,
    ⟨_, regmap_update_bits_log m 0x22 0x70 0⟩⟩

/-- The byte threshold planned once the gyro has left the FIFO: the truncated accel count
times the packet size. -/
theorem wm_size_gyro_cleared (k : Consts) (st : inv_icm42670_state) (en : Nat) :
    wm_size k (clear_watermark { st with fifo_en := en } true) =
      inv_icm42670_wm_truncate k st.fifo_watermark_accel
          (inv_icm42670_get_packet_size k { st with fifo_en := en }) *
        inv_icm42670_get_packet_size k { st with fifo_en := en } := by
  have hcw : clear_watermark { st with fifo_en := en } true =
      { st with fifo_en := en, fifo_watermark_gyro := 0 } := rfl
  have hj := joint_watermark_gyro_off k { st with fifo_en := en, fifo_watermark_gyro := 0 } rfl
  rw [hcw, wm_size_eq k _ (by rw [hj]; exact wm_truncate_lt k _ _), hj]
  rfl

/-- The byte threshold planned once the accel has left the FIFO: the truncated gyro count
times the packet size, for a gyro period of a non-zero number of microseconds and a
32-bit latency product that does not wrap. -/
theorem wm_size_accel_cleared (k : Consts) (st : inv_icm42670_state) (en : Nat)
    (hper : 0 < period_gyro k st)
    (hnowrap : period_gyro k st *
      inv_icm42670_wm_truncate k st.fifo_watermark_gyro
        (inv_icm42670_get_packet_size k { st with fifo_en := en }) < U32_MOD) :
    wm_size k (clear_watermark { st with fifo_en := en } false) =
      inv_icm42670_wm_truncate k st.fifo_watermark_gyro
          (inv_icm42670_get_packet_size k { st with fifo_en := en }) *
        inv_icm42670_get_packet_size k { st with fifo_en := en } := by
  have hcw : clear_watermark { st with fifo_en := en } false =
      { st with fifo_en := en, fifo_watermark_accel := 0 } := rfl
  have hj := joint_watermark_accel_off k
    { st with fifo_en := en, fifo_watermark_accel := 0 } rfl
  have hwg : wm_gyro k { st with fifo_en := en, fifo_watermark_accel := 0 } =
      inv_icm42670_wm_truncate k st.fifo_watermark_gyro
        (inv_icm42670_get_packet_size k { st with fifo_en := en }) := rfl
  have hlg : latency_gyro k { st with fifo_en := en, fifo_watermark_accel := 0 } =
      period_gyro k st *
        inv_icm42670_wm_truncate k st.fifo_watermark_gyro
          (inv_icm42670_get_packet_size k { st with fifo_en := en }) % U32_MOD := rfl
  have hjw : joint_watermark k { st with fifo_en := en, fifo_watermark_accel := 0 } =
      inv_icm42670_wm_truncate k st.fifo_watermark_gyro
        (inv_icm42670_get_packet_size k { st with fifo_en := en }) := by
    rw [hj, hlg, Nat.mod_eq_of_lt hnowrap, hwg]
    split_ifs with h0
    · rcases Nat.mul_eq_zero.1 h0 with h | h
      · omega
      · exact h.symm
    · rfl
  rw [hcw, wm_size_eq k _ (by rw [hjw]; exact wm_truncate_lt k _ _), hjw]
  rfl

/-- C30: an inv_icm42670_buffer_postdisable that returns 0 (the power control functions
only adding to the log of the transport). Called for the gyro device: the FIFO enable
mask is the old one without the bits of INV_ICM42670_SENSOR_GYRO, every other bit
unchanged; the gyro desired watermark is 0 and the accel desired watermark unchanged; and
the transport has received the update of FIFO_CONFIG5, the clearing of the interrupt
enable and then the write to the watermark register of the truncated accel count times
the packet size of the new mask. Called for the accel device (when it is not also the
gyro device): the same with the two sensors exchanged, the gyro period being a non-zero
number of microseconds and the 32-bit latency product not wrapping. -/
theorem postdisable_frame (k : Consts) (c : Collaborators) (st : inv_icm42670_state)
    (d : Nat) (happ : c.appends)
    (hret : (inv_icm42670_buffer_postdisable k c st d).1 = 0) :
    (d = st.indio_gyro →
      (inv_icm42670_buffer_postdisable k c st d).2.fifo_en =
        and_not st.fifo_en k.SENSOR_GYRO ∧
      (∀ i, (inv_icm42670_buffer_postdisable k c st d).2.fifo_en.testBit i =
        (st.fifo_en.testBit i && !k.SENSOR_GYRO.testBit i)) ∧
      (inv_icm42670_buffer_postdisable k c st d).2.fifo_watermark_gyro = 0 ∧
      (inv_icm42670_buffer_postdisable k c st d).2.fifo_watermark_accel =
        st.fifo_watermark_accel ∧
      ∃ l, (inv_icm42670_buffer_postdisable k c st d).2.map.log =
        st.map.log ++
          [RegOp.update_bits k.FIFO_CONFIG5_MREG1 (fifo_en_mask k)
             (fifo_en_val k (and_not st.fifo_en k.SENSOR_GYRO)),
           RegOp.update_bits k.INT_SOURCE0 k.INT_SOURCE0_FIFO_THS_INT1_EN_MASK 0,
           RegOp.bulk_write k.FIFO_WATERMARK
             (le16_bytes (k.FIFO_WATERMARK_VAL
               (inv_icm42670_wm_truncate k st.fifo_watermark_accel
                  (inv_icm42670_get_packet_size k
                    { st with fifo_en := and_not st.fifo_en k.SENSOR_GYRO }) *
                inv_icm42670_get_packet_size k
                  { st with fifo_en := and_not st.fifo_en k.SENSOR_GYRO })))] ++ l) ∧
    (d ≠ st.indio_gyro → d = st.indio_accel → 0 < period_gyro k st →
      period_gyro k st *
        inv_icm42670_wm_truncate k st.fifo_watermark_gyro
          (inv_icm42670_get_packet_size k
            { st with fifo_en := and_not st.fifo_en k.SENSOR_ACCEL }) < U32_MOD →
      (inv_icm42670_buffer_postdisable k c st d).2.fifo_en =
        and_not st.fifo_en k.SENSOR_ACCEL ∧
      (∀ i, (inv_icm42670_buffer_postdisable k c st d).2.fifo_en.testBit i =
        (st.fifo_en.testBit i && !k.SENSOR_ACCEL.testBit i)) ∧
      (inv_icm42670_buffer_postdisable k c st d).2.fifo_watermark_accel = 0 ∧
      (inv_icm42670_buffer_postdisable k c st d).2.fifo_watermark_gyro =
        st.fifo_watermark_gyro ∧
      ∃ l, (inv_icm42670_buffer_postdisable k c st d).2.map.log =
        st.map.log ++
          [RegOp.update_bits k.FIFO_CONFIG5_MREG1 (fifo_en_mask k)
             (fifo_en_val k (and_not st.fifo_en k.SENSOR_ACCEL)),
           RegOp.update_bits k.INT_SOURCE0 k.INT_SOURCE0_FIFO_THS_INT1_EN_MASK 0,
           RegOp.bulk_write k.FIFO_WATERMARK
             (le16_bytes (k.FIFO_WATERMARK_VAL
               (inv_icm42670_wm_truncate k st.fifo_watermark_gyro
                  (inv_icm42670_get_packet_size k
                    { st with fifo_en := and_not st.fifo_en k.SENSOR_ACCEL }) *
                inv_icm42670_get_packet_size k
                  { st with fifo_en := and_not st.fifo_en k.SENSOR_ACCEL })))] ++ l) := by
  constructor
  · intro hd
    have hp : inv_icm42670_buffer_postdisable k c st d =
        postdisable_locked k c st k.SENSOR_GYRO true := by
      unfold inv_icm42670_buffer_postdisable
      rw [if_pos hd]
    rw [hp] at hret ⊢
    obtain ⟨a1, a2, a3, _, l, a5⟩ := postdisable_locked_ok k c st k.SENSOR_GYRO true happ hret
    rw [wm_size_gyro_cleared] at a5
    refine ⟨a1, ?_, a2, a3, l, a5⟩
    intro i
    rw [a1, and_not_testBit]
  · intro hd ha hper hnowrap
    have hp : inv_icm42670_buffer_postdisable k c st d =
        postdisable_locked k c st k.SENSOR_ACCEL false := by
      unfold inv_icm42670_buffer_postdisable
      rw [if_neg hd, if_pos ha]
    rw [hp] at hret ⊢
    obtain ⟨a1, a2, a3, _, l, a5⟩ := postdisable_locked_ok k c st k.SENSOR_ACCEL false happ hret
    rw [wm_size_accel_cleared k st _ hper hnowrap] at a5
    refine ⟨a1, ?_, a3, a2, l, a5⟩
    intro i
    rw [a1, and_not_testBit]

/-- Witness of C30: the sample state (mask 3, gyro watermark 4, accel watermark 6) called
for the gyro device 1, and for the accel device 2. -/
theorem postdisable_frame_witness :
    ((inv_icm42670_buffer_postdisable sampleConsts sampleCollab sampleState 1).2.fifo_en =
        and_not sampleState.fifo_en sampleConsts.SENSOR_GYRO ∧
      (inv_icm42670_buffer_postdisable sampleConsts sampleCollab sampleState
        1).2.fifo_watermark_gyro = 0 ∧
      (inv_icm42670_buffer_postdisable sampleConsts sampleCollab sampleState
        1).2.fifo_watermark_accel = sampleState.fifo_watermark_accel) ∧
    ((inv_icm42670_buffer_postdisable sampleConsts sampleCollab sampleState 2).2.fifo_en =
        and_not sampleState.fifo_en sampleConsts.SENSOR_ACCEL ∧
      (inv_icm42670_buffer_postdisable sampleConsts sampleCollab sampleState
        2).2.fifo_watermark_accel = 0 ∧
      (inv_icm42670_buffer_postdisable sampleConsts sampleCollab sampleState
        2).2.fifo_watermark_gyro = sampleState.fifo_watermark_gyro) :=
  ⟨⟨((postdisable_frame sampleConsts sampleCollab sampleState 1 sampleCollab_appends
        (by decide)).1 rfl).1,
    ((postdisable_frame sampleConsts sampleCollab sampleState 1 sampleCollab_appends
        (by decide)).1 rfl).2.2.1,
    ((postdisable_frame sampleConsts sampleCollab sampleState 1 sampleCollab_appends
        (by decide)).1 rfl).2.2.2.1⟩,
   ⟨((postdisable_frame sampleConsts sampleCollab sampleState 2 sampleCollab_appends
        (by decide)).2 (by decide) rfl (by decide) (by decide)).1,
    ((postdisable_frame sampleConsts sampleCollab sampleState 2 sampleCollab_appends
        (by decide)).2 (by decide) rfl (by decide) (by decide)).2.2.1,
    ((postdisable_frame sampleConsts sampleCollab sampleState 2 sampleCollab_appends
        (by decide)).2 (by decide) rfl (by decide) (by decide)).2.2.2.1⟩⟩

/-! ## Further properties of the packet decoder -/

theorem or_and_self_left (a b : Nat) : (a ||| b) &&& a = a := by
  apply Nat.eq_of_testBit_eq
  intro i
  simp only [Nat.testBit_and, Nat.testBit_or]
  cases a.testBit i <;> cases b.testBit i <;> rfl

theorem or_and_self_right (a b : Nat) : (a ||| b) &&& b = b := by
  apply Nat.eq_of_testBit_eq
  intro i
  simp only [Nat.testBit_and, Nat.testBit_or]
  cases a.testBit i <;> cases b.testBit i <;> rfl

/-- The odr flags of lines 73-78 for sensor flags that are unsigned int values. -/
theorem decode_odr_eq (k : Consts) (h : Nat) (hG : k.SENSOR_GYRO < U32_MOD)
    (hA : k.SENSOR_ACCEL < U32_MOD) :
    decode_odr k h =
      (if h.testBit 0 = true then k.SENSOR_GYRO else 0) |||
        (if h.testBit 1 = true then k.SENSOR_ACCEL else 0) := by
  have hGA : k.SENSOR_GYRO ||| k.SENSOR_ACCEL < U32_MOD := Nat.or_lt_two_pow hG hA
  simp only [decode_odr, INV_ICM42670_FIFO_HEADER_ODR_GYRO, INV_ICM42670_FIFO_HEADER_ODR_ACCEL,
    and_BIT_ne_zero, Nat.zero_or]
  cases h.testBit 0 <;> cases h.testBit 1 <;>
    simp [Nat.mod_eq_of_lt hG, Nat.mod_eq_of_lt hA, Nat.mod_eq_of_lt hGA]

/-- For a header that is not empty the decoder reports the odr flags of lines 73-78. -/
theorem decode_odr_of_nonempty (k : Consts) (packet : List Nat) (out : DecodeOut)
    (h7 : (rd8 packet 0).testBit 7 = false) :
    (inv_icm42670_fifo_decode_packet k packet out).out.odr = decode_odr k (rd8 packet 0) := by
  rw [decode_cases]
  cases h6 : (rd8 packet 0).testBit 6 <;> cases h5 : (rd8 packet 0).testBit 5 <;> simp [h7]

/-- C39: for every header that is not empty (bit 7 clear), the sensor flags being
distinct non-zero unsigned int values with no common bit (they are not among the
sources), the ODR flags that the decoder reports are the gyro flag when header bit 0 is
set, or-ed with the accel flag when header bit 1 is set, and nothing else: they contain
the gyro flag exactly when bit 0 is set and the accel flag exactly when bit 1 is set, and
two non-empty headers that agree on bits 1 and 0 give the same flags, whatever bits 6
and 5, the other bits, the payloads and the out-parameters are. -/
theorem decode_odr_flags (k : Consts) (packet : List Nat) (out : DecodeOut)
    (hG : k.SENSOR_GYRO < U32_MOD) (hA : k.SENSOR_ACCEL < U32_MOD)
    (hG0 : k.SENSOR_GYRO ≠ 0) (hA0 : k.SENSOR_ACCEL ≠ 0)
    (hdisj : k.SENSOR_GYRO &&& k.SENSOR_ACCEL = 0)
    (h7 : (rd8 packet 0).testBit 7 = false) :
    (inv_icm42670_fifo_decode_packet k packet out).out.odr =
      ((if (rd8 packet 0).testBit 0 = true then k.SENSOR_GYRO else 0) |||
        (if (rd8 packet 0).testBit 1 = true then k.SENSOR_ACCEL else 0)) ∧
    ((inv_icm42670_fifo_decode_packet k packet out).out.odr &&& k.SENSOR_GYRO =
      k.SENSOR_GYRO ↔ (rd8 packet 0).testBit 0 = true) ∧
    ((inv_icm42670_fifo_decode_packet k packet out).out.odr &&& k.SENSOR_ACCEL =
      k.SENSOR_ACCEL ↔ (rd8 packet 0).testBit 1 = true) ∧
    (∀ (packet2 : List Nat) (out2 : DecodeOut), (rd8 packet2 0).testBit 7 = false →
      (rd8 packet2 0).testBit 0 = (rd8 packet 0).testBit 0 →
      (rd8 packet2 0).testBit 1 = (rd8 packet 0).testBit 1 →
      (inv_icm42670_fifo_decode_packet k packet2 out2).out.odr =
        (inv_icm42670_fifo_decode_packet k packet out).out.odr) := by
  have hdisj2 : k.SENSOR_ACCEL &&& k.SENSOR_GYRO = 0 := by rw [Nat.land_comm]; exact hdisj
  refine ⟨?_, ?_, ?_, ?_⟩
  · rw [decode_odr_of_nonempty k packet out h7, decode_odr_eq k _ hG hA]
  · rw [decode_odr_of_nonempty k packet out h7, decode_odr_eq k _ hG hA]
    cases (rd8 packet 0).testBit 0 <;> cases (rd8 packet 0).testBit 1 <;>
      simp [or_and_self_left, hdisj2, Ne.symm hG0]
  · rw [decode_odr_of_nonempty k packet out h7, decode_odr_eq k _ hG hA]
    cases (rd8 packet 0).testBit 0 <;> cases (rd8 packet 0).testBit 1 <;>
      simp [or_and_self_right, hdisj, Ne.symm hA0]
  · intro packet2 out2 h72 e0 e1
    rw [decode_odr_of_nonempty k packet out h7, decode_odr_of_nonempty k packet2 out2 h72,
      decode_odr_eq k _ hG hA, decode_odr_eq k _ hG hA, e0, e1]

/-- Witness of C39: the sample dual-sensor record, header 0x6C, and a gyro-only header
0x23 with both ODR bits set. -/
theorem decode_odr_flags_witness :
    (inv_icm42670_fifo_decode_packet sampleConsts [0x23, 1, 2, 3, 4, 5, 6, 7] out0).out.odr =
      ((if (rd8 [0x23, 1, 2, 3, 4, 5, 6, 7] 0).testBit 0 = true then
          sampleConsts.SENSOR_GYRO else 0) |||
        (if (rd8 [0x23, 1, 2, 3, 4, 5, 6, 7] 0).testBit 1 = true then
          sampleConsts.SENSOR_ACCEL else 0)) ∧
    ((inv_icm42670_fifo_decode_packet sampleConsts samplePacketDual out0).out.odr &&&
      sampleConsts.SENSOR_GYRO = sampleConsts.SENSOR_GYRO ↔
        (rd8 samplePacketDual 0).testBit 0 = true) :=
  ⟨(decode_odr_flags sampleConsts [0x23, 1, 2, 3, 4, 5, 6, 7] out0 (by decide) (by decide)
      (by decide) (by decide) (by decide) (by decide)).1,
   (decode_odr_flags sampleConsts samplePacketDual out0 (by decide) (by decide)
      (by decide) (by decide) (by decide) (by decide)).2.1⟩

/-- Two buffers of the same length that read the same at every index are equal. -/
theorem list_eq_of_getD (a b : List Nat) (hl : a.length = b.length)
    (h : ∀ j, a.getD j 0 = b.getD j 0) : a = b := by
  apply List.ext_getElem hl
  intro i h1 h2
  have e := h i
  rw [List.getD_eq_getElem _ _ h1, List.getD_eq_getElem _ _ h2] at e
  exact e

/-- The adjustment of the gyro axes, done twice, is the adjustment done once. -/
theorem decode_fsync_fix_idem (h : Nat) (m : List Nat) :
    decode_fsync_fix h (decode_fsync_fix h m) = decode_fsync_fix h m := by
  apply list_eq_of_getD
  · rw [decode_fsync_fix_length]
  · intro j
    rw [decode_fsync_fix_getD h (decode_fsync_fix h m) j, decode_fsync_fix_length,
      decode_fsync_fix_rd8, decode_fsync_fix_getD h m j]
    simp only [fsync_test_iff]
    split_ifs <;> omega

/-- The header byte is not touched by the decoder. -/
theorem decode_header (k : Consts) (packet : List Nat) (out : DecodeOut) :
    rd8 (inv_icm42670_fifo_decode_packet k packet out).packet 0 = rd8 packet 0 := by
  rw [decode_cases]
  split_ifs <;> first | rfl | (show rd8 (decode_fsync_fix _ _) 0 = _; rw [decode_fsync_fix_rd8]; simp)

/-- C36: the decoder is idempotent on its buffer. For every buffer, a second call on
the buffer and the out-parameters that the first call has left gives the result of the
first call again: the same returned length, the same pointers and ODR flags, and a buffer
equal to the one the first call left. Whatever the out-parameters hold before the second
call, it returns the same length, the same buffer and the same ODR flags, and the same
pointers whenever it stores them (the return value is not -EINVAL). -/
theorem decode_idempotent (k : Consts) (packet : List Nat) (out : DecodeOut) :
    inv_icm42670_fifo_decode_packet k
        (inv_icm42670_fifo_decode_packet k packet out).packet
        (inv_icm42670_fifo_decode_packet k packet out).out =
      inv_icm42670_fifo_decode_packet k packet out ∧
    (∀ out2 : DecodeOut,
      (inv_icm42670_fifo_decode_packet k
          (inv_icm42670_fifo_decode_packet k packet out).packet out2).ret =
        (inv_icm42670_fifo_decode_packet k packet out).ret ∧
      (inv_icm42670_fifo_decode_packet k
          (inv_icm42670_fifo_decode_packet k packet out).packet out2).packet =
        (inv_icm42670_fifo_decode_packet k packet out).packet ∧
      (inv_icm42670_fifo_decode_packet k
          (inv_icm42670_fifo_decode_packet k packet out).packet out2).out.odr =
        (inv_icm42670_fifo_decode_packet k packet out).out.odr ∧
      ((inv_icm42670_fifo_decode_packet k packet out).ret ≠ -22 →
        (inv_icm42670_fifo_decode_packet k
            (inv_icm42670_fifo_decode_packet k packet out).packet out2).out =
          (inv_icm42670_fifo_decode_packet k packet out).out)) := by
  have hh := decode_header k packet out
  have key : ∀ out2 : DecodeOut,
      inv_icm42670_fifo_decode_packet k
          (inv_icm42670_fifo_decode_packet k packet out).packet out2 =
        if (rd8 packet 0).testBit 7 = false ∧ (rd8 packet 0).testBit 6 = false ∧
            (rd8 packet 0).testBit 5 = false then
          { ret := -22, packet := packet,
            out := { out2 with odr := decode_odr k (rd8 packet 0) } }
        else inv_icm42670_fifo_decode_packet k packet out := by
    intro out2
    rw [decode_cases k (inv_icm42670_fifo_decode_packet k packet out).packet out2, hh]
    rw [decode_cases k packet out]
    cases (rd8 packet 0).testBit 7 <;> cases (rd8 packet 0).testBit 6 <;>
      cases (rd8 packet 0).testBit 5 <;> simp [decode_fsync_fix_idem]
  have hret : (inv_icm42670_fifo_decode_packet k packet out).ret ≠ -22 ↔
      ¬ ((rd8 packet 0).testBit 7 = false ∧ (rd8 packet 0).testBit 6 = false ∧
        (rd8 packet 0).testBit 5 = false) := by
    rw [decode_cases k packet out]
    cases (rd8 packet 0).testBit 7 <;> cases (rd8 packet 0).testBit 6 <;>
      cases (rd8 packet 0).testBit 5 <;> simp
  constructor
  · rw [key]
    split_ifs with hm
    · rw [decode_cases k packet out]
      obtain ⟨h7, h6, h5⟩ := hm
      simp [h7, h6, h5]
    · rfl
  · intro out2
    rw [key]
    split_ifs with hm
    · obtain ⟨h7, h6, h5⟩ := hm
      rw [decode_cases k packet out]
      simp [h7, h6, h5]
    · exact ⟨rfl, rfl, rfl, fun _ => rfl⟩

/-! ## Further properties of the watermark computation -/

/-- The truncated count times the packet size never exceeds the capacity. -/
theorem wm_truncate_mul_le (k : Consts) (w ps : Nat) :
    inv_icm42670_wm_truncate k w ps * ps ≤ k.FIFO_WATERMARK_MAX := by
  simp only [inv_icm42670_wm_truncate]
  have h1 : (if w * ps % SIZE_MOD > k.FIFO_WATERMARK_MAX then k.FIFO_WATERMARK_MAX
      else w * ps % SIZE_MOD) ≤ k.FIFO_WATERMARK_MAX := by
    split_ifs with h
    · exact Nat.le_refl _
    · exact Nat.le_of_not_gt h
  exact Nat.le_trans (Nat.mul_le_mul_right ps (Nat.mod_le _ _))
    (Nat.le_trans (Nat.div_mul_le_self _ _) h1)

/-- A quotient of a part of a wrapped product by one of its factors is at most the other
factor. -/
theorem div_wrapped_le (p w x : Nat) (hp : 0 < p) (hx : x ≤ p * w % U32_MOD) : x / p ≤ w := by
  have h1 : x ≤ p * w := Nat.le_trans hx (Nat.mod_le _ _)
  calc x / p ≤ p * w / p := Nat.div_le_div_right h1
    _ = w := Nat.mul_div_cancel_left w hp

/-- C33: for every state, the byte threshold that inv_icm42670_buffer_update_watermark
computes never exceeds INV_ICM42670_FIFO_WATERMARK_MAX (the packet size is 8 or 16, and
neither the bound on the packet size nor the absence of 32-bit overflow is needed); and
in the branch where both latencies are non-zero the joint watermark is at least 1 and at
most the truncated count of the sensor with the shorter period (of either sensor when the
periods are equal). -/
theorem planner_bound (k : Consts) (st : inv_icm42670_state) :
    wm_size k st ≤ k.FIFO_WATERMARK_MAX ∧
    (inv_icm42670_get_packet_size k st = 8 ∨ inv_icm42670_get_packet_size k st = 16) ∧
    (latency_gyro k st ≠ 0 → latency_accel k st ≠ 0 →
      1 ≤ joint_watermark k st ∧
      (period_gyro k st ≤ period_accel k st → joint_watermark k st ≤ wm_gyro k st) ∧
      (period_accel k st ≤ period_gyro k st → joint_watermark k st ≤ wm_accel k st)) := by
  have hboth : latency_gyro k st ≠ 0 → latency_accel k st ≠ 0 →
      1 ≤ joint_watermark k st ∧
      (period_gyro k st ≤ period_accel k st → joint_watermark k st ≤ wm_gyro k st) ∧
      (period_accel k st ≤ period_gyro k st → joint_watermark k st ≤ wm_accel k st) := by
    intro hg ha
    have hpg : 0 < period_gyro k st := Nat.pos_of_ne_zero (period_gyro_ne_zero k st hg)
    have hpa : 0 < period_accel k st := Nat.pos_of_ne_zero (period_accel_ne_zero k st ha)
    have hwg : 1 ≤ wm_gyro k st := by
      apply Nat.pos_of_ne_zero
      intro h
      apply hg
      rw [latency_gyro, h, Nat.mul_zero, Nat.zero_mod]
    have hwa : 1 ≤ wm_accel k st := by
      apply Nat.pos_of_ne_zero
      intro h
      apply ha
      rw [latency_accel, h, Nat.mul_zero, Nat.zero_mod]
    rw [joint_watermark_both k st hg ha]
    refine ⟨Nat.le_max_left _ _, ?_, ?_⟩
    · intro hle
      rw [Nat.min_eq_left hle]
      apply Nat.max_le.2 ⟨hwg, ?_⟩
      exact div_wrapped_le _ _ _ hpg
        (Nat.le_trans (Nat.sub_le _ _) (Nat.min_le_left _ _))
    · intro hle
      rw [Nat.min_eq_right hle]
      apply Nat.max_le.2 ⟨hwa, ?_⟩
      exact div_wrapped_le _ _ _ hpa
        (Nat.le_trans (Nat.sub_le _ _) (Nat.min_le_right _ _))
  refine ⟨?_, get_packet_size_cases k st, hboth⟩
  have hg := wm_truncate_mul_le k st.fifo_watermark_gyro (inv_icm42670_get_packet_size k st)
  have ha := wm_truncate_mul_le k st.fifo_watermark_accel (inv_icm42670_get_packet_size k st)
  have hj : joint_watermark k st ≤ wm_gyro k st ∨ joint_watermark k st ≤ wm_accel k st := by
    by_cases h1 : latency_gyro k st = 0
    · right
      rw [joint_watermark, if_pos h1]
    · by_cases h2 : latency_accel k st = 0
      · left
        rw [joint_watermark, if_neg h1, if_pos h2]
      · obtain ⟨_, b1, b2⟩ := hboth h1 h2
        rcases Nat.le_total (period_gyro k st) (period_accel k st) with h | h
        · exact Or.inl (b1 h)
        · exact Or.inr (b2 h)
  unfold wm_size
  apply Nat.le_trans (Nat.mod_le _ _)
  rcases hj with h | h
  · exact Nat.le_trans (Nat.mul_le_mul_right _ h) hg
  · exact Nat.le_trans (Nat.mul_le_mul_right _ h) ha

/-- Witness of C33 on the sample state, where both sensors are active with equal
periods. -/
theorem planner_bound_witness :
    wm_size sampleConsts sampleState ≤ sampleConsts.FIFO_WATERMARK_MAX ∧
    1 ≤ joint_watermark sampleConsts sampleState ∧
    joint_watermark sampleConsts sampleState ≤ wm_gyro sampleConsts sampleState ∧
    joint_watermark sampleConsts sampleState ≤ wm_accel sampleConsts sampleState :=
  ⟨(planner_bound sampleConsts sampleState).1,
   ((planner_bound sampleConsts sampleState).2.2 (by decide) (by decide)).1,
   ((planner_bound sampleConsts sampleState).2.2 (by decide) (by decide)).2.1 (by decide),
   ((planner_bound sampleConsts sampleState).2.2 (by decide) (by decide)).2.2 (by decide)⟩

/-- A store of bytes leaves the registers outside its range as they are. -/
theorem store_bytes_other (bytes : List Nat) :
    ∀ (regs : Nat → Nat) (reg r : Nat), (r < reg ∨ reg + bytes.length ≤ r) →
      store_bytes regs reg bytes r = regs r := by
  induction bytes with
  | nil => intro regs reg r _; rfl
  | cons b bs ih =>
    intro regs reg r h
    rw [store_bytes, ih _ _ _ (by simp only [List.length_cons] at h; omega)]
    exact Function.update_noteq (by simp only [List.length_cons] at h; omega) _ _

/-- The change flag of the clearing of bit n tells whether the bit was set. -/
theorem clear_bit_changes (a n : Nat) :
    and_not a (BIT n) ||| (0 &&& BIT n) ≠ a ↔ a.testBit n = true := by
  unfold BIT
  constructor
  · intro h
    by_contra hb
    apply h
    apply Nat.eq_of_testBit_eq
    intro i
    simp only [and_not, Nat.testBit_and, Nat.testBit_or, Nat.testBit_xor, Nat.zero_and,
      Nat.zero_testBit, Nat.testBit_two_pow]
    by_cases hi : n = i
    · subst hi
      simp only [Bool.not_eq_true] at hb
      simp [hb]
    · simp [hi]
  · intro hb h
    have e := congrArg (fun x => x.testBit n) h
    simp only [and_not, Nat.testBit_and, Nat.testBit_or, Nat.testBit_xor, Nat.zero_and,
      Nat.zero_testBit, Nat.testBit_two_pow, hb] at e
    simp at e

/-- Clearing bit n and setting it again gives back a value in which the bit was set. -/
theorem clear_set_bit (a n : Nat) (hb : a.testBit n = true) :
    and_not (and_not a (BIT n) ||| (0 &&& BIT n)) (BIT n) ||| (BIT n &&& BIT n) = a := by
  unfold BIT
  apply Nat.eq_of_testBit_eq
  intro i
  simp only [and_not, Nat.testBit_and, Nat.testBit_or, Nat.testBit_xor, Nat.zero_and,
    Nat.zero_testBit, Nat.testBit_two_pow]
  by_cases hi : n = i
  · subst hi
    simp [hb]
  · simp [hi]

/-- The result of regmap_update_bits_check when the operation succeeds. -/
theorem regmap_update_bits_check_ok (map : Regmap) (reg mask val : Nat) (h : map.next = 0) :
    regmap_update_bits_check map reg mask val =
      (0, decide (and_not (map.regs reg) mask ||| (val &&& mask) ≠ map.regs reg),
        { map.issue (RegOp.update_bits reg mask val) with
          regs := Function.update map.regs reg
            (and_not (map.regs reg) mask ||| (val &&& mask)) }) := by
  unfold regmap_update_bits_check
  rw [if_neg (by rw [h]; exact fun h => h rfl)]

/-- C38: an inv_icm42670_buffer_update_watermark that returns 0, the interrupt enable
mask being the single bit n of INT_SOURCE0 and INT_SOURCE0 not being one of the two
watermark registers (constants that are not among the sources), leaves INT_SOURCE0 as it
found it; the enable bit is clear in the register on which the write of the watermark is
issued; and the operations issued are the clearing of the bit, the write of the
watermark and then, exactly when the bit was set before the call, the setting of the
bit. -/
theorem update_watermark_restores (k : Consts) (st : inv_icm42670_state) (n : Nat)
    (hmask : k.INT_SOURCE0_FIFO_THS_INT1_EN_MASK = BIT n)
    (hr1 : k.INT_SOURCE0 ≠ k.FIFO_WATERMARK) (hr2 : k.INT_SOURCE0 ≠ k.FIFO_WATERMARK + 1)
    (hret : (inv_icm42670_buffer_update_watermark k st).1 = 0) :
    (inv_icm42670_buffer_update_watermark k st).2.map.regs k.INT_SOURCE0 =
      st.map.regs k.INT_SOURCE0 ∧
    ((regmap_update_bits_check st.map k.INT_SOURCE0
      k.INT_SOURCE0_FIFO_THS_INT1_EN_MASK 0).2.2.regs k.INT_SOURCE0).testBit n = false ∧
    (inv_icm42670_buffer_update_watermark k st).2.map.log =
      st.map.log ++
        ([RegOp.update_bits k.INT_SOURCE0 k.INT_SOURCE0_FIFO_THS_INT1_EN_MASK 0,
          RegOp.bulk_write k.FIFO_WATERMARK
            (le16_bytes (k.FIFO_WATERMARK_VAL (wm_size k st)))] ++
         if (st.map.regs k.INT_SOURCE0).testBit n = true then
           [RegOp.update_bits k.INT_SOURCE0 k.INT_SOURCE0_FIFO_THS_INT1_EN_MASK
             k.INT_SOURCE0_FIFO_THS_INT1_EN_MASK]
         else []) := by
  have htake : ∀ (v : Nat) (l : List Nat), (le16_bytes v ++ l).take 2 = le16_bytes v := by
    intro v l; simp [le16_bytes]
  have hlen : ∀ v : Nat, (le16_bytes v).length = 2 := fun _ => rfl
  by_cases h1 : st.map.next = 0
  · have hbit : (and_not (st.map.regs k.INT_SOURCE0) (BIT n) ||| (0 &&& BIT n)).testBit n =
        false := by
      unfold BIT
      simp [and_not, Nat.testBit_and, Nat.testBit_or, Nat.testBit_xor, Nat.testBit_two_pow]
    have hwr : ∀ m : Regmap, ∀ v : Nat,
        (regmap_bulk_write m k.FIFO_WATERMARK (le16_bytes v)).2.regs k.INT_SOURCE0 =
          m.regs k.INT_SOURCE0 := by
      intro m v
      unfold regmap_bulk_write
      split_ifs
      · rfl
      · exact store_bytes_other _ _ _ _ (by rw [hlen]; omega)
    have hz : ((0 : Int) ≠ 0) ↔ False := by simp
    have hb2 : (Function.update st.map.regs k.INT_SOURCE0
        (and_not (st.map.regs k.INT_SOURCE0) (BIT n) ||| (0 &&& BIT n))
        k.INT_SOURCE0).testBit n = false := by
      rw [Function.update_same]; exact hbit
    simp only [inv_icm42670_buffer_update_watermark, htake,
      regmap_update_bits_check_ok _ _ _ _ h1, hmask, hz, if_false, decide_eq_true_eq,
      ← clear_bit_changes] at hret ⊢
    split_ifs at hret ⊢ with h2 h3 h4 h5
    · exact absurd hret h2
    · exact absurd hret h2
    · exact absurd hret h5
    · refine ⟨?_, hb2, ?_⟩
      · show (regmap_update_bits _ _ _ _).2.regs _ = _
        have hn : (regmap_bulk_write
            { st.map.issue (RegOp.update_bits k.INT_SOURCE0 (BIT n) 0) with
              regs := Function.update st.map.regs k.INT_SOURCE0
                (and_not (st.map.regs k.INT_SOURCE0) (BIT n) ||| (0 &&& BIT n)) }
            k.FIFO_WATERMARK (le16_bytes (k.FIFO_WATERMARK_VAL (wm_size k st)))).2.next = 0 := by
          have e := exec_ret (RegOp.update_bits k.INT_SOURCE0 (BIT n) (BIT n)) (regmap_bulk_write
            { st.map.issue (RegOp.update_bits k.INT_SOURCE0 (BIT n) 0) with
              regs := Function.update st.map.regs k.INT_SOURCE0
                (and_not (st.map.regs k.INT_SOURCE0) (BIT n) ||| (0 &&& BIT n)) }
            k.FIFO_WATERMARK (le16_bytes (k.FIFO_WATERMARK_VAL (wm_size k st)))).2
          rw [← e]
          exact not_not.mp h5
        rw [regmap_update_bits_regs _ _ _ _ hn, hwr]
        simp only [Function.update_same]
        exact clear_set_bit _ _ ((clear_bit_changes _ _).1 h4)
      · show (regmap_update_bits _ _ _ _).2.log = _
        rw [regmap_update_bits_log, regmap_bulk_write_log]
        show (st.map.log ++ _) ++ _ ++ _ = _
        simp
    · refine ⟨?_, hb2, ?_⟩
      · show (regmap_bulk_write _ _ _).2.regs _ = _
        rw [hwr]
        simp only [Function.update_same]
        exact not_not.mp h4
      · show (regmap_bulk_write _ _ _).2.log = _
        rw [regmap_bulk_write_log]
        show (st.map.log ++ _) ++ _ = _
        simp
  · have e : (inv_icm42670_buffer_update_watermark k st).1 = st.map.next := by
      have e1 : (regmap_update_bits_check st.map k.INT_SOURCE0
          k.INT_SOURCE0_FIFO_THS_INT1_EN_MASK 0).1 = st.map.next := by
        unfold regmap_update_bits_check
        rw [if_pos h1]
      simp only [inv_icm42670_buffer_update_watermark]
      rw [if_pos (by rw [e1]; exact h1), e1]
    rw [e] at hret
    exact absurd hret h1

/-- Witness of C38: the sample state with the enable bit (bit 2 of register 0x2B) set
before the call. -/
theorem update_watermark_restores_witness :
    (inv_icm42670_buffer_update_watermark sampleConsts
      { sampleState with
        map := { sampleMap with regs := fun r => if r = 0x2B then 4 else 0 } }).2.map.regs
        sampleConsts.INT_SOURCE0 = 4 ∧
    (inv_icm42670_buffer_update_watermark sampleConsts
      { sampleState with
        map := { sampleMap with regs := fun r => if r = 0x2B then 4 else 0 } }).2.map.log =
      [RegOp.update_bits 0x2B 4 0, RegOp.bulk_write 0x29 [32, 0],
       RegOp.update_bits 0x2B 4 4] :=
  ⟨(update_watermark_restores sampleConsts
      { sampleState with map := { sampleMap with regs := fun r => if r = 0x2B then 4 else 0 } }
      2 rfl (by decide) (by decide) (by decide)).1,
   (update_watermark_restores sampleConsts
      { sampleState with map := { sampleMap with regs := fun r => if r = 0x2B then 4 else 0 } }
      2 rfl (by decide) (by decide) (by decide)).2.2.trans (by decide)⟩

/-! ## Further properties of the FIFO drain -/

theorem walk_body_gyro (k : Consts) (i : Nat) (w : WalkState) :
    (walk_body k i w).nb_gyro =
      if sample_valid k
          (w.data.take i ++ (inv_icm42670_fifo_decode_packet k (w.data.drop i) w.out).packet) i
          (inv_icm42670_fifo_decode_packet k (w.data.drop i) w.out).out.gyro = true
      then w.nb_gyro + 1 else w.nb_gyro := by
  simp only [walk_body]
  split_ifs <;> rfl

theorem walk_body_accel_le (k : Consts) (i : Nat) (w : WalkState) :
    (walk_body k i w).nb_accel ≤ w.nb_accel + 1 := by
  simp only [walk_body]
  split_ifs <;> simp

/-- The counters of the walk: every iteration that counts a gyro or an accel sample
counts a record, every record counted comes from a call of the decoder, and the decoder
is only called below the count. -/
theorem fifo_walk_counts (k : Consts) (c : Nat) :
    ∀ (fuel i : Nat) (w : WalkState),
      (fifo_walk k c fuel i w).nb_gyro + w.nb_total ≤
        w.nb_gyro + (fifo_walk k c fuel i w).nb_total ∧
      (fifo_walk k c fuel i w).nb_accel + w.nb_total ≤
        w.nb_accel + (fifo_walk k c fuel i w).nb_total ∧
      (fifo_walk k c fuel i w).nb_total + w.calls.length ≤
        w.nb_total + (fifo_walk k c fuel i w).calls.length ∧
      (∀ x ∈ (fifo_walk k c fuel i w).calls, x ∈ w.calls ∨ x < c) := by
  intro fuel
  induction fuel with
  | zero =>
    intro i w
    rw [fifo_walk]
    exact ⟨Nat.le_refl _, Nat.le_refl _, Nat.le_refl _, fun x hx => Or.inl hx⟩
  | succ f ih =>
    intro i w
    by_cases hi : i < c
    · cases hrs : record_size (rd8 w.data i) with
      | none =>
        rw [fifo_walk_stop k c f i w hi hrs]
        refine ⟨Nat.le_refl _, Nat.le_refl _, ?_, ?_⟩
        · simp only [List.length_append, List.length_singleton]
          omega
        · intro x hx
          rcases List.mem_append.1 hx with h | h
          · exact Or.inl h
          · rw [List.mem_singleton] at h
            exact Or.inr (by omega)
      | some s =>
        rw [fifo_walk_step k c f i s w hi hrs]
        obtain ⟨a1, a2, a3, a4⟩ := ih (i + s) (walk_body k i w)
        have hg : (walk_body k i w).nb_gyro ≤ w.nb_gyro + 1 := by
          rw [walk_body_gyro]
          split_ifs <;> omega
        have ha := walk_body_accel_le k i w
        rw [walk_body_total] at a1 a2 a3
        rw [walk_body_calls] at a3
        simp only [List.length_append, List.length_singleton] at a3
        refine ⟨by omega, by omega, by omega, ?_⟩
        intro x hx
        rcases a4 x hx with h | h
        · rw [walk_body_calls] at h
          rcases List.mem_append.1 h with h | h
          · exact Or.inl h
          · rw [List.mem_singleton] at h
            exact Or.inr (by omega)
        · exact Or.inr h
    · rw [fifo_walk_exit k c (f + 1) i w hi]
      exact ⟨Nat.le_refl _, Nat.le_refl _, Nat.le_refl _, fun x hx => Or.inl hx⟩

/-- A drain that does not enter the loop leaves the three counters at 0. -/
theorem fifo_read_no_walk (k : Consts) (st : inv_icm42670_state) (max : Nat)
    (out : DecodeOut) (hf : (fifo_read_fetch k st max).walk = false) :
    (inv_icm42670_buffer_fifo_read k st max out).2.fifo_nb_gyro = 0 ∧
    (inv_icm42670_buffer_fifo_read k st max out).2.fifo_nb_accel = 0 ∧
    (inv_icm42670_buffer_fifo_read k st max out).2.fifo_nb_total = 0 := by
  have hr : (inv_icm42670_buffer_fifo_read k st max out).2 = (fifo_read_fetch k st max).st := by
    unfold inv_icm42670_buffer_fifo_read
    simp only [hf, Bool.false_eq_true, if_false]
  rw [hr]
  by_cases h1 : st.map.next = 0
  · by_cases hz : reported_count k st = 0
    · rw [fifo_read_fetch_zero k st max h1 hz]
      exact ⟨rfl, rfl, rfl⟩
    · by_cases h2 : (st.map.issue (RegOp.bulk_read k.FIFO_COUNTH 2)).next = 0
      · rw [fifo_read_fetch_ok k st max _ h1 hz h2 rfl] at hf
        exact absurd hf (by simp)
      · obtain ⟨a, b, c, _⟩ := fifo_read_fetch_fail2_st k st max h1 hz h2
        exact ⟨a, b, c⟩
  · rw [fifo_read_fetch_fail1 k st max h1]
    exact ⟨rfl, rfl, rfl⟩

/-- C34: after every call of inv_icm42670_buffer_fifo_read, failed or not, the gyro
count and the accel count are at most the total count; when the loop has run, the total
count is at most the number of calls of the decoder and every call of the decoder, hence
every record counted, is at an offset below the drained byte count fifo.count; when the
loop has not run the total is 0; and the whole result of the call is the same whatever
fifo.count and the three counters held before the call. -/
theorem fifo_read_counters (k : Consts) (st : inv_icm42670_state) (max : Nat)
    (out : DecodeOut) :
    (inv_icm42670_buffer_fifo_read k st max out).2.fifo_nb_gyro ≤
      (inv_icm42670_buffer_fifo_read k st max out).2.fifo_nb_total ∧
    (inv_icm42670_buffer_fifo_read k st max out).2.fifo_nb_accel ≤
      (inv_icm42670_buffer_fifo_read k st max out).2.fifo_nb_total ∧
    ((fifo_read_fetch k st max).walk = true →
      (inv_icm42670_buffer_fifo_read k st max out).2.fifo_nb_total ≤
        (fifo_read_walk k st max out).calls.length ∧
      (∀ x ∈ (fifo_read_walk k st max out).calls,
        x < (inv_icm42670_buffer_fifo_read k st max out).2.fifo_count)) ∧
    ((fifo_read_fetch k st max).walk = false →
      (inv_icm42670_buffer_fifo_read k st max out).2.fifo_nb_total = 0) ∧
    (∀ a b c d : Nat,
      inv_icm42670_buffer_fifo_read k
        { st with fifo_count := a, fifo_nb_gyro := b, fifo_nb_accel := c,
                  fifo_nb_total := d } max out =
      inv_icm42670_buffer_fifo_read k st max out) := by
  have hwalk : (fifo_read_fetch k st max).walk = true →
      (inv_icm42670_buffer_fifo_read k st max out).2.fifo_nb_gyro ≤
        (inv_icm42670_buffer_fifo_read k st max out).2.fifo_nb_total ∧
      (inv_icm42670_buffer_fifo_read k st max out).2.fifo_nb_accel ≤
        (inv_icm42670_buffer_fifo_read k st max out).2.fifo_nb_total ∧
      (inv_icm42670_buffer_fifo_read k st max out).2.fifo_nb_total ≤
        (fifo_read_walk k st max out).calls.length ∧
      (∀ x ∈ (fifo_read_walk k st max out).calls,
        x < (inv_icm42670_buffer_fifo_read k st max out).2.fifo_count) := by
    intro hf
    obtain ⟨_, _, eg, ea, et⟩ := fifo_read_of_walk k st max out hf
    obtain ⟨zg, za, zt⟩ := fifo_read_fetch_counters k st max hf
    have hc : (inv_icm42670_buffer_fifo_read k st max out).2.fifo_count =
        (fifo_read_fetch k st max).st.fifo_count := by
      unfold inv_icm42670_buffer_fifo_read
      simp only [hf, if_true]
    obtain ⟨a1, a2, a3, a4⟩ := fifo_walk_counts k (fifo_read_fetch k st max).st.fifo_count
      (fifo_read_fetch k st max).st.fifo_count 0 (walk_init (fifo_read_fetch k st max).st out)
    have hw : fifo_read_walk k st max out =
        fifo_walk k (fifo_read_fetch k st max).st.fifo_count
          (fifo_read_fetch k st max).st.fifo_count 0
          (walk_init (fifo_read_fetch k st max).st out) := rfl
    have i1 : (walk_init (fifo_read_fetch k st max).st out).nb_gyro = 0 := zg
    have i2 : (walk_init (fifo_read_fetch k st max).st out).nb_accel = 0 := za
    have i3 : (walk_init (fifo_read_fetch k st max).st out).nb_total = 0 := zt
    have i4 : (walk_init (fifo_read_fetch k st max).st out).calls = [] := rfl
    rw [eg, ea, et, hc, hw]
    rw [i1, i3] at a1
    rw [i2, i3] at a2
    rw [i3, i4] at a3
    refine ⟨by omega, by omega, by simpa using a3, ?_⟩
    intro x hx
    rcases a4 x hx with h | h
    · rw [i4] at h
      exact absurd h (List.not_mem_nil x)
    · exact h
  have hnowalk := fifo_read_no_walk k st max out
  refine ⟨?_, ?_, fun hf => ⟨(hwalk hf).2.2.1, (hwalk hf).2.2.2⟩,
    fun hf => (hnowalk hf).2.2, fun a b c d => rfl⟩
  · cases hf : (fifo_read_fetch k st max).walk with
    | true => exact (hwalk hf).1
    | false => rw [(hnowalk hf).1]; exact Nat.zero_le _
  · cases hf : (fifo_read_fetch k st max).walk with
    | true => exact (hwalk hf).2.1
    | false => rw [(hnowalk hf).2.1]; exact Nat.zero_le _

/-- Witness of C34: the sample drain of 48 bytes, entered with stale counters. -/
theorem fifo_read_counters_witness :
    (inv_icm42670_buffer_fifo_read sampleConsts (sampleDrainState 48 sampleFifo) 0
        out0).2.fifo_nb_total ≤
      (fifo_read_walk sampleConsts (sampleDrainState 48 sampleFifo) 0 out0).calls.length ∧
    (∀ x ∈ (fifo_read_walk sampleConsts (sampleDrainState 48 sampleFifo) 0 out0).calls,
      x < (inv_icm42670_buffer_fifo_read sampleConsts (sampleDrainState 48 sampleFifo) 0
        out0).2.fifo_count) ∧
    (inv_icm42670_buffer_fifo_read sampleConsts (sampleDrainStale 48 sampleFifo [-5]) 0
        out0).2.fifo_nb_total = 0 :=
  ⟨((fifo_read_counters sampleConsts (sampleDrainState 48 sampleFifo) 0 out0).2.2.1
      (by decide)).1,
   ((fifo_read_counters sampleConsts (sampleDrainState 48 sampleFifo) 0 out0).2.2.1
      (by decide)).2,
   (fifo_read_counters sampleConsts (sampleDrainStale 48 sampleFifo [-5]) 0 out0).2.2.2.1
      (by decide)⟩

theorem records_have_size_congr (a b : List Nat) (c s : Nat) :
    ∀ (n i : Nat), (∀ t, i ≤ t → rd8 a t = rd8 b t) →
      records_have_size a c s n i = records_have_size b c s n i := by
  intro n
  induction n with
  | zero => intro i _; rfl
  | succ n ih =>
    intro i hab
    unfold records_have_size
    rw [hab i (Nat.le_refl i)]
    split_ifs with hi
    · cases hrs : record_size (rd8 b i) with
      | none => rfl
      | some t =>
        simp only
        rw [ih (i + t) (fun x hx => hab x (by omega))]
    · rfl

/-- When every record has length s, the walk counts at most one record for every s
bytes between the index and the count. -/
theorem fifo_walk_total_sized (k : Consts) (c s : Nat) (hs : s = 8 ∨ s = 16) :
    ∀ (fuel i : Nat) (w : WalkState), records_have_size w.data c s fuel i = true →
      (fifo_walk k c fuel i w).nb_total ≤ w.nb_total + (c - i + s - 1) / s := by
  intro fuel
  induction fuel with
  | zero =>
    intro i w _
    rw [fifo_walk]
    exact Nat.le_add_right _ _
  | succ f ih =>
    intro i w hr
    by_cases hi : i < c
    · cases hrs : record_size (rd8 w.data i) with
      | none =>
        rw [fifo_walk_stop k c f i w hi hrs]
        exact Nat.le_add_right _ _
      | some t =>
        unfold records_have_size at hr
        rw [if_pos hi, hrs] at hr
        simp only [Bool.and_eq_true, beq_iff_eq] at hr
        obtain ⟨hts, hr2⟩ := hr
        subst hts
        rw [fifo_walk_step k c f i t w hi hrs]
        have hagree : ∀ x, i + t ≤ x → rd8 (walk_body k i w).data x = rd8 w.data x := by
          intro x hx
          rw [walk_body_data]
          exact rd8_after_decode k w.data w.out i t x hrs hx
        have h := ih (i + t) (walk_body k i w)
          (by rw [records_have_size_congr _ w.data c t f (i + t) hagree]; exact hr2)
        rw [walk_body_total] at h
        rcases hs with h8 | h16
        · subst h8; omega
        · subst h16; omega
    · rw [fifo_walk_exit k c (f + 1) i w hi]
      exact Nat.le_add_right _ _

/-- The drained count is at most max packets of the configured size when the max hint is
not 0. -/
theorem fifo_read_count_le_cap (k : Consts) (st : inv_icm42670_state) (max : Nat)
    (hmax0 : max ≠ 0) (hmax : max < U32_MOD) (hf : (fifo_read_fetch k st max).walk = true) :
    (fifo_read_fetch k st max).st.fifo_count ≤ max * inv_icm42670_get_packet_size k st := by
  by_cases h1 : st.map.next = 0
  · by_cases hz : reported_count k st = 0
    · rw [fifo_read_fetch_zero k st max h1 hz] at hf
      exact absurd hf (by simp)
    · by_cases h2 : (st.map.issue (RegOp.bulk_read k.FIFO_COUNTH 2)).next = 0
      · rw [fifo_read_fetch_ok k st max _ h1 hz h2 rfl]
        have hcap := fifo_read_cap_eq k st max hmax
        rw [if_neg hmax0, if_neg hmax0] at hcap
        show (if reported_count k st >
            (if max = 0 then k.sizeof_fifo_data
              else max * inv_icm42670_get_packet_size k st % SIZE_MOD)
          then (if max = 0 then k.sizeof_fifo_data
              else max * inv_icm42670_get_packet_size k st % SIZE_MOD)
          else reported_count k st) ≤ _
        rw [if_neg hmax0, hcap]
        split_ifs with h
        · exact Nat.le_refl _
        · exact Nat.le_of_not_gt h
      · rw [(fifo_read_fetch_fail2 k st max h1 hz h2).1] at hf
        exact absurd hf (by simp)
  · rw [fifo_read_fetch_fail1 k st max h1] at hf
    exact absurd hf (by simp)

/-- C35: for every drain with a max hint that is not 0 (an unsigned int), the total
record count is at most 2 * max, whatever the records are; and when every record that
the walk meets in the drained buffer has the packet size configured by the FIFO enable
mask, the total record count is at most max. -/
theorem fifo_read_total_le_max (k : Consts) (st : inv_icm42670_state) (max : Nat)
    (out : DecodeOut) (hmax0 : max ≠ 0) (hmax : max < U32_MOD) :
    (inv_icm42670_buffer_fifo_read k st max out).2.fifo_nb_total ≤ 2 * max ∧
    (records_have_size (fifo_read_fetch k st max).st.fifo_data
        (fifo_read_fetch k st max).st.fifo_count (inv_icm42670_get_packet_size k st)
        (fifo_read_fetch k st max).st.fifo_count 0 = true →
      (inv_icm42670_buffer_fifo_read k st max out).2.fifo_nb_total ≤ max) := by
  cases hf : (fifo_read_fetch k st max).walk with
  | false =>
    rw [(fifo_read_no_walk k st max out hf).2.2]
    exact ⟨Nat.zero_le _, fun _ => Nat.zero_le _⟩
  | true =>
    obtain ⟨_, _, _, _, et⟩ := fifo_read_of_walk k st max out hf
    obtain ⟨_, _, zt⟩ := fifo_read_fetch_counters k st max hf
    have hcap := fifo_read_count_le_cap k st max hmax0 hmax hf
    have hw : fifo_read_walk k st max out =
        fifo_walk k (fifo_read_fetch k st max).st.fifo_count
          (fifo_read_fetch k st max).st.fifo_count 0
          (walk_init (fifo_read_fetch k st max).st out) := rfl
    have i3 : (walk_init (fifo_read_fetch k st max).st out).nb_total = 0 := zt
    have i4 : (walk_init (fifo_read_fetch k st max).st out).calls = [] := rfl
    rw [et, hw]
    constructor
    · obtain ⟨_, _, a3, _⟩ := fifo_walk_counts k (fifo_read_fetch k st max).st.fifo_count
        (fifo_read_fetch k st max).st.fifo_count 0
        (walk_init (fifo_read_fetch k st max).st out)
      have hc := fifo_walk_calls_le k (fifo_read_fetch k st max).st.fifo_count
        (fifo_read_fetch k st max).st.fifo_count 0
        (walk_init (fifo_read_fetch k st max).st out)
      rw [i3, i4] at a3
      rw [i4] at hc
      simp only [List.length_nil] at a3 hc
      rcases get_packet_size_cases k st with h | h <;> rw [h] at hcap <;> omega
    · intro hr
      have h := fifo_walk_total_sized k (fifo_read_fetch k st max).st.fifo_count
        (inv_icm42670_get_packet_size k st) (get_packet_size_cases k st)
        (fifo_read_fetch k st max).st.fifo_count 0
        (walk_init (fifo_read_fetch k st max).st out) hr
      rw [i3] at h
      rcases get_packet_size_cases k st with h8 | h16
      · rw [h8] at h hcap; omega
      · rw [h16] at h hcap; omega

/-- Witness of C35: the sample FIFO of 8-byte records drained with max hint 1 while the
dual 16-byte size is configured gives a total of at most 2. -/
theorem fifo_read_total_le_max_witness :
    (inv_icm42670_buffer_fifo_read sampleConsts (sampleDrainState 32 sampleFifoBad) 1
        out0).2.fifo_nb_total ≤ 2 * 1 ∧
    (inv_icm42670_buffer_fifo_read sampleConsts
        (sampleDrainState 32 (samplePacketDual ++ samplePacketDual)) 1
        out0).2.fifo_nb_total ≤ 1 :=
  ⟨(fifo_read_total_le_max sampleConsts (sampleDrainState 32 sampleFifoBad) 1 out0
      (by decide) (by decide)).1,
   (fifo_read_total_le_max sampleConsts
      (sampleDrainState 32 (samplePacketDual ++ samplePacketDual)) 1 out0
      (by decide) (by decide)).2 (by decide)⟩

/-- A byte of a dual-sensor record after the decoder has run on it in the buffer. -/
theorem rd8_decoded_dual (d : List Nat) (h i j : Nat) (hlen : i + j < d.length) :
    rd8 (d.take i ++ decode_fsync_fix h (d.drop i)) (i + j) =
      if j = 8 ∨ j = 10 ∨ j = 12 then
        2 * (rd8 d (i + j) / 2) + (if h / 4 % 4 = 3 then 1 else 0)
      else rd8 d (i + j) := by
  have hl : (d.drop i).length = d.length - i := List.length_drop i d
  rw [rd8, getD_take_append _ _ _ _ (decode_fsync_fix_length _ _), if_neg (by omega),
    show i + j - i = j by omega]
  have e := decode_fsync_fix_rd8 h (d.drop i) j
  rw [rd8] at e
  rw [e, rd8_drop]
  split_ifs with h1 h2 h3 <;> first | rfl | omega

/-- The validity test on the gyro triplet of a dual-sensor record that the decoder has
run on, the validity predicate rejecting exactly the triplets whose three values are
0x8000: with the fsync code 0b11 the test passes whatever the bytes are, and with another
code a triplet of three 0x8000 values fails it. -/
theorem sample_valid_dual (k : Consts) (d : List Nat) (i : Nat)
    (hvalid : ∀ x y z, k.fifo_is_data_valid x y z =
      !(x == 0x8000 && y == 0x8000 && z == 0x8000))
    (hlen : i + 13 ≤ d.length) :
    (rd8 d i / 4 % 4 = 3 →
      sample_valid k (d.take i ++ decode_fsync_fix (rd8 d i) (d.drop i)) i (some 7) = true) ∧
    (rd8 d i / 4 % 4 ≠ 3 → rd_be16 d (i + 7) = 0x8000 →
      rd_be16 d (i + 9) = 0x8000 → rd_be16 d (i + 11) = 0x8000 →
      sample_valid k (d.take i ++ decode_fsync_fix (rd8 d i) (d.drop i)) i (some 7) =
        false) := by
  have hb := fun j => rd8_lt d j
  have hx := rd8_decoded_dual d (rd8 d i) i
  refine ⟨?_, ?_⟩
  · intro hc
    have e8 := hx 8 (by omega)
    simp only [hc, if_true, true_or] at e8
    simp only [sample_valid, hvalid, sensor_data_x, rd_be16]
    have e8' : rd8 (d.take i ++ decode_fsync_fix (rd8 d i) (d.drop i))
        (i + 7 + 0 + 1) = 2 * (rd8 d (i + 8) / 2) + 1 := e8
    have hne : ¬ (256 * rd8 (d.take i ++
          decode_fsync_fix (rd8 d i) (d.drop i)) (i + 7 + 0) +
        rd8 (d.take i ++ decode_fsync_fix (rd8 d i) (d.drop i))
          (i + 7 + 0 + 1) = 0x8000) := by
      rw [e8']
      omega
    simp [hne]
  · intro hc hgx hgyy hgz
    have e7 := hx 7 (by omega)
    have e8 := hx 8 (by omega)
    have e9 := hx 9 (by omega)
    have e10 := hx 10 (by omega)
    have e11 := hx 11 (by omega)
    have e12 := hx 12 (by omega)
    simp only [hc, if_false, if_true, true_or, or_true, Nat.add_zero,
      show ¬ ((7 : Nat) = 8 ∨ (7 : Nat) = 10 ∨ (7 : Nat) = 12) by decide,
      show ¬ ((9 : Nat) = 8 ∨ (9 : Nat) = 10 ∨ (9 : Nat) = 12) by decide,
      show ¬ ((11 : Nat) = 8 ∨ (11 : Nat) = 10 ∨ (11 : Nat) = 12) by decide] at e7 e8 e9 e10 e11 e12
    simp only [rd_be16] at hgx hgyy hgz
    have b7 := hb (i + 7)
    have b8 := hb (i + 7 + 1)
    have b9 := hb (i + 9)
    have b10 := hb (i + 9 + 1)
    have b11 := hb (i + 11)
    have b12 := hb (i + 11 + 1)
    simp only [sample_valid, hvalid, sensor_data_x, sensor_data_y, sensor_data_z, rd_be16,
      Nat.add_zero]
    have ex : 256 * rd8 (d.take i ++
          decode_fsync_fix (rd8 d i) (d.drop i)) (i + 7) +
        rd8 (d.take i ++ decode_fsync_fix (rd8 d i) (d.drop i))
          (i + 7 + 1) = 0x8000 := by
      rw [e7, show i + 7 + 1 = i + 8 by omega, e8]
      rw [show i + 7 + 1 = i + 8 by omega] at hgx b8
      omega
    have ey : 256 * rd8 (d.take i ++
          decode_fsync_fix (rd8 d i) (d.drop i)) (i + 7 + 2) +
        rd8 (d.take i ++ decode_fsync_fix (rd8 d i) (d.drop i))
          (i + 7 + 2 + 1) = 0x8000 := by
      rw [show i + 7 + 2 = i + 9 by omega, e9, show i + 9 + 1 = i + 10 by omega, e10]
      rw [show i + 9 + 1 = i + 10 by omega] at hgyy b10
      omega
    have ez : 256 * rd8 (d.take i ++
          decode_fsync_fix (rd8 d i) (d.drop i)) (i + 7 + 4) +
        rd8 (d.take i ++ decode_fsync_fix (rd8 d i) (d.drop i))
          (i + 7 + 4 + 1) = 0x8000 := by
      rw [show i + 7 + 4 = i + 11 by omega, e11, show i + 11 + 1 = i + 12 by omega, e12]
      rw [show i + 11 + 1 = i + 12 by omega] at hgz b12
      omega
    simp [ex, ey, ez]

/-! ## The gyro count of the drain -/

/-- For a structurally valid record the result of the decoder does not depend on the
values that the out-parameters held. -/
theorem decode_out_indep (k : Consts) (p : List Nat) (out out2 : DecodeOut) (s : Nat)
    (h : record_size (rd8 p 0) = some s) :
    inv_icm42670_fifo_decode_packet k p out = inv_icm42670_fifo_decode_packet k p out2 := by
  rw [decode_cases k p out, decode_cases k p out2]
  unfold record_size at h
  revert h
  cases (rd8 p 0).testBit 7 <;> cases (rd8 p 0).testBit 6 <;>
    cases (rd8 p 0).testBit 5 <;> simp

/-- The decoder keeps the length of a structurally valid record. -/
theorem decode_packet_len (k : Consts) (p : List Nat) (out : DecodeOut) (s : Nat)
    (h : record_size (rd8 p 0) = some s) :
    (inv_icm42670_fifo_decode_packet k p out).packet.length = p.length := by
  obtain ⟨_, hs, h8, h16⟩ := decode_of_record_size k p out s h
  rcases hs with e | e
  · rw [h8 e]
  · rw [h16 e, decode_fsync_fix_length]

/-- A byte read in the part of the buffer that has been replaced. -/
theorem rd8_take_append (d p : List Nat) (i j : Nat) (hp : p.length = (d.drop i).length) :
    rd8 (d.take i ++ p) (i + j) = rd8 p j := by
  rw [rd8, getD_take_append d p i (i + j) hp, if_neg (by omega),
    show i + j - i = j by omega, rd8]

/-- The validity test on a record read in the buffer is the test on the record. -/
theorem sample_valid_shift (k : Consts) (d p : List Nat) (i : Nat) (g : Option Nat)
    (hp : p.length = (d.drop i).length) :
    sample_valid k (d.take i ++ p) i g = sample_valid k p 0 g := by
  cases g with
  | none => rfl
  | some off =>
    have e := fun j => rd8_take_append d p i j hp
    simp only [sample_valid, rd_be16, Nat.add_assoc, Nat.zero_add, e]

/-- The decoder leaves the bytes that follow a record as they are. -/
theorem walk_body_drop (k : Consts) (i t : Nat) (w : WalkState)
    (hr : record_size (rd8 w.data i) = some t) :
    (walk_body k i w).data.drop (i + t) = w.data.drop (i + t) := by
  have h0 : record_size (rd8 (w.data.drop i) 0) = some t := by rw [rd8_drop]; exact hr
  obtain ⟨_, hs, h8, h16⟩ := decode_of_record_size k (w.data.drop i) w.out t h0
  have hlen := decode_packet_len k (w.data.drop i) w.out t h0
  have hl : (w.data.drop i).length = w.data.length - i := List.length_drop i w.data
  rw [walk_body_data]
  apply list_eq_of_getD
  · simp only [List.length_drop, List.length_append, List.length_take, hlen]
    omega
  · intro j
    have g : ∀ (l : List Nat) (n m : Nat), (l.drop n).getD m 0 = l.getD (n + m) 0 := by
      intro l n m
      simp only [List.getD_eq_getElem?_getD, List.getElem?_drop]
    rw [g, g, getD_take_append _ _ _ _ hlen, if_neg (by omega),
      show i + t + j - i = t + j by omega]
    rcases hs with e | e
    · rw [h8 e, g, Nat.add_assoc]
    · rw [h16 e, decode_fsync_fix_getD, if_neg (by omega), if_neg (by omega), g,
        Nat.add_assoc]

/-- The count of gyro samples from offset i on only depends on the buffer from offset i
on. -/
theorem count_gyro_congr (k : Consts) (a b : List Nat) (c : Nat) :
    ∀ (fuel i : Nat), a.drop i = b.drop i →
      count_gyro k a c fuel i = count_gyro k b c fuel i := by
  intro fuel
  induction fuel with
  | zero => intro i _; rfl
  | succ f ih =>
    intro i h
    have hh : rd8 a i = rd8 b i := by
      have ea := rd8_drop a i 0
      have eb := rd8_drop b i 0
      rw [Nat.add_zero] at ea eb
      rw [← ea, ← eb, h]
    have hg : gyro_counted k a i = gyro_counted k b i := by
      unfold gyro_counted
      rw [h]
    have hd : ∀ t, a.drop (i + t) = b.drop (i + t) := by
      intro t
      have e1 : a.drop (i + t) = (a.drop i).drop t := by
        rw [List.drop_drop, Nat.add_comm]
      have e2 : b.drop (i + t) = (b.drop i).drop t := by
        rw [List.drop_drop, Nat.add_comm]
      rw [e1, e2, h]
    simp only [count_gyro, hh, hg]
    by_cases hi : i < c
    · rw [if_pos hi, if_pos hi]
      cases record_size (rd8 b i) with
      | none => rfl
      | some t =>
        show _ + count_gyro k a c f (i + t) = _ + count_gyro k b c f (i + t)
        rw [ih (i + t) (hd t)]
    · rw [if_neg hi, if_neg hi]

/-- No record starts at or beyond the count. -/
theorem count_gyro_ge (k : Consts) (data : List Nat) (c fuel i : Nat) (h : c ≤ i) :
    count_gyro k data c fuel i = 0 := by
  cases fuel with
  | zero => rfl
  | succ f =>
    simp only [count_gyro]
    rw [if_neg (by omega)]

/-- One step of the count at a structurally valid record. -/
theorem count_gyro_step (k : Consts) (data : List Nat) (c f i t : Nat) (hi : i < c)
    (hr : record_size (rd8 data i) = some t) :
    count_gyro k data c (f + 1) i =
      (if gyro_counted k data i then 1 else 0) + count_gyro k data c f (i + t) := by
  simp only [count_gyro]
  rw [if_pos hi, hr]

/-- The gyro counter at the end of the loop of lines 528-539: the counter on entry plus
the count over the records from index i. -/
theorem fifo_walk_nb_gyro (k : Consts) (c : Nat) :
    ∀ (fuel i : Nat) (w : WalkState),
      (fifo_walk k c fuel i w).nb_gyro = w.nb_gyro + count_gyro k w.data c fuel i := by
  intro fuel
  induction fuel with
  | zero => intro i w; rfl
  | succ f ih =>
    intro i w
    by_cases hi : i < c
    · cases hr : record_size (rd8 w.data i) with
      | none =>
        rw [fifo_walk_stop k c f i w hi hr]
        simp only [count_gyro]
        rw [if_pos hi, hr]
        rfl
      | some t =>
        have h0 : record_size (rd8 (w.data.drop i) 0) = some t := by
          rw [rd8_drop]; exact hr
        have hlen := decode_packet_len k (w.data.drop i) w.out t h0
        rw [fifo_walk_step k c f i t w hi hr, ih, count_gyro_step k w.data c f i t hi hr,
          count_gyro_congr k _ _ c f (i + t) (walk_body_drop k i t w hr), walk_body_gyro,
          sample_valid_shift k _ _ _ _ hlen]
        have hc : gyro_counted k w.data i = sample_valid k
            (inv_icm42670_fifo_decode_packet k (w.data.drop i) w.out).packet 0
            (inv_icm42670_fifo_decode_packet k (w.data.drop i) w.out).out.gyro := by
          unfold gyro_counted
          rw [decode_out_indep k (w.data.drop i) out0 w.out t h0]
        rw [hc]
        split_ifs <;> omega
    · have e : fifo_walk k c (f + 1) i w = w := by
        simp only [fifo_walk]
        rw [if_neg hi]
      rw [e, count_gyro_ge k w.data c (f + 1) i (by omega)]
      rfl

/-- The gyro count that inv_icm42670_buffer_fifo_read leaves when its loop runs: the
count over the records of the drained buffer. -/
theorem fifo_read_nb_gyro (k : Consts) (st : inv_icm42670_state) (max : Nat)
    (out : DecodeOut) (hf : (fifo_read_fetch k st max).walk = true) :
    (inv_icm42670_buffer_fifo_read k st max out).2.fifo_nb_gyro =
      count_gyro k (fifo_read_fetch k st max).st.fifo_data
        (fifo_read_fetch k st max).st.fifo_count
        (fifo_read_fetch k st max).st.fifo_count 0 := by
  obtain ⟨_, _, eg, _, _⟩ := fifo_read_of_walk k st max out hf
  obtain ⟨zg, _, _⟩ := fifo_read_fetch_counters k st max hf
  have hw : fifo_read_walk k st max out =
      fifo_walk k (fifo_read_fetch k st max).st.fifo_count
        (fifo_read_fetch k st max).st.fifo_count 0
        (walk_init (fifo_read_fetch k st max).st out) := rfl
  have i1 : (walk_init (fifo_read_fetch k st max).st out).nb_gyro = 0 := zg
  have i2 : (walk_init (fifo_read_fetch k st max).st out).data =
      (fifo_read_fetch k st max).st.fifo_data := rfl
  rw [eg, hw, fifo_walk_nb_gyro, i1, i2, Nat.zero_add]

/-- The test of line 534 on a dual-sensor record is the validity test on its gyro
triplet, at offset 7, after the decoder has rewritten the low bytes of the axes. -/
theorem gyro_counted_dual (k : Consts) (d : List Nat) (i : Nat)
    (h7 : (rd8 d i).testBit 7 = false) (h6 : (rd8 d i).testBit 6 = true)
    (h5 : (rd8 d i).testBit 5 = true) :
    record_size (rd8 d i) = some 16 ∧
    gyro_counted k d i =
      sample_valid k (d.take i ++ decode_fsync_fix (rd8 d i) (d.drop i)) i (some 7) := by
  have hrs : record_size (rd8 d i) = some 16 := by
    unfold record_size
    simp [h7, h6, h5]
  have h0 : record_size (rd8 (d.drop i) 0) = some 16 := by rw [rd8_drop]; exact hrs
  obtain ⟨_, _, _, hpk⟩ := decode_of_record_size k (d.drop i) out0 16 h0
  have hgy : (inv_icm42670_fifo_decode_packet k (d.drop i) out0).out.gyro = some 7 := by
    rw [decode_cases, rd8_drop, Nat.add_zero]
    simp [h7, h6, h5]
  refine ⟨hrs, ?_⟩
  unfold gyro_counted
  rw [hgy, hpk rfl, rd8_drop, Nat.add_zero,
    sample_valid_shift k d _ i (some 7) (decode_fsync_fix_length _ _)]

/-- C37: the validity predicate rejecting exactly the triplets whose three big-endian
16-bit values all equal 0x8000. The gyro count fifo.nb.gyro that
inv_icm42670_buffer_fifo_read leaves when its loop runs is the count of count_gyro over
the drained buffer, in which every record met by the walk counts for 1 exactly when the
test of line 534 passes on it. A dual-sensor record (header bit 7 clear, bits 6 and 5
set) at any offset i below the count, with its gyro axes inside the buffer, counts for 1
when its fsync code (header bits 3..2) is 0b11, whatever its gyro bytes are, and for 0
when the code is another one and its three gyro values are 0x8000. In particular a
drain of at most 16 bytes whose record is a dual-sensor record leaves the gyro count 1
when the code is 0b11 and the gyro count 0 when the code is another one and the three
gyro values are 0x8000. -/
theorem gyro_fsync_always_valid (k : Consts)
    (hvalid : ∀ x y z, k.fifo_is_data_valid x y z =
      !(x == 0x8000 && y == 0x8000 && z == 0x8000)) :
    (∀ (st : inv_icm42670_state) (max : Nat) (out : DecodeOut),
      (fifo_read_fetch k st max).walk = true →
      (inv_icm42670_buffer_fifo_read k st max out).2.fifo_nb_gyro =
        count_gyro k (fifo_read_fetch k st max).st.fifo_data
          (fifo_read_fetch k st max).st.fifo_count
          (fifo_read_fetch k st max).st.fifo_count 0) ∧
    (∀ (data : List Nat) (c f i : Nat), i < c →
      (rd8 data i).testBit 7 = false → (rd8 data i).testBit 6 = true →
      (rd8 data i).testBit 5 = true → i + 13 ≤ data.length →
      (rd8 data i / 4 % 4 = 3 →
        count_gyro k data c (f + 1) i = 1 + count_gyro k data c f (i + 16)) ∧
      (rd8 data i / 4 % 4 ≠ 3 → rd_be16 data (i + 7) = 0x8000 →
        rd_be16 data (i + 9) = 0x8000 → rd_be16 data (i + 11) = 0x8000 →
        count_gyro k data c (f + 1) i = count_gyro k data c f (i + 16))) ∧
    (∀ (st : inv_icm42670_state) (max : Nat) (out : DecodeOut),
      (fifo_read_fetch k st max).walk = true →
      0 < (fifo_read_fetch k st max).st.fifo_count →
      (fifo_read_fetch k st max).st.fifo_count ≤ 16 →
      (rd8 (fifo_read_fetch k st max).st.fifo_data 0).testBit 7 = false →
      (rd8 (fifo_read_fetch k st max).st.fifo_data 0).testBit 6 = true →
      (rd8 (fifo_read_fetch k st max).st.fifo_data 0).testBit 5 = true →
      13 ≤ (fifo_read_fetch k st max).st.fifo_data.length →
      (rd8 (fifo_read_fetch k st max).st.fifo_data 0 / 4 % 4 = 3 →
        (inv_icm42670_buffer_fifo_read k st max out).2.fifo_nb_gyro = 1) ∧
      (rd8 (fifo_read_fetch k st max).st.fifo_data 0 / 4 % 4 ≠ 3 →
        rd_be16 (fifo_read_fetch k st max).st.fifo_data 7 = 0x8000 →
        rd_be16 (fifo_read_fetch k st max).st.fifo_data 9 = 0x8000 →
        rd_be16 (fifo_read_fetch k st max).st.fifo_data 11 = 0x8000 →
        (inv_icm42670_buffer_fifo_read k st max out).2.fifo_nb_gyro = 0)) := by
  have hrec : ∀ (data : List Nat) (c f i : Nat), i < c →
      (rd8 data i).testBit 7 = false → (rd8 data i).testBit 6 = true →
      (rd8 data i).testBit 5 = true → i + 13 ≤ data.length →
      (rd8 data i / 4 % 4 = 3 →
        count_gyro k data c (f + 1) i = 1 + count_gyro k data c f (i + 16)) ∧
      (rd8 data i / 4 % 4 ≠ 3 → rd_be16 data (i + 7) = 0x8000 →
        rd_be16 data (i + 9) = 0x8000 → rd_be16 data (i + 11) = 0x8000 →
        count_gyro k data c (f + 1) i = count_gyro k data c f (i + 16)) := by
    intro data c f i hi h7 h6 h5 hlen
    obtain ⟨hrs, hg⟩ := gyro_counted_dual k data i h7 h6 h5
    obtain ⟨v1, v2⟩ := sample_valid_dual k data i hvalid hlen
    constructor
    · intro hc
      rw [count_gyro_step k data c f i 16 hi hrs, hg, v1 hc, if_pos rfl]
    · intro hc hx hy hz
      rw [count_gyro_step k data c f i 16 hi hrs, hg, v2 hc hx hy hz,
        if_neg (by decide), Nat.zero_add]
  refine ⟨fun st max out hf => fifo_read_nb_gyro k st max out hf, hrec, ?_⟩
  intro st max out hf hpos hle h7 h6 h5 hlen
  rw [fifo_read_nb_gyro k st max out hf]
  obtain ⟨f, hfu⟩ : ∃ f, (fifo_read_fetch k st max).st.fifo_count = f + 1 :=
    ⟨(fifo_read_fetch k st max).st.fifo_count - 1, by omega⟩
  have hz : count_gyro k (fifo_read_fetch k st max).st.fifo_data
      (fifo_read_fetch k st max).st.fifo_count f (0 + 16) = 0 :=
    count_gyro_ge k _ _ f (0 + 16) (by omega)
  obtain ⟨r1, r2⟩ := hrec (fifo_read_fetch k st max).st.fifo_data
    (fifo_read_fetch k st max).st.fifo_count f 0 hpos h7 h6 h5 (by omega)
  constructor
  · intro hc
    have e := r1 hc
    rw [hz] at e
    rw [← hfu] at e
    exact e
  · intro hc hx hy hz2
    have e := r2 hc (by rw [Nat.zero_add]; exact hx) (by rw [Nat.zero_add]; exact hy)
      (by rw [Nat.zero_add]; exact hz2)
    rw [hz] at e
    rw [← hfu] at e
    exact e

/-- Witness of C37: the drain of the sample FIFO, whose second record is a dual-sensor
record with the fsync code 0b11 and the three gyro axes equal to 0x8000, counts 2 gyro
samples, that record and the gyro-only record before it; the drain of that dual-sensor
record alone, into a buffer of 32 bytes, counts 1 gyro sample, and the drain of the same record with the fsync code
0b00 counts none. -/
theorem gyro_fsync_always_valid_witness :
    (inv_icm42670_buffer_fifo_read sampleConsts (sampleDrainState 48 sampleFifo) 0
      out0).2.fifo_nb_gyro = 2 ∧
    (inv_icm42670_buffer_fifo_read smallConsts (sampleDrainSmall 16 samplePacketDual) 0
      out0).2.fifo_nb_gyro = 1 ∧
    (inv_icm42670_buffer_fifo_read smallConsts (sampleDrainSmall 16 samplePacketDualPlain)
      0 out0).2.fifo_nb_gyro = 0 :=
  ⟨((gyro_fsync_always_valid sampleConsts (fun _ _ _ => rfl)).1
      (sampleDrainState 48 sampleFifo) 0 out0 (by decide)).trans (by decide),
   ((gyro_fsync_always_valid smallConsts (fun _ _ _ => rfl)).2.2
      (sampleDrainSmall 16 samplePacketDual) 0 out0 (by decide) (by decide) (by decide)
      (by decide) (by decide) (by decide) (by decide)).1 (by decide),
   ((gyro_fsync_always_valid smallConsts (fun _ _ _ => rfl)).2.2
      (sampleDrainSmall 16 samplePacketDualPlain) 0 out0 (by decide) (by decide)
      (by decide) (by decide) (by decide) (by decide) (by decide)).2 (by decide)
      (by decide) (by decide) (by decide)⟩

/-! ## Failures of the buffer callbacks -/

/-- The fields that inv_icm42670_buffer_postenable never writes. -/
theorem postenable_frame (k : Consts) (st : inv_icm42670_state) :
    (inv_icm42670_buffer_postenable k st).2.fifo_en = st.fifo_en ∧
    (inv_icm42670_buffer_postenable k st).2.fifo_watermark_gyro = st.fifo_watermark_gyro ∧
    (inv_icm42670_buffer_postenable k st).2.fifo_watermark_accel =
      st.fifo_watermark_accel := by
  simp only [inv_icm42670_buffer_postenable]
  split_ifs <;> exact ⟨rfl, rfl, rfl⟩

/-- The fields that inv_icm42670_buffer_predisable never writes. -/
theorem predisable_frame (k : Consts) (st : inv_icm42670_state) :
    (inv_icm42670_buffer_predisable k st).2.fifo_en = st.fifo_en ∧
    (inv_icm42670_buffer_predisable k st).2.fifo_watermark_gyro = st.fifo_watermark_gyro ∧
    (inv_icm42670_buffer_predisable k st).2.fifo_watermark_accel =
      st.fifo_watermark_accel := by
  simp only [inv_icm42670_buffer_predisable]
  split_ifs <;> exact ⟨rfl, rfl, rfl⟩

/-- A failing inv_icm42670_buffer_postenable leaves the counter as it was. -/
theorem postenable_fail_on (k : Consts) (st : inv_icm42670_state)
    (h : (inv_icm42670_buffer_postenable k st).1 ≠ 0) :
    (inv_icm42670_buffer_postenable k st).2.fifo_on = st.fifo_on := by
  by_cases h0 : st.fifo_on = 0
  · obtain ⟨e1, _, e3⟩ := postenable_seq k st h0
    rw [e3, if_neg (by rw [← e1]; exact h), h0]
  · rw [postenable_on k st h0] at h
    exact absurd rfl h

/-- A failing inv_icm42670_buffer_predisable leaves the counter as it was. -/
theorem predisable_fail_on (k : Consts) (st : inv_icm42670_state)
    (h : (inv_icm42670_buffer_predisable k st).1 ≠ 0) :
    (inv_icm42670_buffer_predisable k st).2.fifo_on = st.fifo_on := by
  by_cases h1 : st.fifo_on > 1
  · rw [predisable_several k st h1] at h
    exact absurd rfl h
  · obtain ⟨e1, _, e3⟩ := predisable_seq k st h1
    rw [e3, if_neg (by rw [← e1]; exact h)]

/-- A failing inv_icm42670_buffer_set_fifo_en leaves the lifecycle fields as they
were. -/
theorem set_fifo_en_fail (k : Consts) (st : inv_icm42670_state) (en : Nat)
    (h : (inv_icm42670_buffer_set_fifo_en k st en).1 ≠ 0) :
    lifecycle_fields (inv_icm42670_buffer_set_fifo_en k st en).2 = lifecycle_fields st := by
  by_cases hr : (regmap_update_bits st.map k.FIFO_CONFIG5_MREG1 (fifo_en_mask k)
      (fifo_en_val k en)).1 ≠ 0
  · simp only [inv_icm42670_buffer_set_fifo_en]
    rw [if_pos hr]
    rfl
  · simp only [inv_icm42670_buffer_set_fifo_en] at h
    rw [if_neg hr] at h
    exact absurd rfl h

/-- Lines 436-475 leave the lifecycle fields either as they were or as lines 438-442
store them; a call that returns 0 leaves them as stored. -/
theorem postdisable_locked_fields (k : Consts) (c : Collaborators) (st : inv_icm42670_state)
    (sensor : Nat) (g : Bool) :
    (lifecycle_fields (postdisable_locked k c st sensor g).2 = lifecycle_fields st ∨
      lifecycle_fields (postdisable_locked k c st sensor g).2 =
        (st.fifo_on, and_not st.fifo_en sensor,
          (if g then 0 else st.fifo_watermark_gyro),
          (if g then st.fifo_watermark_accel else 0))) ∧
    ((postdisable_locked k c st sensor g).1 = 0 →
      lifecycle_fields (postdisable_locked k c st sensor g).2 =
        (st.fifo_on, and_not st.fifo_en sensor,
          (if g then 0 else st.fifo_watermark_gyro),
          (if g then st.fifo_watermark_accel else 0))) := by
  by_cases h1 : (inv_icm42670_buffer_set_fifo_en k st (and_not st.fifo_en sensor)).1 ≠ 0
  · have hp : postdisable_locked k c st sensor g =
        inv_icm42670_buffer_set_fifo_en k st (and_not st.fifo_en sensor) := by
      simp only [postdisable_locked]
      rw [if_pos h1]
    rw [hp]
    exact ⟨Or.inl (set_fifo_en_fail k st _ h1), fun h => absurd h h1⟩
  · obtain ⟨s1, s2, s3, _, _, s6, _⟩ :=
      set_fifo_en_ok k st (and_not st.fifo_en sensor) (not_not.mp h1)
    obtain ⟨_, c2, c3, c4, _, _, c7⟩ := clear_watermark_fields
      (inv_icm42670_buffer_set_fifo_en k st (and_not st.fifo_en sensor)).2 g
    obtain ⟨u1, u2, u3, u4⟩ := update_watermark_frame k (clear_watermark
      (inv_icm42670_buffer_set_fifo_en k st (and_not st.fifo_en sensor)).2 g)
    rw [c2, s1] at u1
    rw [c3, s2] at u2
    rw [c4, s3] at u3
    rw [c7, s6] at u4
    have hnew : lifecycle_fields (postdisable_locked k c st sensor g).2 =
        (st.fifo_on, and_not st.fifo_en sensor,
          (if g then 0 else st.fifo_watermark_gyro),
          (if g then st.fifo_watermark_accel else 0)) := by
      simp only [postdisable_locked]
      rw [if_neg h1]
      generalize inv_icm42670_buffer_update_watermark k (clear_watermark
        (inv_icm42670_buffer_set_fifo_en k st (and_not st.fifo_en sensor)).2 g) = R
        at u1 u2 u3 u4 ⊢
      generalize (if sensor = k.SENSOR_GYRO then c.set_gyro_conf_off R.2.map
          else c.set_accel_conf_off R.2.map) = r3
      have hR : lifecycle_fields R.2 = (st.fifo_on, and_not st.fifo_en sensor,
          (if g then 0 else st.fifo_watermark_gyro),
          (if g then st.fifo_watermark_accel else 0)) := by
        simp only [lifecycle_fields, u1, u2, u3, u4]
      rw [← hR]
      split_ifs <;> rfl
    exact ⟨Or.inr hnew, fun _ => hnew⟩

/-- C31: a failing inv_icm42670_buffer_postenable and a failing
inv_icm42670_buffer_predisable leave the counter fifo.on, the FIFO enable mask and the two
desired watermarks as they were before the call. A failing
inv_icm42670_buffer_postdisable leaves these four fields either all as they were before
the call or all as postdisable_fields gives them, and these are the values that every
call returning 0 on the same software state produces, whatever the transport and the
power control functions are. -/
theorem lifecycle_all_or_nothing (k : Consts) (c : Collaborators) (st : inv_icm42670_state)
    (d : Nat) :
    ((inv_icm42670_buffer_postenable k st).1 ≠ 0 →
      lifecycle_fields (inv_icm42670_buffer_postenable k st).2 = lifecycle_fields st) ∧
    ((inv_icm42670_buffer_predisable k st).1 ≠ 0 →
      lifecycle_fields (inv_icm42670_buffer_predisable k st).2 = lifecycle_fields st) ∧
    ((inv_icm42670_buffer_postdisable k c st d).1 ≠ 0 →
      lifecycle_fields (inv_icm42670_buffer_postdisable k c st d).2 = lifecycle_fields st ∨
      lifecycle_fields (inv_icm42670_buffer_postdisable k c st d).2 =
        postdisable_fields k st d) ∧
    (∀ (c2 : Collaborators) (map2 : Regmap),
      (inv_icm42670_buffer_postdisable k c2 { st with map := map2 } d).1 = 0 →
      lifecycle_fields (inv_icm42670_buffer_postdisable k c2 { st with map := map2 } d).2 =
        postdisable_fields k st d) := by
  refine ⟨?_, ?_, ?_, ?_⟩
  · intro h
    obtain ⟨a, b, c3⟩ := postenable_frame k st
    simp only [lifecycle_fields, a, b, c3, postenable_fail_on k st h]
  · intro h
    obtain ⟨a, b, c3⟩ := predisable_frame k st
    simp only [lifecycle_fields, a, b, c3, predisable_fail_on k st h]
  · intro _
    unfold inv_icm42670_buffer_postdisable postdisable_fields
    by_cases hg : d = st.indio_gyro
    · rw [if_pos hg, if_pos hg]
      exact (postdisable_locked_fields k c st k.SENSOR_GYRO true).1
    · rw [if_neg hg, if_neg hg]
      by_cases ha : d = st.indio_accel
      · rw [if_pos ha, if_pos ha]
        exact (postdisable_locked_fields k c st k.SENSOR_ACCEL false).1
      · rw [if_neg ha, if_neg ha]
        exact Or.inl rfl
  · intro c2 map2 h
    unfold inv_icm42670_buffer_postdisable postdisable_fields at *
    by_cases hg : d = st.indio_gyro
    · rw [if_pos hg] at h ⊢
      rw [if_pos hg]
      exact (postdisable_locked_fields k c2 { st with map := map2 } k.SENSOR_GYRO true).2 h
    · rw [if_neg hg] at h ⊢
      rw [if_neg hg]
      by_cases ha : d = st.indio_accel
      · rw [if_pos ha] at h ⊢
        rw [if_pos ha]
        exact (postdisable_locked_fields k c2 { st with map := map2 } k.SENSOR_ACCEL false).2 h
      · rw [if_neg ha] at h
        have hne : (-(EINVAL : Int)) ≠ 0 := by unfold EINVAL; decide
        exact absurd h hne

/-- Witness of C31: on the sample state a postdisable for the gyro device whose
watermark update fails (the second transport operation returns -5) leaves the mask 2 and
the watermarks 0 and 6, which is what the call that succeeds produces; a postenable whose
third operation fails leaves the four fields as they were. -/
theorem lifecycle_all_or_nothing_witness :
    lifecycle_fields (inv_icm42670_buffer_postenable sampleConsts
      (sampleBypassed [0, 0, -5])).2 = lifecycle_fields (sampleBypassed [0, 0, -5]) ∧
    (lifecycle_fields (inv_icm42670_buffer_postdisable sampleConsts sampleCollab
        (sampleBypassed [0, -5]) 1).2 = lifecycle_fields (sampleBypassed [0, -5]) ∨
      lifecycle_fields (inv_icm42670_buffer_postdisable sampleConsts sampleCollab
        (sampleBypassed [0, -5]) 1).2 =
        postdisable_fields sampleConsts (sampleBypassed [0, -5]) 1) ∧
    lifecycle_fields (inv_icm42670_buffer_postdisable sampleConsts sampleCollab
        { sampleBypassed [0, -5] with map := sampleMap } 1).2 =
      postdisable_fields sampleConsts (sampleBypassed [0, -5]) 1 :=
  ⟨(lifecycle_all_or_nothing sampleConsts sampleCollab (sampleBypassed [0, 0, -5]) 1).1
      (by decide),
   (lifecycle_all_or_nothing sampleConsts sampleCollab (sampleBypassed [0, -5]) 1).2.2.1
      (by decide),
   (lifecycle_all_or_nothing sampleConsts sampleCollab (sampleBypassed [0, -5]) 1).2.2.2
      sampleCollab sampleMap (by decide)⟩

/-! ## The FIFO mode register along the buffer callbacks -/

/-- A failed operation changes no register. -/
theorem exec_regs_fail (op : RegOp) (map : Regmap) (h : map.next ≠ 0) :
    (op.exec map).2.regs = map.regs := by
  cases op <;>
    simp only [RegOp.exec, regmap_update_bits, regmap_update_bits_check, regmap_write,
      regmap_bulk_read, regmap_bulk_write, regmap_noinc_read] <;>
    split_ifs <;> rfl

/-- An operation leaves the registers that it does not touch as they are. -/
theorem exec_regs_other (op : RegOp) (map : Regmap) (r : Nat) (h : ¬ op.touches r) :
    (op.exec map).2.regs r = map.regs r := by
  cases op with
  | update_bits reg mask val =>
    simp only [RegOp.touches] at h
    simp only [RegOp.exec, regmap_update_bits, regmap_update_bits_check]
    split_ifs
    · rfl
    · exact Function.update_noteq h _ _
  | write reg val =>
    simp only [RegOp.touches] at h
    simp only [RegOp.exec, regmap_write]
    split_ifs
    · rfl
    · exact Function.update_noteq h _ _
  | bulk_read reg count =>
    simp only [RegOp.exec, regmap_bulk_read]
    split_ifs <;> rfl
  | bulk_write reg bytes =>
    simp only [RegOp.touches] at h
    simp only [RegOp.exec, regmap_bulk_write]
    split_ifs
    · rfl
    · exact store_bytes_other bytes _ _ _ (by omega)
  | noinc_read reg count =>
    simp only [RegOp.exec, regmap_noinc_read]
    split_ifs <;> rfl

/-- A successful write stores the value. -/
theorem exec_write_regs (map : Regmap) (reg val : Nat) (h : map.next = 0) :
    ((RegOp.write reg val).exec map).2.regs reg = val := by
  show (regmap_write map reg val).2.regs reg = val
  rw [regmap_write_ok map reg val h]
  exact Function.update_same _ _ _

/-- A sequence of operations leaves a register that none of them touches as it is. -/
theorem regmap_seq_regs_other (r : Nat) (ops : List RegOp) :
    ∀ (map : Regmap), (∀ op ∈ ops, ¬ op.touches r) →
      (regmap_seq map ops).2.regs r = map.regs r := by
  induction ops with
  | nil => intro map _; rfl
  | cons op ops ih =>
    intro map h
    have h1 := exec_regs_other op map r (h op (List.mem_cons_self _ _))
    by_cases hf : (op.exec map).1 ≠ 0
    · rw [regmap_seq, if_pos hf]
      exact h1
    · rw [regmap_seq, if_neg hf, ih _ (fun o ho => h o (List.mem_cons_of_mem _ ho)), h1]

/-- A sequence whose first part succeeds continues with the second part. -/
theorem regmap_seq_append_ok (xs ys : List RegOp) :
    ∀ (map : Regmap), (regmap_seq map xs).1 = 0 →
      regmap_seq map (xs ++ ys) = regmap_seq (regmap_seq map xs).2 ys := by
  induction xs with
  | nil => intro map _; rfl
  | cons x xs ih =>
    intro map h
    by_cases h1 : (x.exec map).1 ≠ 0
    · rw [regmap_seq, if_pos h1] at h
      exact absurd h h1
    · have hx : regmap_seq map (x :: xs) = regmap_seq (x.exec map).2 xs := by
        rw [regmap_seq, if_neg h1]
      have hxy : regmap_seq map (x :: (xs ++ ys)) =
          regmap_seq (x.exec map).2 (xs ++ ys) := by
        rw [regmap_seq, if_neg h1]
      rw [hx] at h ⊢
      rw [List.cons_append, hxy]
      exact ih _ h

/-- A sequence whose first part fails stops there. -/
theorem regmap_seq_append_fail (xs ys : List RegOp) :
    ∀ (map : Regmap), (regmap_seq map xs).1 ≠ 0 →
      regmap_seq map (xs ++ ys) = regmap_seq map xs := by
  induction xs with
  | nil => intro map h; exact absurd rfl h
  | cons x xs ih =>
    intro map h
    by_cases h1 : (x.exec map).1 ≠ 0
    · rw [List.cons_append, regmap_seq, if_pos h1, regmap_seq, if_pos h1]
    · have hx : regmap_seq map (x :: xs) = regmap_seq (x.exec map).2 xs := by
        rw [regmap_seq, if_neg h1]
      have hxy : regmap_seq map (x :: (xs ++ ys)) =
          regmap_seq (x.exec map).2 (xs ++ ys) := by
        rw [regmap_seq, if_neg h1]
      rw [hx] at h ⊢
      rw [List.cons_append, hxy]
      exact ih _ h

/-- A sequence that returns 0 and whose operations after a write do not touch the
written register leaves the written value in it. -/
theorem regmap_seq_write_ok (xs ys : List RegOp) (reg val : Nat) (map : Regmap)
    (h : (regmap_seq map (xs ++ RegOp.write reg val :: ys)).1 = 0)
    (hys : ∀ op ∈ ys, ¬ op.touches reg) :
    (regmap_seq map (xs ++ RegOp.write reg val :: ys)).2.regs reg = val := by
  by_cases hx : (regmap_seq map xs).1 = 0
  · rw [regmap_seq_append_ok xs _ map hx] at h ⊢
    by_cases h1 : ((RegOp.write reg val).exec (regmap_seq map xs).2).1 ≠ 0
    · rw [regmap_seq, if_pos h1] at h
      exact absurd h h1
    · rw [regmap_seq, if_neg h1, regmap_seq_regs_other reg ys _ hys]
      exact exec_write_regs _ reg val
        (by rw [← exec_ret (RegOp.write reg val)]; exact not_not.mp h1)
  · rw [regmap_seq_append_fail xs _ map hx] at h
    exact absurd h hx

/-- A sequence of which the operation at index i is the first to fail leaves a register
that the operations before it do not touch as it is. -/
theorem regmap_seq_fail_regs (r : Nat) (ops : List RegOp) :
    ∀ (i : Nat) (map : Regmap) (e : Int) (rest : List Int),
      map.errs = List.replicate i 0 ++ e :: rest → e ≠ 0 → i < ops.length →
      (∀ op ∈ ops.take i, ¬ op.touches r) →
      (regmap_seq map ops).2.regs r = map.regs r := by
  induction ops with
  | nil => intro i map e rest _ _ hi; exact absurd hi (Nat.not_lt_zero i)
  | cons op ops ih =>
    intro i map e rest herrs he hi h
    cases i with
    | zero =>
      have hn : map.next = e := by
        unfold Regmap.next
        rw [herrs]
        rfl
      have h1 : (op.exec map).1 ≠ 0 := by rw [exec_ret, hn]; exact he
      rw [regmap_seq, if_pos h1, exec_regs_fail op map (by rw [hn]; exact he)]
    | succ i =>
      have hn : map.next = 0 := by
        unfold Regmap.next
        rw [herrs]
        rfl
      have h1 : ¬ (op.exec map).1 ≠ 0 := by rw [exec_ret, hn]; exact fun h => h rfl
      have herrs2 : (op.exec map).2.errs = List.replicate i 0 ++ e :: rest := by
        rw [exec_errs, herrs]
        rfl
      have h' : ∀ o ∈ op :: List.take i ops, ¬ o.touches r := h
      rw [regmap_seq, if_neg h1, ih i (op.exec map).2 e rest herrs2 he
        (by simp only [List.length_cons] at hi; omega)
        (fun o ho => h' o (List.mem_cons_of_mem _ ho))]
      exact exec_regs_other op map r (h' op (List.mem_cons_self _ _))

/-- A first enable that returns 0 leaves the streaming value in the mode register. -/
theorem postenable_mode_ok (k : Consts) (st : inv_icm42670_state) (h0 : st.fifo_on = 0)
    (hret : (inv_icm42670_buffer_postenable k st).1 = 0)
    (hd3 : k.FSYNC_CONFIG_MREG1 ≠ k.FIFO_CONFIG1) :
    streaming k (inv_icm42670_buffer_postenable k st).2 := by
  obtain ⟨e1, e2, _⟩ := postenable_seq k st h0
  unfold streaming
  rw [e2]
  rw [e1] at hret
  exact regmap_seq_write_ok
    [RegOp.update_bits k.INT_SOURCE0 k.INT_SOURCE0_FIFO_THS_INT1_EN_MASK
       k.INT_SOURCE0_FIFO_THS_INT1_EN,
     RegOp.write k.SIGNAL_PATH_RESET k.SIGNAL_PATH_RESET_FIFO_FLUSH_EN]
    [RegOp.bulk_read k.FIFO_COUNTH 2,
     RegOp.update_bits k.FSYNC_CONFIG_MREG1 k.FSYNC_CONFIG_FSYNC_POLARITY_MASK
       k.FSYNC_CONFIG_FSYNC_POLARITY_MASK]
    k.FIFO_CONFIG1 (k.FIFO_CONFIG1_FIFO_BYPASS_OFF ||| k.FIFO_CONFIG1_FIFO_MODE_STREAM)
    st.map hret
    (by
      intro op hop
      simp only [List.mem_cons, List.mem_singleton, List.not_mem_nil, or_false] at hop
      rcases hop with rfl | rfl
      · exact fun h => h
      · exact fun h => hd3 h.symm)

/-- A first enable that fails at one of its first three operations leaves the mode
register and the counter as they were. -/
theorem postenable_mode_fail (k : Consts) (st : inv_icm42670_state) (i : Nat) (e : Int)
    (rest : List Int) (h0 : st.fifo_on = 0)
    (herrs : st.map.errs = List.replicate i 0 ++ e :: rest) (he : e ≠ 0) (hi : i ≤ 2)
    (hd1 : k.INT_SOURCE0 ≠ k.FIFO_CONFIG1) (hd2 : k.SIGNAL_PATH_RESET ≠ k.FIFO_CONFIG1) :
    (inv_icm42670_buffer_postenable k st).2.map.regs k.FIFO_CONFIG1 =
      st.map.regs k.FIFO_CONFIG1 ∧
    (inv_icm42670_buffer_postenable k st).2.fifo_on = 0 := by
  obtain ⟨_, e2, e3⟩ := postenable_seq k st h0
  have hlen : i < (postenable_ops k).length := by
    show i < 5
    omega
  obtain ⟨a, _, _⟩ := regmap_seq_fail (postenable_ops k) i st.map e rest herrs he hlen
  refine ⟨?_, by rw [e3, if_neg (by rw [a]; exact he)]⟩
  rw [e2]
  apply regmap_seq_fail_regs k.FIFO_CONFIG1 (postenable_ops k) i st.map e rest herrs he hlen
  intro op hop
  have hsub : op ∈ List.take 2 (postenable_ops k) :=
    List.take_subset_take_left (postenable_ops k) hi hop
  have hsub2 : op ∈ [RegOp.update_bits k.INT_SOURCE0 k.INT_SOURCE0_FIFO_THS_INT1_EN_MASK
       k.INT_SOURCE0_FIFO_THS_INT1_EN,
     RegOp.write k.SIGNAL_PATH_RESET k.SIGNAL_PATH_RESET_FIFO_FLUSH_EN] := hsub
  simp only [List.mem_cons, List.mem_singleton, List.not_mem_nil, or_false] at hsub2
  rcases hsub2 with rfl | rfl
  · exact fun h => hd1 h.symm
  · exact fun h => hd2 h.symm

/-- A last disable that returns 0 leaves the bypass value in the mode register. -/
theorem predisable_mode_ok (k : Consts) (st : inv_icm42670_state) (h1 : ¬ st.fifo_on > 1)
    (hret : (inv_icm42670_buffer_predisable k st).1 = 0)
    (hd1 : k.INT_SOURCE0 ≠ k.FIFO_CONFIG1) (hd2 : k.SIGNAL_PATH_RESET ≠ k.FIFO_CONFIG1) :
    (inv_icm42670_buffer_predisable k st).2.map.regs k.FIFO_CONFIG1 =
      k.FIFO_CONFIG1_FIFO_BYPASS_ON := by
  obtain ⟨e1, e2, _⟩ := predisable_seq k st h1
  rw [e2]
  rw [e1] at hret
  exact regmap_seq_write_ok []
    [RegOp.write k.SIGNAL_PATH_RESET k.SIGNAL_PATH_RESET_FIFO_FLUSH_EN,
     RegOp.update_bits k.INT_SOURCE0 k.INT_SOURCE0_FIFO_THS_INT1_EN_MASK 0]
    k.FIFO_CONFIG1 k.FIFO_CONFIG1_FIFO_BYPASS_ON st.map hret
    (by
      intro op hop
      simp only [List.mem_cons, List.mem_singleton, List.not_mem_nil, or_false] at hop
      rcases hop with rfl | rfl
      · exact fun h => hd2 h.symm
      · exact fun h => hd1 h.symm)

/-- A last disable whose first operation fails leaves the mode register and the counter
as they were. -/
theorem predisable_mode_fail (k : Consts) (st : inv_icm42670_state) (h1 : ¬ st.fifo_on > 1)
    (hn : st.map.next ≠ 0) :
    (inv_icm42670_buffer_predisable k st).2.map.regs k.FIFO_CONFIG1 =
      st.map.regs k.FIFO_CONFIG1 ∧
    (inv_icm42670_buffer_predisable k st).2.fifo_on = st.fifo_on := by
  obtain ⟨_, e2, e3⟩ := predisable_seq k st h1
  have hf : ((RegOp.write k.FIFO_CONFIG1 k.FIFO_CONFIG1_FIFO_BYPASS_ON).exec st.map).1 ≠ 0 := by
    rw [exec_ret]; exact hn
  have hs : regmap_seq st.map (predisable_ops k) =
      (RegOp.write k.FIFO_CONFIG1 k.FIFO_CONFIG1_FIFO_BYPASS_ON).exec st.map := by
    unfold predisable_ops
    rw [regmap_seq, if_pos hf]
  rw [e2, e3, hs, if_neg hf, exec_regs_fail _ _ hn]
  exact ⟨rfl, rfl⟩

/-- Any number of enables leads to a reachable state. -/
theorem reachable_enable_times (k : Consts) (st0 : inv_icm42670_state) :
    ∀ (n : Nat) (s : inv_icm42670_state), Reachable k st0 s →
      Reachable k st0 (enable_times k n s) := by
  intro n
  induction n with
  | zero => intro s h; exact h
  | succ n ih => intro s h; exact ih _ (Reachable.enable s h)

/-- The unsigned counter wraps: with every transport operation succeeding,
2 ^ 32 enables from the counter 0 lead to the counter 0 with the mode register holding
the streaming value. -/
theorem enable_wrap (k : Consts) (st0 : inv_icm42670_state) (m : Nat)
    (hm : m + 1 = U32_MOD) (h0 : st0.fifo_on = 0) (hok : ∀ e ∈ st0.map.errs, e = 0)
    (hd3 : k.FSYNC_CONFIG_MREG1 ≠ k.FIFO_CONFIG1) :
    Reachable k st0 (inv_icm42670_buffer_postenable k (enable_times k m st0)).2 ∧
    (inv_icm42670_buffer_postenable k (enable_times k m st0)).2.fifo_on = 0 ∧
    streaming k (inv_icm42670_buffer_postenable k (enable_times k m st0)).2 := by
  refine ⟨Reachable.enable _ (reachable_enable_times k st0 m st0 Reachable.init), ?_⟩
  cases m with
  | zero => exact absurd hm (by unfold U32_MOD; decide)
  | succ n =>
    obtain ⟨a, b, _, _⟩ := postenable_first_ok k st0 h0 hok
    have hs := postenable_mode_ok k st0 h0 a hd3
    obtain ⟨c, d⟩ := enable_times_on k n (inv_icm42670_buffer_postenable k st0).2
      (by rw [b]; decide) (by rw [b]; omega)
    have hstep : enable_times k (n + 1) st0 =
        enable_times k n (inv_icm42670_buffer_postenable k st0).2 := rfl
    rw [hstep]
    have hon : (enable_times k n (inv_icm42670_buffer_postenable k st0).2).fifo_on =
        U32_MAX := by
      rw [c, b]
      unfold U32_MAX
      omega
    rw [postenable_on k _ (by rw [hon]; unfold U32_MAX U32_MOD; decide)]
    refine ⟨?_, ?_⟩
    · show ((enable_times k n (inv_icm42670_buffer_postenable k st0).2).fifo_on + 1) %
        U32_MOD = 0
      rw [hon]
      exact inc_u32_max
    · unfold streaming at hs ⊢
      show (enable_times k n (inv_icm42670_buffer_postenable k st0).2).map.regs
        k.FIFO_CONFIG1 = stream_mode k
      rw [d]
      exact hs

/-- The counter and the mode register agree in every state reached by calls that
return 0 or fail not later than their write of the mode register. -/
theorem clean_invariant (k : Consts) (st0 s : inv_icm42670_state)
    (h0 : st0.fifo_on = 0) (hmode : ¬ streaming k st0)
    (hd1 : k.INT_SOURCE0 ≠ k.FIFO_CONFIG1) (hd2 : k.SIGNAL_PATH_RESET ≠ k.FIFO_CONFIG1)
    (hd3 : k.FSYNC_CONFIG_MREG1 ≠ k.FIFO_CONFIG1)
    (hval : k.FIFO_CONFIG1_FIFO_BYPASS_ON ≠ stream_mode k)
    (hr : ReachableClean k st0 s) :
    s.fifo_on < U32_MOD ∧ (streaming k s ↔ 0 < s.fifo_on) := by
  induction hr with
  | init =>
    refine ⟨by rw [h0]; unfold U32_MOD; decide, ?_⟩
    rw [h0]
    exact ⟨fun h => absurd h hmode, fun h => absurd h (Nat.lt_irrefl 0)⟩
  | enable_ok s _ hlt hret ih =>
    obtain ⟨_, ih2⟩ := ih
    by_cases hz : s.fifo_on = 0
    · obtain ⟨e1, _, e3⟩ := postenable_seq k s hz
      have hon : (inv_icm42670_buffer_postenable k s).2.fifo_on = 1 := by
        rw [e3, if_pos (by rw [← e1]; exact hret)]
      rw [hon]
      exact ⟨by unfold U32_MOD; decide,
        fun _ => Nat.one_pos, fun _ => postenable_mode_ok k s hz hret hd3⟩
    · rw [postenable_on k s hz]
      have hm : (s.fifo_on + 1) % U32_MOD = s.fifo_on + 1 := Nat.mod_eq_of_lt hlt
      refine ⟨?_, ?_⟩
      · show (s.fifo_on + 1) % U32_MOD < U32_MOD
        rw [hm]
        exact hlt
      · have hstr : streaming k s := ih2.mpr (Nat.pos_of_ne_zero hz)
        constructor
        · intro _
          show 0 < (s.fifo_on + 1) % U32_MOD
          rw [hm]
          exact Nat.succ_pos _
        · intro _
          exact hstr
  | enable_fail s i e rest _ hz herrs he hi ih =>
    obtain ⟨_, ih2⟩ := ih
    obtain ⟨a, b⟩ := postenable_mode_fail k s i e rest hz herrs he hi hd1 hd2
    rw [b]
    refine ⟨by unfold U32_MOD; decide, ?_⟩
    have hns : ¬ streaming k s := fun h => by
      have := ih2.mp h
      omega
    constructor
    · intro h
      unfold streaming at h hns
      rw [a] at h
      exact absurd h hns
    · intro h
      exact absurd h (Nat.lt_irrefl 0)
  | disable_ok s _ hpos hret ih =>
    obtain ⟨ih1, ih2⟩ := ih
    have hdec : (U32_MAX + s.fifo_on) % U32_MOD = s.fifo_on - 1 := dec_u32 _ hpos ih1
    by_cases h1 : s.fifo_on > 1
    · rw [predisable_several k s h1]
      refine ⟨?_, ?_⟩
      · show (U32_MAX + s.fifo_on) % U32_MOD < U32_MOD
        rw [hdec]
        omega
      · constructor
        · intro _
          show 0 < (U32_MAX + s.fifo_on) % U32_MOD
          rw [hdec]
          omega
        · intro _
          exact ih2.mpr hpos
    · obtain ⟨e1, _, e3⟩ := predisable_seq k s h1
      have hon : (inv_icm42670_buffer_predisable k s).2.fifo_on = 0 := by
        rw [e3, if_pos (by rw [← e1]; exact hret), hdec]
        omega
      have hreg := predisable_mode_ok k s h1 hret hd1 hd2
      rw [hon]
      refine ⟨by unfold U32_MOD; decide, ?_⟩
      constructor
      · intro h
        unfold streaming at h
        rw [hreg] at h
        exact absurd h hval
      · intro h
        exact absurd h (Nat.lt_irrefl 0)
  | disable_fail s _ hone hn ih =>
    obtain ⟨ih1, ih2⟩ := ih
    obtain ⟨a, b⟩ := predisable_mode_fail k s (by omega) hn
    rw [b]
    refine ⟨ih1, ?_⟩
    unfold streaming at ih2 ⊢
    rw [a]
    exact ih2


/-- C32, counterexample: four reachable states in which the counter fifo.on and the mode
register disagree, all from the sample state with the counter 0 and the FIFO bypassed.
An enable whose fourth operation (the read of the count register) fails has written the
streaming mode and leaves the counter 0. An enable followed by a disable whose second
operation (the flush) fails has written the bypass mode and leaves the counter 1. A
disable at the counter 0 writes the bypass mode and wraps the counter to U32_MAX. And
2 ^ 32 enables, all succeeding, wrap the counter to 0 with the FIFO streaming. -/
theorem streaming_iff_on_fails :
    (Reachable sampleConsts (sampleBypassed [0, 0, 0, -5])
        (inv_icm42670_buffer_postenable sampleConsts (sampleBypassed [0, 0, 0, -5])).2 ∧
      (sampleBypassed [0, 0, 0, -5]).fifo_on = 0 ∧
      ¬ streaming sampleConsts (sampleBypassed [0, 0, 0, -5]) ∧
      (inv_icm42670_buffer_postenable sampleConsts (sampleBypassed [0, 0, 0, -5])).1 = -5 ∧
      streaming sampleConsts
        (inv_icm42670_buffer_postenable sampleConsts (sampleBypassed [0, 0, 0, -5])).2 ∧
      (inv_icm42670_buffer_postenable sampleConsts
        (sampleBypassed [0, 0, 0, -5])).2.fifo_on = 0) ∧
    (Reachable sampleConsts (sampleBypassed [0, 0, 0, 0, 0, 0, -5])
        (inv_icm42670_buffer_predisable sampleConsts (inv_icm42670_buffer_postenable
          sampleConsts (sampleBypassed [0, 0, 0, 0, 0, 0, -5])).2).2 ∧
      (inv_icm42670_buffer_predisable sampleConsts (inv_icm42670_buffer_postenable
          sampleConsts (sampleBypassed [0, 0, 0, 0, 0, 0, -5])).2).1 = -5 ∧
      ¬ streaming sampleConsts
        (inv_icm42670_buffer_predisable sampleConsts (inv_icm42670_buffer_postenable
          sampleConsts (sampleBypassed [0, 0, 0, 0, 0, 0, -5])).2).2 ∧
      (inv_icm42670_buffer_predisable sampleConsts (inv_icm42670_buffer_postenable
          sampleConsts (sampleBypassed [0, 0, 0, 0, 0, 0, -5])).2).2.fifo_on = 1) ∧
    (Reachable sampleConsts (sampleBypassed [])
        (inv_icm42670_buffer_predisable sampleConsts (sampleBypassed [])).2 ∧
      ¬ streaming sampleConsts
        (inv_icm42670_buffer_predisable sampleConsts (sampleBypassed [])).2 ∧
      (inv_icm42670_buffer_predisable sampleConsts (sampleBypassed [])).2.fifo_on =
        U32_MAX) ∧
    (Reachable sampleConsts (sampleBypassed [])
        (inv_icm42670_buffer_postenable sampleConsts
          (enable_times sampleConsts U32_MAX (sampleBypassed []))).2 ∧
      (inv_icm42670_buffer_postenable sampleConsts
        (enable_times sampleConsts U32_MAX (sampleBypassed []))).2.fifo_on = 0 ∧
      streaming sampleConsts (inv_icm42670_buffer_postenable sampleConsts
        (enable_times sampleConsts U32_MAX (sampleBypassed []))).2) :=
  ⟨⟨Reachable.enable _ Reachable.init, by decide, by decide, by decide, by decide,
     by decide⟩,
   ⟨Reachable.disable _ (Reachable.enable _ Reachable.init), by decide, by decide,
     by decide⟩,
   ⟨Reachable.disable _ Reachable.init, by decide, by decide⟩,
   enable_wrap sampleConsts (sampleBypassed []) U32_MAX
     (Nat.sub_add_cancel (Nat.pow_pos (by decide))) rfl (by decide) (by decide)⟩

/-- C32, amended: in every state reached from an initial state with the counter fifo.on
at 0 and the FIFO not streaming by calls of inv_icm42670_buffer_postenable and
inv_icm42670_buffer_predisable of which each one either returns 0 or fails at an
operation not later than its write of the mode register, predisable being called only
with a non-zero counter and postenable only with a counter below the largest unsigned
int, the mode register holds the streaming value if and only if the counter is greater
than 0. The mode register is distinct from the other registers written and the bypass
value from the streaming value. -/
theorem streaming_iff_on (k : Consts) (st0 s : inv_icm42670_state)
    (h0 : st0.fifo_on = 0) (hmode : ¬ streaming k st0)
    (hd1 : k.INT_SOURCE0 ≠ k.FIFO_CONFIG1) (hd2 : k.SIGNAL_PATH_RESET ≠ k.FIFO_CONFIG1)
    (hd3 : k.FSYNC_CONFIG_MREG1 ≠ k.FIFO_CONFIG1)
    (hval : k.FIFO_CONFIG1_FIFO_BYPASS_ON ≠ stream_mode k)
    (hr : ReachableClean k st0 s) :
    streaming k s ↔ 0 < s.fifo_on :=
  (clean_invariant k st0 s h0 hmode hd1 hd2 hd3 hval hr).2

/-- Witness of C32, amended: on the sample state with the FIFO bypassed, an enable whose
third operation (the write of the mode register) fails, followed by an enable that
succeeds, leads to a streaming FIFO with the counter 1. -/
theorem streaming_iff_on_witness :
    ReachableClean sampleConsts (sampleBypassed [0, 0, -5])
      (inv_icm42670_buffer_postenable sampleConsts
        (inv_icm42670_buffer_postenable sampleConsts (sampleBypassed [0, 0, -5])).2).2 ∧
    (inv_icm42670_buffer_postenable sampleConsts
        (inv_icm42670_buffer_postenable sampleConsts
          (sampleBypassed [0, 0, -5])).2).2.fifo_on = 1 ∧
    (streaming sampleConsts
        (inv_icm42670_buffer_postenable sampleConsts
          (inv_icm42670_buffer_postenable sampleConsts (sampleBypassed [0, 0, -5])).2).2 ↔
      0 < (inv_icm42670_buffer_postenable sampleConsts
        (inv_icm42670_buffer_postenable sampleConsts
          (sampleBypassed [0, 0, -5])).2).2.fifo_on) :=
  ⟨ReachableClean.enable_ok _
      (ReachableClean.enable_fail (sampleBypassed [0, 0, -5]) 2 (-5) []
        ReachableClean.init rfl rfl (by decide) (by decide))
      (by decide) (by decide),
   by decide,
   streaming_iff_on sampleConsts (sampleBypassed [0, 0, -5]) _ rfl (by decide) (by decide)
     (by decide) (by decide) (by decide)
     (ReachableClean.enable_ok _
       (ReachableClean.enable_fail (sampleBypassed [0, 0, -5]) 2 (-5) []
         ReachableClean.init rfl rfl (by decide) (by decide))
       (by decide) (by decide))⟩


/-- Witness of C36: the sample dual-sensor record with the fsync code 0b11, whose gyro
low bytes the first call rewrites; the second call returns 16 again and stores the same
pointers. -/
theorem decode_idempotent_witness :
    inv_icm42670_fifo_decode_packet sampleConsts
        (inv_icm42670_fifo_decode_packet sampleConsts samplePacketDual out0).packet
        (inv_icm42670_fifo_decode_packet sampleConsts samplePacketDual out0).out =
      inv_icm42670_fifo_decode_packet sampleConsts samplePacketDual out0 ∧
    (inv_icm42670_fifo_decode_packet sampleConsts samplePacketDual out0).ret ≠ -22 ∧
    (inv_icm42670_fifo_decode_packet sampleConsts
        (inv_icm42670_fifo_decode_packet sampleConsts samplePacketDual out0).packet
        out0).out =
      (inv_icm42670_fifo_decode_packet sampleConsts samplePacketDual out0).out :=
  ⟨(decode_idempotent sampleConsts samplePacketDual out0).1, by decide,
   ((decode_idempotent sampleConsts samplePacketDual out0).2 out0).2.2.2 (by decide)⟩

end Icm42670
